import Mathlib

/-!
# Invoice generator: totals engine, amount in words and invoice numbering

A shallow embedding of `src/hooks/useInvoiceForm.js`, `src/utils/storage.js`,
`src/supabase/database.js` and the numbering part of `src/pages/Home.jsx`.

Numbers: a JavaScript number is followed as `NaN` or a finite value, and finite values
are kept exact (rationals). Rounding of binary64 arithmetic, overflow to an infinite value
and the sign of zero are not represented; the literal `Infinity`, which a numeric form
field cannot hold, is not read by `parseFloat` here.
-/

namespace InvoiceGenerator

/-! ## JavaScript values -/

/-- JavaScript number: `NaN` or a finite value, kept exact. -/
inductive JSNum where
  | nan : JSNum
  | fin (q : ℚ) : JSNum
  deriving DecidableEq

/-- Value of a form field or of a totals field: a number or a string. -/
inductive JSVal where
  | num (x : JSNum) : JSVal
  | str (s : String) : JSVal
  deriving DecidableEq

/-- White space and line terminators that `parseFloat`, `parseInt` and `trim` skip. -/
def isJSWhiteSpace (c : Char) : Bool :=
  c.toNat = 9 || c.toNat = 10 || c.toNat = 11 || c.toNat = 12 || c.toNat = 13 ||
  c.toNat = 32 || c.toNat = 160 || c.toNat = 5760 ||
  (8192 ≤ c.toNat && c.toNat ≤ 8202) || c.toNat = 8232 || c.toNat = 8233 ||
  c.toNat = 8239 || c.toNat = 8287 || c.toNat = 12288 || c.toNat = 65279

/-- The decimal digits `0` to `9`, the class `\\d` of a regular expression. -/
def isDecimalDigit (c : Char) : Bool := 48 ≤ c.toNat && c.toNat ≤ 57

/-- Value of a run of decimal digits, most significant first. -/
def digitsValue (ds : List Char) : Nat :=
  ds.foldl (fun acc c => 10 * acc + (c.toNat - 48)) 0

/-- Exponent part of a decimal literal (`e`, optional sign, digits): its value, or 0 when
the text does not continue with a complete exponent part. -/
def exponentPart (cs : List Char) : Int :=
  match cs with
  | c :: rest =>
    if c = 'e' ∨ c = 'E' then
      match rest with
      | '-' :: ds => - (digitsValue (ds.takeWhile isDecimalDigit) : Int)
      | '+' :: ds => (digitsValue (ds.takeWhile isDecimalDigit) : Int)
      | ds => (digitsValue (ds.takeWhile isDecimalDigit) : Int)
    else 0
  | [] => 0

/-- Signed decimal literal as read from a text: sign, the digits of the integer and fraction
parts taken together as one natural number, the number of fraction digits, the exponent. -/
structure DecimalLiteral where
  neg : Bool
  digits : Nat
  fracLen : Nat
  exp : Int
  deriving DecidableEq

/-- Longest prefix of the text, after leading white space, that is a signed decimal literal;
`none` when the text does not start with one. -/
def scanDecimal (cs : List Char) : Option DecimalLiteral :=
  let cs := cs.dropWhile isJSWhiteSpace
  let neg : Bool := match cs with
    | '-' :: _ => true
    | _ => false
  let body : List Char := match cs with
    | '-' :: r => r
    | '+' :: r => r
    | _ => cs
  let intDigits := body.takeWhile isDecimalDigit
  let afterInt := body.dropWhile isDecimalDigit
  let fracDigits : List Char := match afterInt with
    | '.' :: r => r.takeWhile isDecimalDigit
    | _ => []
  let afterFrac : List Char := match afterInt with
    | '.' :: r => r.dropWhile isDecimalDigit
    | _ => afterInt
  if intDigits.isEmpty && fracDigits.isEmpty then none
  else some
    { neg := neg
      digits := digitsValue (intDigits ++ fracDigits)
      fracLen := fracDigits.length
      exp := exponentPart afterFrac }

/-- Scale a value by a power of ten. -/
def scale10 (m : ℚ) (e : Int) : ℚ :=
  if 0 ≤ e then m * (10 : ℚ) ^ e.toNat else m / (10 : ℚ) ^ (-e).toNat

/-- Mathematical value of a decimal literal. -/
def DecimalLiteral.value (d : DecimalLiteral) : ℚ :=
  if d.neg then - scale10 ((d.digits : ℚ) / (10 : ℚ) ^ d.fracLen) d.exp
  else scale10 ((d.digits : ℚ) / (10 : ℚ) ^ d.fracLen) d.exp

/-- The built-in `parseFloat` on the characters of a string: leading white space is skipped,
then the longest prefix that is a signed decimal literal is read; `NaN` when there is none. -/
def parseFloatChars (cs : List Char) : JSNum :=
  match scanDecimal cs with
  | none => JSNum.nan
  | some d => JSNum.fin d.value

/-- The built-in `parseFloat`: a number is converted to its string and read back, which
returns the number; a string is parsed. -/
def parseFloat (v : JSVal) : JSNum :=
  match v with
  | JSVal.num x => x
  | JSVal.str s => parseFloatChars s.data

/-- The expression `x || 0` on a number: `NaN` and zero are falsy and give 0, every other
number gives itself. The result is never `NaN`. -/
def orZero (x : JSNum) : ℚ :=
  match x with
  | JSNum.nan => 0
  | JSNum.fin q => q

/-- Truthiness of a value: `NaN`, zero and the empty string are falsy. -/
def truthy (v : JSVal) : Bool :=
  match v with
  | JSVal.num JSNum.nan => false
  | JSVal.num (JSNum.fin q) => decide (q ≠ 0)
  | JSVal.str s => decide (s ≠ "")

/-- The built-in `String(n)` for a non-negative integer: its decimal digits. -/
def natToString (n : Nat) : String := Nat.repr n

/-- The built-in `padStart(targetLength, fill)` with a one-character fill string. -/
def padStart (s : String) (targetLength : Nat) (fill : Char) : String :=
  String.mk (List.replicate (targetLength - s.length) fill ++ s.data)

/-- The integer `n` for which `n / 10^f` is nearest to `|x|`, the larger one on a tie. -/
def roundHalfUp (x : ℚ) (f : Nat) : Nat :=
  (Int.floor (|x| * (10 : ℚ) ^ f + 1 / 2)).toNat

/-- Fixed-point notation of `n / 10^f` with exactly `f` fraction digits and an optional
minus sign: the digits of `n`, padded with zeros to `f + 1` digits, split before the last `f`. -/
def fixedNotation (neg : Bool) (n : Nat) (f : Nat) : String :=
  let m : String := if (natToString n).length ≤ f then padStart (natToString n) (f + 1) '0'
    else natToString n
  let k := m.length
  let body : List Char :=
    if f = 0 then m.data else m.data.take (k - f) ++ '.' :: m.data.drop (k - f)
  String.mk (if neg then '-' :: body else body)

/-- The built-in `toFixed(f)` on a finite number below `10^21` in magnitude: the nearest
multiple of `10^-f` (the larger one on a tie), written with exactly `f` fraction digits. -/
def toFixed (x : ℚ) (f : Nat) : String :=
  fixedNotation (decide (x < 0)) (roundHalfUp x f) f

/-- The built-in `Math.floor` on a finite number. -/
def mathFloor (x : ℚ) : ℚ := (Int.floor x : ℚ)

/-- The remainder operator `a % b` on finite numbers, `b` not zero: the quotient is
truncated toward zero, so the result has the sign of `a`. -/
def jsMod (a b : ℚ) : ℚ :=
  a - b * ((if 0 ≤ a / b then Int.floor (a / b) else Int.ceil (a / b) : Int) : ℚ)

/-- Array index denoted by a number: the number itself when it is a non-negative integer. -/
def arrayIndex (i : ℚ) : Option Nat :=
  if 0 ≤ i ∧ ((Int.floor i : Int) : ℚ) = i then some (Int.floor i).toNat else none

/-- Text that the read `arr[i]` contributes to a string concatenation: the element when `i`
is an index within bounds, and the text of `undefined` otherwise. -/
def elemText (arr : List String) (i : Option Nat) : String :=
  match i with
  | some k => arr.getD k "undefined"
  | none => "undefined"

/-- The built-in `trim`: white space removed from both ends. -/
def jsTrim (s : String) : String :=
  String.mk ((s.data.dropWhile isJSWhiteSpace).reverse.dropWhile isJSWhiteSpace).reverse

/-! ## Form state (`useInvoiceForm`) -/

/-- One line item of the form. -/
structure LineItem where
  id : Nat
  description : String
  price : JSVal
  deriving DecidableEq

/-- The `formData` state of the form. -/
structure FormData where
  currency : String
  invoiceNumber : String
  paymentDate : String
  invoiceForName : String
  invoiceForCompany : String
  transferMethod : String
  transactionId : String
  status : String
  notes : String
  amountInWords : String
  discount : JSVal
  deriving DecidableEq

/-- The `totals` state: numbers 0 initially, two-decimal strings after `calculateTotals`. -/
structure Totals where
  subtotal : JSVal
  discount : JSVal
  total : JSVal
  deriving DecidableEq

/-- Initial `totals` state. -/
def initialTotals : Totals :=
  { subtotal := JSVal.num (JSNum.fin 0)
    discount := JSVal.num (JSNum.fin 0)
    total := JSVal.num (JSNum.fin 0) }

/-! ## Totals engine -/

/-- The local `subtotal` of `calculateTotals`:
`lineItems.reduce((sum, item) => sum + (parseFloat(item.price) || 0), 0)`. -/
def subtotalOf (lineItems : List LineItem) : ℚ :=
  lineItems.foldl (fun sum item => sum + orZero (parseFloat item.price)) 0

/-- The local `discount` of `calculateTotals`: `parseFloat(formData.discount) || 0`. -/
def discountOf (formData : FormData) : ℚ :=
  orZero (parseFloat formData.discount)

/-- The local `total` of `calculateTotals`: `Math.max(0, subtotal - discount)`. -/
def totalOf (lineItems : List LineItem) (formData : FormData) : ℚ :=
  max 0 (subtotalOf lineItems - discountOf formData)

/-- The totals that `calculateTotals` stores with `setTotals`. -/
def calculateTotals (lineItems : List LineItem) (formData : FormData) : Totals :=
  { subtotal := JSVal.str (toFixed (subtotalOf lineItems) 2)
    discount := JSVal.str (toFixed (discountOf formData) 2)
    total := JSVal.str (toFixed (totalOf lineItems formData) 2) }

/-! ## Amount in words -/

/-- The table `ones` of `numberToWords`. -/
def ones : List String :=
  ["", "One", "Two", "Three", "Four", "Five", "Six", "Seven", "Eight", "Nine",
   "Ten", "Eleven", "Twelve", "Thirteen", "Fourteen", "Fifteen", "Sixteen",
   "Seventeen", "Eighteen", "Nineteen"]

/-- The table `tens` of `numberToWords`. -/
def tens : List String :=
  ["", "", "Twenty", "Thirty", "Forty", "Fifty", "Sixty", "Seventy", "Eighty", "Ninety"]

/-- The inner function `convertLessThanThousand` of `numberToWords`. -/
def convertLessThanThousand (n : ℚ) : String :=
  if _h0 : n = 0 then ""
  else if _h1 : n < 20 then elemText ones (arrayIndex n)
  else if _h2 : n < 100 then
    elemText tens (arrayIndex (mathFloor (n / 10))) ++
      (if jsMod n 10 ≠ 0 then " " ++ elemText ones (arrayIndex (jsMod n 10)) else "")
  else
    elemText ones (arrayIndex (mathFloor (n / 100))) ++ " Hundred" ++
      (if jsMod n 100 ≠ 0 then " " ++ convertLessThanThousand (jsMod n 100) else "")
termination_by (if 100 ≤ n then 1 else 0 : Nat)
decreasing_by
  have hn : (100 : ℚ) ≤ n := not_lt.mp _h2
  have hq : 0 ≤ n / 100 := div_nonneg (by linarith) (by norm_num)
  have h1 : n / 100 < (Int.floor (n / 100) : ℚ) + 1 := Int.lt_floor_add_one (n / 100)
  have hlt : jsMod n 100 < 100 := by
    simp only [jsMod, hq, if_true]
    linarith
  simp [hn, not_le.mpr hlt]

/-- The inner function `convert` of `numberToWords`; the assignments to `result` and `n`
are followed one after the other. -/
def convert (n : ℚ) : String :=
  if n = 0 then ""
  else
    let result0 : String := ""
    let crore : Bool := decide (mathFloor (n / 10000000) > 0)
    let result1 : String :=
      if crore then result0 ++ (convertLessThanThousand (mathFloor (n / 10000000)) ++ " Crore ")
      else result0
    let n1 : ℚ := if crore then jsMod n 10000000 else n
    let lakh : Bool := decide (mathFloor (n1 / 100000) > 0)
    let result2 : String :=
      if lakh then result1 ++ (convertLessThanThousand (mathFloor (n1 / 100000)) ++ " Lakh ")
      else result1
    let n2 : ℚ := if lakh then jsMod n1 100000 else n1
    let thousand : Bool := decide (mathFloor (n2 / 1000) > 0)
    let result3 : String :=
      if thousand then
        result2 ++ (convertLessThanThousand (mathFloor (n2 / 1000)) ++ " Thousand ")
      else result2
    let n3 : ℚ := if thousand then jsMod n2 1000 else n2
    let result4 : String := result3 ++ convertLessThanThousand n3
    jsTrim result4

/-- The helper `numberToWords(num)`. -/
def numberToWords (num : ℚ) : String :=
  if num = 0 then "Zero" else convert num

/-- The form data of a fresh form, with the given discount field. -/
def sampleForm (discount : JSVal) : FormData :=
  { currency := "৳", invoiceNumber := "GP-0001", paymentDate := "2024-01-15",
    invoiceForName := "Acme Co.", invoiceForCompany := "", transferMethod := "",
    transactionId := "", status := "Pending", notes := "All payments are non refundable",
    amountInWords := "", discount := discount }

/-! ## Refresh of the amount in words -/

/-- Body of the effect on `totals.total`: when the total is truthy and parses to a number
above zero, `amountInWords` is replaced by the words of the total. -/
def refreshAmountInWords (totals : Totals) (prev : FormData) : FormData :=
  match parseFloat totals.total with
  | JSNum.nan => prev
  | JSNum.fin total =>
    if truthy totals.total = true ∧ 0 < total then
      { prev with amountInWords := "In Words: " ++ numberToWords total ++ " Only." }
    else prev

/-- A render in which the totals went from `old` to `new`: the effect depends on
`totals.total` and runs when that value changed. -/
def onTotalsChange (old new : Totals) (formData : FormData) : FormData :=
  if new.total = old.total then formData else refreshAmountInWords new formData

/-! ## Integers as binary64 numbers

The invoice counter is read with `parseInt`, increased with `+ 1` and written with `String`.
These work on binary64 numbers: an integer is kept exactly up to `2 ^ 53`; beyond, it is
rounded to 53 significant bits, and from `10 ^ 21` on its text is in exponential notation. -/

/-- The least shift, counted from `s`, that brings `n` below `2 ^ 53`: the number of low
bits that do not fit into the 53 bits of a binary64 significand. -/
def shiftBelow (n : Nat) : Nat → Nat → Nat
  | 0, s => s
  | fuel + 1, s => if n / 2 ^ s < 9007199254740992 then s else shiftBelow n fuel (s + 1)

/-- The binary64 number nearest to the natural number `n`: the low bits that do not fit are
rounded off, a tie goes to the even significand. Up to `2 ^ 53` the result is `n`. -/
def roundBinary64 (n : Nat) : Nat :=
  if 2 ^ shiftBelow n n 0 < 2 * (n % 2 ^ shiftBelow n n 0) ∨
      (2 * (n % 2 ^ shiftBelow n n 0) = 2 ^ shiftBelow n n 0 ∧
        n / 2 ^ shiftBelow n n 0 % 2 = 1) then
    (n / 2 ^ shiftBelow n n 0 + 1) * 2 ^ shiftBelow n n 0
  else n / 2 ^ shiftBelow n n 0 * 2 ^ shiftBelow n n 0

/-- The largest binary64 number, `(2 ^ 53 - 1) * 2 ^ 971`. -/
def maxBinary64 : Nat := (2 ^ 53 - 1) * 2 ^ 243 * 2 ^ 243 * 2 ^ 243 * 2 ^ 242

/-- A number of the invoice counter: `NaN`, an infinity, or a binary64 number with an
integer value. -/
inductive JSInt where
  | nan : JSInt
  | infinity (negative : Bool) : JSInt
  | fin (value : Int) : JSInt
  deriving DecidableEq

/-- The Number value of an integer given by its sign and its magnitude: the nearest binary64
number, an infinity beyond the largest one. -/
def toNumber (negative : Bool) (n : Nat) : JSInt :=
  if roundBinary64 n ≤ maxBinary64 then
    JSInt.fin (if negative then - (roundBinary64 n : Int) else (roundBinary64 n : Int))
  else JSInt.infinity negative

/-- The sum `x + 1`: the exact sum rounded to binary64. -/
def JSInt.addOne (x : JSInt) : JSInt :=
  match x with
  | JSInt.fin i => toNumber (decide (i + 1 < 0)) (i + 1).natAbs
  | other => other

/-- The comparison `a > b`; it is false when one side is `NaN`. -/
def JSInt.gt (a b : JSInt) : Bool :=
  match a, b with
  | JSInt.nan, _ => false
  | _, JSInt.nan => false
  | JSInt.infinity negative, JSInt.infinity otherNegative => !negative && otherNegative
  | JSInt.infinity negative, JSInt.fin _ => !negative
  | JSInt.fin _, JSInt.infinity otherNegative => otherNegative
  | JSInt.fin i, JSInt.fin j => decide (j < i)

/-- The number with `k` significant digits that `Number::toString` can take for `x`, a
binary64 number with `d` digits: of the two numbers with `k` significant digits around `x`,
one that is read back as `x`, the nearer one when both are, the one with the even last digit
when they are equally near; `none` when neither is read back as `x`. -/
def shortestCandidate (x d k : Nat) : Option Nat :=
  if roundBinary64 (x / 10 ^ (d - k) * 10 ^ (d - k)) = x then
    if roundBinary64 ((x / 10 ^ (d - k) + 1) * 10 ^ (d - k)) = x then
      if x - x / 10 ^ (d - k) * 10 ^ (d - k) < (x / 10 ^ (d - k) + 1) * 10 ^ (d - k) - x then
        some (x / 10 ^ (d - k) * 10 ^ (d - k))
      else if (x / 10 ^ (d - k) + 1) * 10 ^ (d - k) - x <
          x - x / 10 ^ (d - k) * 10 ^ (d - k) then
        some ((x / 10 ^ (d - k) + 1) * 10 ^ (d - k))
      else if x / 10 ^ (d - k) % 2 = 0 then some (x / 10 ^ (d - k) * 10 ^ (d - k))
      else some ((x / 10 ^ (d - k) + 1) * 10 ^ (d - k))
    else some (x / 10 ^ (d - k) * 10 ^ (d - k))
  else if roundBinary64 ((x / 10 ^ (d - k) + 1) * 10 ^ (d - k)) = x then
    some ((x / 10 ^ (d - k) + 1) * 10 ^ (d - k))
  else none

/-- The number whose digits `Number::toString` writes for the binary64 number `x`: the one
with the fewest significant digits that is read back as `x`. -/
def shortestDecimal (x : Nat) : Nat :=
  (((List.range (Nat.toDigits 10 x).length).map (fun k => k + 1)).findSome?
    (shortestCandidate x (Nat.toDigits 10 x).length)).getD x

/-- The exponential notation of `Number::toString` for a number of more than 21 digits: the
significant digits, a point after the first one when there are several, and the exponent. -/
def exponentialNotation (digits : List Char) : String :=
  match (digits.reverse.dropWhile (fun c => decide (c = '0'))).reverse with
  | [] => "0"
  | [c] => String.mk [c] ++ "e+" ++ natToString (digits.length - 1)
  | c :: rest => String.mk (c :: '.' :: rest) ++ "e+" ++ natToString (digits.length - 1)

/-- The text `String(x)` of a binary64 number `x` that is a natural number: its shortest
digits, written out in full up to 21 digits and in exponential notation beyond. -/
def naturalToString (x : Nat) : String :=
  if (Nat.toDigits 10 (shortestDecimal x)).length ≤ 21 then
    String.mk (Nat.toDigits 10 (shortestDecimal x))
  else exponentialNotation (Nat.toDigits 10 (shortestDecimal x))

/-- The built-in `parseInt(s, 10)`: leading white space is skipped, then an optional sign and
the longest run of decimal digits are read, and the integer read is returned as a binary64
number; the result is `NaN` when there is no digit. -/
def parseInt10 (s : String) : JSInt :=
  let cs := s.data.dropWhile isJSWhiteSpace
  let neg : Bool := match cs with
    | '-' :: _ => true
    | _ => false
  let body : List Char := match cs with
    | '-' :: r => r
    | '+' :: r => r
    | _ => cs
  let ds := body.takeWhile isDecimalDigit
  if ds.isEmpty then JSInt.nan
  else toNumber neg (digitsValue ds)

/-- The built-in `String(x)`, also `x.toString()`, on a number of the invoice counter. -/
def intToString (x : JSInt) : String :=
  match x with
  | JSInt.nan => "NaN"
  | JSInt.infinity negative => if negative then "-Infinity" else "Infinity"
  | JSInt.fin i => if i < 0 then "-" ++ naturalToString i.natAbs else naturalToString i.toNat

/-! ## Local sequence counter (`storage`) -/

/-- The browser storage as the sequence counter sees it: the item stored under
`INVOICE_SEQUENCE_KEY`, and whether access to the storage works (`available`) or throws,
which the `try`/`catch` of the storage functions absorbs. -/
structure LocalStorage where
  sequence : Option String
  available : Bool
  deriving DecidableEq

namespace storage

/-- `storage.getLastInvoiceNumber`: the stored sequence read in base 10, and 0 when there
is none or when the storage throws. -/
def getLastInvoiceNumber (ls : LocalStorage) : JSInt :=
  if ls.available then
    match ls.sequence with
    | some sequence => if sequence ≠ "" then parseInt10 sequence else JSInt.fin 0
    | none => JSInt.fin 0
  else JSInt.fin 0

/-- `storage.saveInvoiceNumber`: the number is stored as text; nothing changes when the
storage throws. -/
def saveInvoiceNumber (ls : LocalStorage) (number : JSInt) : LocalStorage :=
  if ls.available then { ls with sequence := some (intToString number) } else ls

/-- `storage.getCurrentInvoiceNumber`: the number after the stored one, formatted. -/
def getCurrentInvoiceNumber (ls : LocalStorage) : String :=
  let lastNumber := getLastInvoiceNumber ls
  let currentNumber := lastNumber.addOne
  "GP-" ++ padStart (intToString currentNumber) 4 '0'

end storage

/-! ## Remote store (`supabaseService`) and the number of a new invoice -/

/-- Answer of the store to the query for invoice numbers: the `invoice_number` of each row
returned, or an error. -/
structure QueryResponse where
  data : Option (List String)
  error : Option String
  deriving DecidableEq

/-- The filter `ilike('invoice_number', 'GP-%')`: the text starts with `GP-`, letters
compared without regard to case. -/
def ilikeGP (invoiceNumber : String) : Bool :=
  (invoiceNumber.data.take 3).map Char.toLower == ['g', 'p', '-']

/-- The store answering the query of `getLastInvoiceNumber` on a table with the given
invoice numbers. The order of the rows, which depends on the collation of the store, is not
represented; the rows are returned in the order of the table. -/
def selectInvoiceNumbers (table : List String) : QueryResponse :=
  { data := some (table.filter ilikeGP), error := none }

/-- The capture group of `match(/GP-(\d+)/)`: the digits after the first place in the text
where `GP-` is followed by at least one digit; `none` when the text has no such place. -/
def matchGP : List Char → Option (List Char)
  | [] => none
  | c :: rest =>
    match c :: rest with
    | 'G' :: 'P' :: '-' :: d :: tail =>
      if isDecimalDigit d then some ((d :: tail).takeWhile isDecimalDigit) else matchGP rest
    | _ => matchGP rest

namespace supabaseService

/-- `supabaseService.getLastInvoiceNumber`: the highest number among the rows that match
`GP-` and digits, each read by `parseInt`; 0 when there is no row; an error of the store is
caught and gives 0. -/
def getLastInvoiceNumber (response : QueryResponse) : Except String JSInt :=
  match response.error with
  | some _ => Except.ok (JSInt.fin 0)
  | none =>
    match response.data with
    | some data =>
      if data.length > 0 then
        Except.ok (data.foldl (fun maxNumber invoiceNumber =>
          match matchGP invoiceNumber.data with
          | some digits =>
            if (parseInt10 (String.mk digits)).gt maxNumber then parseInt10 (String.mk digits)
            else maxNumber
          | none => maxNumber) (JSInt.fin 0))
      else Except.ok (JSInt.fin 0)
    | none => Except.ok (JSInt.fin 0)

end supabaseService

/-- The invoice number that `initializeInvoice` puts into a new form: the number after the
last one of the store, formatted; the local counter when the call to the store throws. -/
def initializeInvoice (response : QueryResponse) (ls : LocalStorage) : String :=
  match supabaseService.getLastInvoiceNumber response with
  | Except.ok lastNumber => "GP-" ++ padStart (intToString lastNumber.addOne) 4 '0'
  | Except.error _ => storage.getCurrentInvoiceNumber ls

/-- A fresh form without discount, as `useInvoiceForm` starts it. -/
def blankForm : FormData := sampleForm (JSVal.num (JSNum.fin 0))

/-- One line item priced 5. -/
def pricedItems : List LineItem := [⟨1, "Service", JSVal.str "5"⟩]

/-- The same line item after its price field was cleared. -/
def clearedItems : List LineItem := [⟨1, "Service", JSVal.str ""⟩]

/-- The invoice number `GP-` followed by the given digits. -/
def gpNumber (digits : List Char) : String := String.mk ('G' :: 'P' :: '-' :: digits)

/-- The step of the loop of `getLastInvoiceNumber` over the rows. -/
def maxStep (maxNumber : JSInt) (invoiceNumber : String) : JSInt :=
  match matchGP invoiceNumber.data with
  | some digits =>
    if (parseInt10 (String.mk digits)).gt maxNumber then parseInt10 (String.mk digits)
    else maxNumber
  | none => maxNumber

/-! ## Amount in words on integers

The same computation on a natural number, with integer division and remainder. It is shown
below to agree with `numberToWords` on every non-negative integer. -/

/-- Reading of `convertLessThanThousand` on a natural number below one hundred. -/
def lessThanHundredWords (n : Nat) : String :=
  if n = 0 then ""
  else if n < 20 then ones.getD n "undefined"
  else tens.getD (n / 10) "undefined" ++
    (if n % 10 ≠ 0 then " " ++ ones.getD (n % 10) "undefined" else "")

/-- Reading of `convertLessThanThousand` on a natural number. -/
def lessThanThousandWords (n : Nat) : String :=
  if n < 100 then lessThanHundredWords n
  else ones.getD (n / 100) "undefined" ++ " Hundred" ++
    (if n % 100 ≠ 0 then " " ++ lessThanHundredWords (n % 100) else "")

/-- Reading of `convert` on a natural number. -/
def convertNat (n : Nat) : String :=
  if n = 0 then ""
  else
    jsTrim
      ((((if n / 10000000 > 0 then "" ++ (lessThanThousandWords (n / 10000000) ++ " Crore ")
            else "") ++
          (if n % 10000000 / 100000 > 0 then
            lessThanThousandWords (n % 10000000 / 100000) ++ " Lakh " else "")) ++
        (if n % 100000 / 1000 > 0 then
          lessThanThousandWords (n % 100000 / 1000) ++ " Thousand " else "")) ++
      lessThanThousandWords (n % 1000))

/-- Reading of `numberToWords` on a natural number. -/
def numberToWordsNat (n : Nat) : String :=
  if n = 0 then "Zero" else convertNat n

/-! ## Words of a reading -/

/-- Words joined by single spaces. -/
def spaceJoin : List String → String
  | [] => ""
  | [w] => w
  | w :: v :: rest => w ++ " " ++ spaceJoin (v :: rest)

/-- A word: a non-empty text without white space. -/
def IsWord (w : String) : Prop :=
  w.data ≠ [] ∧ ∀ c ∈ w.data, isJSWhiteSpace c = false

/-- The words that `convertLessThanThousand` writes for a natural number below one hundred. -/
def hundredWordList (n : Nat) : List String :=
  if n = 0 then []
  else if n < 20 then [ones.getD n "undefined"]
  else tens.getD (n / 10) "undefined" ::
    (if n % 10 ≠ 0 then [ones.getD (n % 10) "undefined"] else [])

/-- The words that `convertLessThanThousand` writes for a natural number. -/
def thousandWordList (n : Nat) : List String :=
  if n < 100 then hundredWordList n
  else ones.getD (n / 100) "undefined" :: "Hundred" :: hundredWordList (n % 100)

/-- The words that `convert` writes for a natural number, group after group. -/
def wordList (n : Nat) : List String :=
  (if n / 10000000 > 0 then thousandWordList (n / 10000000) ++ ["Crore"] else []) ++
  (if n % 10000000 / 100000 > 0 then thousandWordList (n % 10000000 / 100000) ++ ["Lakh"]
    else []) ++
  (if n % 100000 / 1000 > 0 then thousandWordList (n % 100000 / 1000) ++ ["Thousand"]
    else []) ++
  thousandWordList (n % 1000)

/-- A list of words followed by one space, or nothing when there is no word. -/
def spaceJoinThen (ws : List String) : String :=
  if ws = [] then "" else spaceJoin ws ++ " "

/-- Text in which white space occurs only as single characters between other characters:
not empty, no white space at either end, no two adjacent white-space characters. -/
def SingleSpaced (l : List Char) : Prop :=
  l ≠ [] ∧ (∀ c, l.head? = some c → isJSWhiteSpace c = false) ∧
    (∀ c, l.getLast? = some c → isJSWhiteSpace c = false) ∧
    List.Chain' (fun a b => ¬ (isJSWhiteSpace a = true ∧ isJSWhiteSpace b = true)) l

/-! ## The reading that the specification describes -/

/-- Specification side: the English words for 1 to 19. -/
def specSmallWord : Nat → String
  | 1 => "One" | 2 => "Two" | 3 => "Three" | 4 => "Four" | 5 => "Five"
  | 6 => "Six" | 7 => "Seven" | 8 => "Eight" | 9 => "Nine" | 10 => "Ten"
  | 11 => "Eleven" | 12 => "Twelve" | 13 => "Thirteen" | 14 => "Fourteen"
  | 15 => "Fifteen" | 16 => "Sixteen" | 17 => "Seventeen" | 18 => "Eighteen"
  | 19 => "Nineteen" | _ => ""

/-- Specification side: the English words for the multiples of ten from 20 to 90. -/
def specTensWord : Nat → String
  | 2 => "Twenty" | 3 => "Thirty" | 4 => "Forty" | 5 => "Fifty" | 6 => "Sixty"
  | 7 => "Seventy" | 8 => "Eighty" | 9 => "Ninety" | _ => ""

/-- Specification side: the English cardinal of a number from 1 to 99. -/
def specCardinalBelowHundred (k : Nat) : String :=
  if k < 20 then specSmallWord k
  else if k % 10 = 0 then specTensWord (k / 10)
  else specTensWord (k / 10) ++ " " ++ specSmallWord (k % 10)

/-- Specification side: the English cardinal of a number from 1 to 999. -/
def specCardinalBelowThousand (k : Nat) : String :=
  if k < 100 then specCardinalBelowHundred k
  else if k % 100 = 0 then specSmallWord (k / 100) ++ " Hundred"
  else specSmallWord (k / 100) ++ " Hundred " ++ specCardinalBelowHundred (k % 100)

/-- Specification side: the phrases of the three-digit groups of a number, the highest
group first, each followed by the next scale word of the list. -/
def specGroupPhrases : List String → Nat → List String
  | [], _ => []
  | scale :: higher, k =>
    specGroupPhrases higher (k / 1000) ++
      (if k % 1000 > 0 then
        [if scale = "" then specCardinalBelowThousand (k % 1000)
          else specCardinalBelowThousand (k % 1000) ++ " " ++ scale]
       else [])

/-- Specification side: the standard English cardinal of a positive integer below `10^21`,
in groups of three digits: thousand, million, billion and so on. -/
def specCardinal (k : Nat) : String :=
  spaceJoin (specGroupPhrases
    ["", "Thousand", "Million", "Billion", "Trillion", "Quadrillion", "Quintillion"] k)

/-- Specification side: the Indian-numbering reading of a non-negative integer, the
single-space join of the crore, lakh, thousand and rest phrases that are present. -/
def specIndianReading (n : Nat) : String :=
  if n = 0 then "Zero"
  else spaceJoin
    ((if n / 10000000 > 0 then [specCardinal (n / 10000000) ++ " Crore"] else []) ++
     (if n % 10000000 / 100000 > 0 then [specCardinal (n % 10000000 / 100000) ++ " Lakh"]
      else []) ++
     (if n % 100000 / 1000 > 0 then [specCardinal (n % 100000 / 1000) ++ " Thousand"]
      else []) ++
     (if n % 1000 > 0 then [specCardinal (n % 1000)] else []))

/-! ## Line items of the form -/

/-- The line items of a fresh form: `useState([{ id: 1, description: '', price: 0 }])`. -/
def initialLineItems : List LineItem := [⟨1, "", JSVal.num (JSNum.fin 0)⟩]

/-- The field that a call of `updateLineItem` names, with the value for it. The form names
`description` and `price`, each with the text of its input. -/
inductive LineItemEdit where
  | description (value : String) : LineItemEdit
  | price (value : JSVal) : LineItemEdit
  deriving DecidableEq

/-- The object `{ ...item, [field]: value }`. -/
def LineItemEdit.applyTo (edit : LineItemEdit) (item : LineItem) : LineItem :=
  match edit with
  | LineItemEdit.description value => { item with description := value }
  | LineItemEdit.price value => { item with price := value }

/-- `updateLineItem(id, field, value)`. -/
def updateLineItem (lineItems : List LineItem) (id : Nat) (edit : LineItemEdit) :
    List LineItem :=
  lineItems.map (fun item => if item.id = id then edit.applyTo item else item)

/-- The new id of `addLineItem`: `Math.max(...lineItems.map(item => item.id), 0) + 1`. -/
def newLineItemId (lineItems : List LineItem) : Nat :=
  (lineItems.map (fun item => item.id)).foldl max 0 + 1

/-- `addLineItem()`; the new id and the append are taken on the same list, as when every
call is followed by a render. -/
def addLineItem (lineItems : List LineItem) : List LineItem :=
  lineItems ++ [⟨newLineItemId lineItems, "", JSVal.num (JSNum.fin 0)⟩]

/-- `removeLineItem(id)`; the test of the length and the update are taken on the same list,
as when every call is followed by a render. -/
def removeLineItem (lineItems : List LineItem) (id : Nat) : List LineItem :=
  if lineItems.length > 1 then
    lineItems.filter (fun item => decide (item.id ≠ id))
  else
    lineItems.map (fun item =>
      if item.id = id then { item with description := "", price := JSVal.num (JSNum.fin 0) }
      else item)

/-- The first part of an ISO date-time text: `toISOString().split('T')[0]`. -/
def isoDatePart (isoNow : String) : String :=
  String.mk (isoNow.data.takeWhile (fun c => decide (c ≠ 'T')))

/-- `resetForm()`: the form data of a fresh form with the current number of the local
counter, and the line items of a fresh form. -/
def resetForm (ls : LocalStorage) (isoNow : String) : FormData × List LineItem :=
  ({ currency := "৳"
     invoiceNumber := storage.getCurrentInvoiceNumber ls
     paymentDate := isoDatePart isoNow
     invoiceForName := ""
     invoiceForCompany := ""
     transferMethod := ""
     transactionId := ""
     status := "Pending"
     notes := "All payments are non refundable"
     amountInWords := ""
     discount := JSVal.num (JSNum.fin 0) },
   [⟨1, "", JSVal.num (JSNum.fin 0)⟩])

/-- A line item as read from a stored invoice; `none` stands for a field that is absent. -/
structure StoredLineItem where
  description : Option String
  price : Option JSVal
  deriving DecidableEq

/-- The expression `text || fallback` on a text that may be absent. -/
def textOr (text : Option String) (fallback : String) : String :=
  match text with
  | some t => if t ≠ "" then t else fallback
  | none => fallback

/-- The expression `value || fallback` on a value that may be absent. -/
def valueOr (value : Option JSVal) (fallback : JSVal) : JSVal :=
  match value with
  | some v => if truthy v then v else fallback
  | none => fallback

/-- The line items that `loadInvoiceForEdit` builds from the stored ones, the stored item
at position `index` getting the id `Date.now() + index`; the clock is read as `now`. -/
def loadedLineItems (now : Nat) : Nat → List StoredLineItem → List LineItem
  | _, [] => []
  | index, item :: rest =>
    ⟨now + index, textOr item.description "", valueOr item.price (JSVal.num (JSNum.fin 0))⟩ ::
      loadedLineItems now (index + 1) rest

/-- The line items after `loadInvoiceForEdit` found the invoice: `lineItems` of the stored
invoice is its `line_items` when that is an array and `none` otherwise, in which case the
line items of the form stay. -/
def loadInvoiceLineItems (stored : Option (List StoredLineItem)) (now : Nat)
    (lineItems : List LineItem) : List LineItem :=
  match stored with
  | some items =>
    if (loadedLineItems now 0 items).length > 0 then loadedLineItems now 0 items
    else [⟨now, "", JSVal.num (JSNum.fin 0)⟩]
  | none => lineItems

/-- One step of a form session on the line items. -/
inductive LineItemAction where
  | add : LineItemAction
  | remove (id : Nat) : LineItemAction
  | update (id : Nat) (edit : LineItemEdit) : LineItemAction
  | reset (ls : LocalStorage) (isoNow : String) : LineItemAction
  | load (stored : Option (List StoredLineItem)) (now : Nat) : LineItemAction

/-- The line items after one step of a form session. -/
def LineItemAction.run (lineItems : List LineItem) (action : LineItemAction) : List LineItem :=
  match action with
  | LineItemAction.add => addLineItem lineItems
  | LineItemAction.remove id => removeLineItem lineItems id
  | LineItemAction.update id edit => updateLineItem lineItems id edit
  | LineItemAction.reset ls isoNow => (resetForm ls isoNow).2
  | LineItemAction.load stored now => loadInvoiceLineItems stored now lineItems

/-! ## Submission (`getInvoiceData`, `saveInvoice`, `updateInvoice`, `handleSelectTemplate`) -/

/-- The object that `getInvoiceData` returns, `{ ...formData, lineItems, ...totals }`, with
the `templateId` that `handleSelectTemplate` adds. The `discount` of the totals replaces the
one of the form data. -/
structure InvoiceData where
  currency : String
  invoiceNumber : String
  paymentDate : String
  invoiceForName : String
  invoiceForCompany : String
  transferMethod : String
  transactionId : String
  status : String
  notes : String
  amountInWords : String
  lineItems : List LineItem
  subtotal : JSVal
  discount : JSVal
  total : JSVal
  templateId : Option Nat
  deriving DecidableEq

/-- The filter of `getInvoiceData`:
`item.description.trim() || (parseFloat(item.price) || 0) > 0`. -/
def isValidLineItem (item : LineItem) : Bool :=
  decide (jsTrim item.description ≠ "") || decide (0 < orZero (parseFloat item.price))

/-- `getInvoiceData()`. -/
def getInvoiceData (formData : FormData) (lineItems : List LineItem) (totals : Totals) :
    InvoiceData :=
  { currency := formData.currency
    invoiceNumber := formData.invoiceNumber
    paymentDate := formData.paymentDate
    invoiceForName := formData.invoiceForName
    invoiceForCompany := formData.invoiceForCompany
    transferMethod := formData.transferMethod
    transactionId := formData.transactionId
    status := formData.status
    notes := formData.notes
    amountInWords := formData.amountInWords
    lineItems := lineItems.filter isValidLineItem
    subtotal := totals.subtotal
    discount := totals.discount
    total := totals.total
    templateId := none }

/-- A line item as the object that the form holds and sends: its fields in order. -/
def LineItem.toObject (item : LineItem) : List (String × JSVal) :=
  [("id", JSVal.num (JSNum.fin (item.id : ℚ))), ("description", JSVal.str item.description),
   ("price", item.price)]

/-- The expression `text || null`. -/
def textOrNull (text : String) : Option String :=
  if text ≠ "" then some text else none

/-- The record that `saveInvoice` inserts and `updateInvoice` writes; `updated_at` is set by
`updateInvoice` only. -/
structure InvoiceRow where
  template_id : Nat
  currency : String
  invoice_number : String
  payment_date : String
  invoice_for_name : String
  invoice_for_company : Option String
  transfer_method : Option String
  transaction_id : Option String
  status : String
  notes : Option String
  amount_in_words : Option String
  discount : ℚ
  subtotal : ℚ
  total : ℚ
  line_items : List (List (String × JSVal))
  updated_at : Option String
  deriving DecidableEq

/-- Answer of the store to an insert or an update. -/
structure StoreAnswer where
  data : Option InvoiceRow
  error : Option String
  deriving DecidableEq

namespace supabaseService

/-- The record built by `saveInvoice` from the invoice data. -/
def saveInvoiceRow (invoiceData : InvoiceData) : InvoiceRow :=
  { template_id := match invoiceData.templateId with
      | some t => if t ≠ 0 then t else 1
      | none => 1
    currency := invoiceData.currency
    invoice_number := invoiceData.invoiceNumber
    payment_date := invoiceData.paymentDate
    invoice_for_name := invoiceData.invoiceForName
    invoice_for_company := textOrNull invoiceData.invoiceForCompany
    transfer_method := textOrNull invoiceData.transferMethod
    transaction_id := textOrNull invoiceData.transactionId
    status := if invoiceData.status ≠ "" then invoiceData.status else "Pending"
    notes := textOrNull invoiceData.notes
    amount_in_words := textOrNull invoiceData.amountInWords
    discount := orZero (parseFloat invoiceData.discount)
    subtotal := orZero (parseFloat invoiceData.subtotal)
    total := orZero (parseFloat invoiceData.total)
    line_items := invoiceData.lineItems.map LineItem.toObject
    updated_at := none }

/-- The record built by `updateInvoice`: the same fields and the time of the update. -/
def updateInvoiceRow (invoiceData : InvoiceData) (isoNow : String) : InvoiceRow :=
  { saveInvoiceRow invoiceData with updated_at := some isoNow }

/-- `supabaseService.saveInvoice`: the record is handed to the insert of the store; an error
of the store is thrown to the caller. -/
def saveInvoice (insert : InvoiceRow → StoreAnswer) (invoiceData : InvoiceData) :
    Except String (Option InvoiceRow) :=
  match (insert (saveInvoiceRow invoiceData)).error with
  | some error => Except.error error
  | none => Except.ok (insert (saveInvoiceRow invoiceData)).data

/-- `supabaseService.updateInvoice`: the record is handed to the update of the store for the
given id; an error of the store is thrown to the caller. -/
def updateInvoice (update : String → InvoiceRow → StoreAnswer) (id : String)
    (invoiceData : InvoiceData) (isoNow : String) : Except String (Option InvoiceRow) :=
  match (update id (updateInvoiceRow invoiceData isoNow)).error with
  | some error => Except.error error
  | none => Except.ok (update id (updateInvoiceRow invoiceData isoNow)).data

end supabaseService

/-- A call that `handleSelectTemplate` makes: the request for the storage module
(`import('../utils/storage.js')`), the request to the store with the record built by
`updateInvoice` or `saveInvoice`, the write of the counter, the message shown. -/
inductive SubmitCall where
  | importStorage : SubmitCall
  | updateInvoice (id : String) (row : InvoiceRow) : SubmitCall
  | saveInvoice (row : InvoiceRow) : SubmitCall
  | saveInvoiceNumber (number : JSInt) : SubmitCall
  | showSuccessMessage (message : String) : SubmitCall
  deriving DecidableEq

/-- What a submission leaves behind: the local storage, the message shown, whether the
export options are shown, and the calls made. `started` holds the calls of the synchronous
part of the function, in their order; `onStorageLoaded` the calls of the callback given to
`import(...).then`, which runs once the storage module is loaded; `onStoreAnswer` the calls
made once the store has answered. The two callbacks run after the synchronous part, in the
order in which the module and the answer arrive; they act on different state. -/
structure SubmitOutcome where
  localStorage : LocalStorage
  message : String
  invoiceGenerated : Bool
  started : List SubmitCall
  onStorageLoaded : List SubmitCall
  onStoreAnswer : List SubmitCall
  deriving DecidableEq

/-- The local storage after the callback of `import(...).then` in `handleSelectTemplate`:
when the invoice number matches `GP-` and digits, the number that `parseInt` reads from the
digits is saved as the sequence. -/
def saveUsedNumber (ls : LocalStorage) (invoiceNumber : String) : LocalStorage :=
  match matchGP invoiceNumber.data with
  | some digits => storage.saveInvoiceNumber ls (parseInt10 (String.mk digits))
  | none => ls

/-- The request for the storage module that `handleSelectTemplate` makes when the invoice
number matches `GP-` and digits. -/
def importCalls (invoiceNumber : String) : List SubmitCall :=
  match matchGP invoiceNumber.data with
  | some _ => [SubmitCall.importStorage]
  | none => []

/-- The call that the callback of `import(...).then` makes once the storage module is
loaded. -/
def storageCalls (invoiceNumber : String) : List SubmitCall :=
  match matchGP invoiceNumber.data with
  | some digits => [SubmitCall.saveInvoiceNumber (parseInt10 (String.mk digits))]
  | none => []

/-- `handleSelectTemplate(templateId)`: the write of the used number is handed to
`import(...).then`, then the invoice is updated (when `editId` is the id of the invoice being
edited) or created; the write runs once the storage module is loaded, whatever the store
answers; an error thrown by the store is caught and reported by a message. -/
def handleSelectTemplate (templateId : Nat) (editId : Option String) (formData : FormData)
    (lineItems : List LineItem) (totals : Totals) (ls : LocalStorage) (invoiceGenerated : Bool)
    (insert : InvoiceRow → StoreAnswer) (update : String → InvoiceRow → StoreAnswer)
    (isoNow : String) : SubmitOutcome :=
  let ls1 := saveUsedNumber ls (getInvoiceData formData lineItems totals).invoiceNumber
  let invoiceData : InvoiceData :=
    { getInvoiceData formData lineItems totals with templateId := some templateId }
  match editId with
  | some id =>
    match supabaseService.updateInvoice update id invoiceData isoNow with
    | Except.ok _ =>
      { localStorage := ls1
        message := "Invoice updated successfully! Invoice #" ++ invoiceData.invoiceNumber
        invoiceGenerated := invoiceGenerated
        started := importCalls invoiceData.invoiceNumber ++
          [SubmitCall.updateInvoice id (supabaseService.updateInvoiceRow invoiceData isoNow)]
        onStorageLoaded := storageCalls invoiceData.invoiceNumber
        onStoreAnswer := [SubmitCall.showSuccessMessage
          ("Invoice updated successfully! Invoice #" ++ invoiceData.invoiceNumber)] }
    | Except.error _ =>
      { localStorage := ls1
        message := "Failed to save invoice. Please try again."
        invoiceGenerated := invoiceGenerated
        started := importCalls invoiceData.invoiceNumber ++
          [SubmitCall.updateInvoice id (supabaseService.updateInvoiceRow invoiceData isoNow)]
        onStorageLoaded := storageCalls invoiceData.invoiceNumber
        onStoreAnswer :=
          [SubmitCall.showSuccessMessage "Failed to save invoice. Please try again."] }
  | none =>
    match supabaseService.saveInvoice insert invoiceData with
    | Except.ok _ =>
      { localStorage := ls1
        message := "Invoice generated successfully! Invoice #" ++ invoiceData.invoiceNumber ++
          " - Status: " ++ invoiceData.status
        invoiceGenerated := true
        started := importCalls invoiceData.invoiceNumber ++
          [SubmitCall.saveInvoice (supabaseService.saveInvoiceRow invoiceData)]
        onStorageLoaded := storageCalls invoiceData.invoiceNumber
        onStoreAnswer := [SubmitCall.showSuccessMessage
          ("Invoice generated successfully! Invoice #" ++ invoiceData.invoiceNumber ++
            " - Status: " ++ invoiceData.status)] }
    | Except.error _ =>
      { localStorage := ls1
        message := "Failed to save invoice. Please try again."
        invoiceGenerated := invoiceGenerated
        started := importCalls invoiceData.invoiceNumber ++
          [SubmitCall.saveInvoice (supabaseService.saveInvoiceRow invoiceData)]
        onStorageLoaded := storageCalls invoiceData.invoiceNumber
        onStoreAnswer :=
          [SubmitCall.showSuccessMessage "Failed to save invoice. Please try again."] }

/-- The local storage after a run of submissions with the given invoice numbers, one after
the other. -/
def submitAll (ls : LocalStorage) (invoiceNumbers : List String) : LocalStorage :=
  invoiceNumbers.foldl saveUsedNumber ls

/-- `storage.getCurrentInvoiceNumber` as a call on the storage: the number it returns and
the storage after the call. The function only reads. -/
def getCurrentInvoiceNumberCall (ls : LocalStorage) : String × LocalStorage :=
  (storage.getCurrentInvoiceNumber ls, ls)

/-- `storage.generateNextInvoiceNumber` as a call on the storage: the next number is saved
as the sequence and returned, formatted. -/
def generateNextInvoiceNumberCall (ls : LocalStorage) : String × LocalStorage :=
  ("GP-" ++ padStart (intToString (storage.getLastInvoiceNumber ls).addOne) 4 '0',
   storage.saveInvoiceNumber ls (storage.getLastInvoiceNumber ls).addOne)

/-! ## File name of an export (`exporter.generateFilename`) -/

/-- The UTF-16 code units of a text, the units on which `replace` with a pattern without
the `u` flag works; a character beyond the basic plane is a pair of surrogates. -/
def utf16Units (s : String) : List Nat :=
  s.data.flatMap (fun c =>
    if c.toNat < 65536 then [c.toNat]
    else [55296 + (c.toNat - 65536) / 1024, 56320 + (c.toNat - 65536) % 1024])

/-- The code units that the class `[a-z0-9]` with the flag `i` matches: the ASCII digits
and letters of both cases. -/
def isAlnumUnit (u : Nat) : Bool :=
  (48 ≤ u && u ≤ 57) || (65 ≤ u && u ≤ 90) || (97 ≤ u && u ≤ 122)

/-- The text `x.replace(/[^a-z0-9]/gi, '_')`: every code unit that is not an ASCII digit or
letter is replaced by an underscore. -/
def replaceNonAlnum (s : String) : String :=
  String.mk ((utf16Units s).map (fun u => if isAlnumUnit u then Char.ofNat u else '_'))

namespace exporter

/-- `exporter.generateFilename(invoiceData, extension)`, the clock being read as the ISO
date-time text `isoNow`. -/
def generateFilename (invoiceData : InvoiceData) (extension : String) (isoNow : String) :
    String :=
  let invoiceNumber := if invoiceData.invoiceNumber ≠ "" then invoiceData.invoiceNumber
    else "invoice"
  let clientName := if invoiceData.invoiceForName ≠ "" then invoiceData.invoiceForName
    else "client"
  let date := isoDatePart isoNow
  let cleanInvoice := replaceNonAlnum invoiceNumber
  let cleanClient := replaceNonAlnum clientName
  cleanInvoice ++ "_" ++ cleanClient ++ "_" ++ date ++ "." ++ extension

end exporter

/-! ## Sample stores and drafts -/

/-- A store whose insert fails. -/
def failingInsert : InvoiceRow → StoreAnswer := fun _ => ⟨none, some "network error"⟩

/-- A store whose update fails. -/
def failingUpdate : String → InvoiceRow → StoreAnswer :=
  fun _ _ => ⟨none, some "network error"⟩

/-- A store whose insert succeeds and returns the record. -/
def acceptingInsert : InvoiceRow → StoreAnswer := fun row => ⟨some row, none⟩

/-- A store whose update succeeds and returns the record. -/
def acceptingUpdate : String → InvoiceRow → StoreAnswer := fun _ row => ⟨some row, none⟩

/-- A fresh form with the given invoice number. -/
def draftForm (invoiceNumber : String) : FormData :=
  { blankForm with invoiceNumber := invoiceNumber }

/-- The invoice data `{ invoiceNumber: "GP-0001", invoiceForName: "Acme Co." }`, the other
fields empty. -/
def acmeInvoiceData : InvoiceData :=
  { currency := "", invoiceNumber := "GP-0001", paymentDate := "", invoiceForName := "Acme Co.",
    invoiceForCompany := "", transferMethod := "", transactionId := "", status := "",
    notes := "", amountInWords := "", lineItems := [], subtotal := JSVal.str "",
    discount := JSVal.str "", total := JSVal.str "", templateId := none }

/-! ## Further store operations and the page around a submission -/

namespace supabaseService

/-- `supabaseService.deleteInvoice`: the delete of the store for the given id; an error of
the store is thrown to the caller, otherwise the result is `true`. -/
def deleteInvoice (delete : String → StoreAnswer) (id : String) : Except String Bool :=
  match (delete id).error with
  | some error => Except.error error
  | none => Except.ok true

/-- Answer of the store to the query for all invoices. -/
structure ListAnswer where
  data : Option (List InvoiceRow)
  error : Option String
  deriving DecidableEq

/-- `supabaseService.getAllInvoices`: an error of the store is thrown to the caller,
otherwise the result is `data || []`. -/
def getAllInvoices (answer : ListAnswer) : Except String (List InvoiceRow) :=
  match answer.error with
  | some error => Except.error error
  | none =>
    match answer.data with
    | some rows => Except.ok rows
    | none => Except.ok []

/-- `supabaseService.saveInvoice` as a call on a store that has a state: the result, and the
store after the call. The record is handed to the insert of the store, which answers and
moves to its next state; the answer decides the result. -/
def saveInvoiceCall {σ : Type} (insert : InvoiceRow → σ → StoreAnswer × σ)
    (invoiceData : InvoiceData) (store : σ) : Except String (Option InvoiceRow) × σ :=
  match (insert (saveInvoiceRow invoiceData) store).1.error with
  | some error => (Except.error error, (insert (saveInvoiceRow invoiceData) store).2)
  | none =>
    (Except.ok (insert (saveInvoiceRow invoiceData) store).1.data,
      (insert (saveInvoiceRow invoiceData) store).2)

/-- `supabaseService.updateInvoice` as a call on a store that has a state. -/
def updateInvoiceCall {σ : Type} (update : String → InvoiceRow → σ → StoreAnswer × σ)
    (id : String) (invoiceData : InvoiceData) (isoNow : String) (store : σ) :
    Except String (Option InvoiceRow) × σ :=
  match (update id (updateInvoiceRow invoiceData isoNow) store).1.error with
  | some error =>
    (Except.error error, (update id (updateInvoiceRow invoiceData isoNow) store).2)
  | none =>
    (Except.ok (update id (updateInvoiceRow invoiceData isoNow) store).1.data,
      (update id (updateInvoiceRow invoiceData isoNow) store).2)

/-- `supabaseService.deleteInvoice` as a call on a store that has a state. -/
def deleteInvoiceCall {σ : Type} (delete : String → σ → StoreAnswer × σ) (id : String)
    (store : σ) : Except String Bool × σ :=
  match (delete id store).1.error with
  | some error => (Except.error error, (delete id store).2)
  | none => (Except.ok true, (delete id store).2)

/-- `supabaseService.getAllInvoices` as a call on a store that has a state. -/
def getAllInvoicesCall {σ : Type} (select : σ → ListAnswer × σ) (store : σ) :
    Except String (List InvoiceRow) × σ :=
  match (select store).1.error with
  | some error => (Except.error error, (select store).2)
  | none =>
    match (select store).1.data with
    | some rows => (Except.ok rows, (select store).2)
    | none => (Except.ok [], (select store).2)

end supabaseService

/-- The state of the page that a submission can see: the form, the local storage, the
message shown and whether the export options are shown. -/
structure PageState where
  formData : FormData
  lineItems : List LineItem
  totals : Totals
  localStorage : LocalStorage
  message : Option String
  invoiceGenerated : Bool
  deriving DecidableEq

/-- The page after `handleSelectTemplate`: the function sets the message, the flag and the
local storage; it has no call of `setFormData`, `setLineItems` or `setTotals`. -/
def submitPage (templateId : Nat) (editId : Option String) (page : PageState)
    (insert : InvoiceRow → StoreAnswer) (update : String → InvoiceRow → StoreAnswer)
    (isoNow : String) : PageState :=
  { page with
    localStorage := (handleSelectTemplate templateId editId page.formData page.lineItems
      page.totals page.localStorage page.invoiceGenerated insert update isoNow).localStorage
    message := some (handleSelectTemplate templateId editId page.formData page.lineItems
      page.totals page.localStorage page.invoiceGenerated insert update isoNow).message
    invoiceGenerated := (handleSelectTemplate templateId editId page.formData page.lineItems
      page.totals page.localStorage page.invoiceGenerated insert update
      isoNow).invoiceGenerated }

/-- A store whose insert is rejected by the uniqueness constraint on the invoice number. -/
def duplicateInsert : InvoiceRow → StoreAnswer :=
  fun _ => ⟨none, some "duplicate key value violates unique constraint"⟩

/-- A store that counts the requests it gets and whose insert fails on the first request and
succeeds from the second on. -/
def flakyInsert : InvoiceRow → Nat → StoreAnswer × Nat :=
  fun row requests =>
    (if requests = 0 then ⟨none, some "network error"⟩ else ⟨some row, none⟩, requests + 1)

/-- A store that counts the requests it gets and whose delete and list fail on the first
request and succeed from the second on. -/
def flakyDelete : String → Nat → StoreAnswer × Nat :=
  fun _ requests =>
    (if requests = 0 then ⟨none, some "network error"⟩ else ⟨none, none⟩, requests + 1)

/-- A store that counts the requests it gets and whose list fails on the first request and
is empty from the second on. -/
def flakySelect : Nat → supabaseService.ListAnswer × Nat :=
  fun requests =>
    (if requests = 0 then ⟨none, some "network error"⟩ else ⟨some [], none⟩, requests + 1)

/-! ## Export and share (`exporter.exportPDF`, `exporter.sharePDF`) -/

/-- The raster image that `html2canvas` makes of the view. -/
structure Canvas where
  width : Nat
  height : Nat
  deriving DecidableEq

/-- The four channels of the share menu. -/
inductive ShareChannel where
  | email : ShareChannel
  | whatsapp : ShareChannel
  | telegram : ShareChannel
  | download : ShareChannel
  deriving DecidableEq

/-- What export and share ask of the platform, in the order of the calls. The links that the
channels open are built from the invoice data with templates and `encodeURIComponent`; their
text is not spelled out. -/
inductive Effect where
  | loading (message : String) : Effect
  | rasterize : Effect
  | addImage (canvas : Canvas) : Effect
  | save (filename : String) : Effect
  | done : Effect
  | createObjectURL (filename : String) : Effect
  | nativeShare (filename : String) : Effect
  | openMail : Effect
  | openWhatsApp : Effect
  | openTelegram : Effect
  | clickDownload (filename : String) : Effect
  | revokeObjectURL : Effect
  deriving DecidableEq

/-- An entry of the share menu; the icon, a display text, is left out. -/
structure ShareOption where
  name : String
  channel : ShareChannel
  deriving DecidableEq

/-- The result that `sharePDF` and the channel actions resolve with. -/
structure ShareResult where
  success : Bool
  method : String
  options : Option (List (String × ShareOption))
  deriving DecidableEq

/-- The share support of the platform: whether `navigator.share` exists, what
`navigator.canShare` answers for the file (`none` when that function does not exist), and
whether a call of `navigator.share` completes or is rejected. -/
structure SharePlatform where
  hasShare : Bool
  canShare : Option Bool
  shared : Except String Unit

namespace exporter

/-- `exporter.exportPDF(element, invoiceData, onLoading, onDone)`: `raster`, `encoded` and
`saved` are the outcomes of `html2canvas`, of building the document from the canvas and of
`pdf.save`; `onLoading` and `onDone` tell whether the callbacks are given. The result is the
value returned or the error thrown, with the calls made. -/
def exportPDF (raster : Except String Canvas) (encoded : Except String Unit)
    (saved : Except String Unit) (invoiceData : InvoiceData) (isoNow : String)
    (onLoading onDone : Bool) : Except String Bool × List Effect :=
  let start : List Effect :=
    (if onLoading then [Effect.loading "Generating PDF..."] else []) ++ [Effect.rasterize]
  let finish : List Effect := if onDone then [Effect.done] else []
  match raster with
  | Except.error error => (Except.error error, start ++ finish)
  | Except.ok canvas =>
    match encoded with
    | Except.error error => (Except.error error, start ++ [Effect.addImage canvas] ++ finish)
    | Except.ok _ =>
      match saved with
      | Except.error error =>
        (Except.error error,
          start ++
            [Effect.addImage canvas, Effect.save (generateFilename invoiceData "pdf" isoNow)] ++
            finish)
      | Except.ok _ =>
        (Except.ok true,
          start ++
            [Effect.addImage canvas, Effect.save (generateFilename invoiceData "pdf" isoNow)] ++
            finish)

/-- `exporter.generatePDFBlob(element, invoiceData)`: the name of the file made, or the error
thrown, with the calls made. -/
def generatePDFBlob (raster : Except String Canvas) (encoded : Except String Unit)
    (invoiceData : InvoiceData) (isoNow : String) : Except String String × List Effect :=
  match raster with
  | Except.error error => (Except.error error, [Effect.rasterize])
  | Except.ok canvas =>
    match encoded with
    | Except.error error => (Except.error error, [Effect.rasterize, Effect.addImage canvas])
    | Except.ok _ =>
      (Except.ok (generateFilename invoiceData "pdf" isoNow),
        [Effect.rasterize, Effect.addImage canvas])

/-- The action of a channel of the share menu, run when the user picks the entry. -/
def channelAction (channel : ShareChannel) (filename : String) : ShareResult × List Effect :=
  match channel with
  | ShareChannel.email => (⟨true, "email", none⟩, [Effect.openMail])
  | ShareChannel.whatsapp => (⟨true, "whatsapp", none⟩, [Effect.openWhatsApp])
  | ShareChannel.telegram => (⟨true, "telegram", none⟩, [Effect.openTelegram])
  | ShareChannel.download =>
    (⟨true, "download", none⟩, [Effect.clickDownload filename, Effect.revokeObjectURL])

/-- `exporter.openShareMenu(file, invoiceData, filename)`: a URL is made for the file and
the menu is resolved with its four entries; no action of an entry is run. -/
def openShareMenu (filename : String) : ShareResult × List Effect :=
  (⟨true, "menu",
      some [("email", ⟨"Email", ShareChannel.email⟩),
        ("whatsapp", ⟨"WhatsApp", ShareChannel.whatsapp⟩),
        ("telegram", ⟨"Telegram", ShareChannel.telegram⟩),
        ("download", ⟨"Download PDF", ShareChannel.download⟩)]⟩,
    [Effect.createObjectURL filename])

/-- `exporter.sharePDF(element, invoiceData)`: the result resolved or the error thrown, with
the calls made. -/
def sharePDF (raster : Except String Canvas) (encoded : Except String Unit)
    (invoiceData : InvoiceData) (isoNow : String) (platform : SharePlatform) :
    Except String ShareResult × List Effect :=
  match generatePDFBlob raster encoded invoiceData isoNow with
  | (Except.error error, effects) => (Except.error error, effects)
  | (Except.ok filename, effects) =>
    if platform.hasShare then
      match platform.canShare with
      | none => (Except.error "TypeError: navigator.canShare is not a function", effects)
      | some true =>
        match platform.shared with
        | Except.ok _ =>
          (Except.ok ⟨true, "native", none⟩, effects ++ [Effect.nativeShare filename])
        | Except.error error => (Except.error error, effects ++ [Effect.nativeShare filename])
      | some false =>
        (Except.ok (openShareMenu filename).1, effects ++ (openShareMenu filename).2)
    else (Except.ok (openShareMenu filename).1, effects ++ (openShareMenu filename).2)

end exporter

/-- Whether a call is one that an entry of the share menu makes. -/
def Effect.isChannelCall (effect : Effect) : Bool :=
  match effect with
  | Effect.openMail => true
  | Effect.openWhatsApp => true
  | Effect.openTelegram => true
  | Effect.clickDownload _ => true
  | Effect.revokeObjectURL => true
  | _ => false

/-- Whether a call is a call of `pdf.save`. -/
def Effect.isSave (effect : Effect) : Bool :=
  match effect with
  | Effect.save _ => true
  | _ => false

/-- A page with the draft `GP-0042` of one line item priced 5, the local counter at 41. -/
def samplePage : PageState :=
  { formData := draftForm "GP-0042"
    lineItems := pricedItems
    totals := calculateTotals pricedItems (draftForm "GP-0042")
    localStorage := ⟨some "41", true⟩
    message := none
    invoiceGenerated := false }

/-! ## The reads of the word tables -/

/-- The two word tables of `numberToWords`. -/
inductive WordTable where
  | onesTable : WordTable
  | tensTable : WordTable
  deriving DecidableEq

/-- The entries of a word table. -/
def WordTable.entries (table : WordTable) : List String :=
  match table with
  | WordTable.onesTable => ones
  | WordTable.tensTable => tens

/-- The text that a read of a table at an index gives in a concatenation. -/
def WordTable.read (entry : WordTable × Nat) : String :=
  entry.1.entries.getD entry.2 "undefined"

/-- The reads `ones[n]`, `tens[Math.floor(n / 10)]`, `ones[n % 10]` that
`convertLessThanThousand` makes for a natural number below one hundred, in order. -/
def hundredLookups (n : Nat) : List (WordTable × Nat) :=
  if n = 0 then []
  else if n < 20 then [(WordTable.onesTable, n)]
  else (WordTable.tensTable, n / 10) ::
    (if n % 10 ≠ 0 then [(WordTable.onesTable, n % 10)] else [])

/-- The reads that `convertLessThanThousand` makes for a natural number, in order: from 100
on, `ones[Math.floor(n / 100)]` and then the reads for `n % 100`. -/
def thousandLookups (n : Nat) : List (WordTable × Nat) :=
  if n < 100 then hundredLookups n
  else (WordTable.onesTable, n / 100) :: hundredLookups (n % 100)

/-- The reads that `numberToWords` makes for a natural number, group after group. -/
def numberLookups (n : Nat) : List (WordTable × Nat) :=
  (if n / 10000000 > 0 then thousandLookups (n / 10000000) else []) ++
  (if n % 10000000 / 100000 > 0 then thousandLookups (n % 10000000 / 100000) else []) ++
  (if n % 100000 / 1000 > 0 then thousandLookups (n % 100000 / 1000) else []) ++
  thousandLookups (n % 1000)

/-- The words that a result can be built from: the non-empty entries of the two tables and
the four words of `numberToWords` itself. -/
def vocabulary : List String :=
  (ones ++ tens).filter (fun w => decide (w ≠ "")) ++ ["Hundred", "Thousand", "Lakh", "Crore"]

/-! ## Reading the words back

A reader of the words of an amount. It is not part of the program: it is the inverse used to
show that different amounts are written with different words. -/

/-- The number that a word of the `ones` or `tens` table stands for, and `0` for any other
text. -/
def wordValue (w : String) : Nat :=
  if w = "" then 0
  else if w ∈ ones then ones.indexOf w
  else if w ∈ tens then tens.indexOf w * 10
  else 0

/-- One step of the reader: the pair holds the value of the closed groups and the value of
the group being read. A group word closes the group with its weight, `Hundred` multiplies
the group by one hundred, a table word adds its value to the group. -/
def wordStep (acc : Nat × Nat) (w : String) : Nat × Nat :=
  if w = "Crore" then (acc.1 + acc.2 * 10000000, 0)
  else if w = "Lakh" then (acc.1 + acc.2 * 100000, 0)
  else if w = "Thousand" then (acc.1 + acc.2 * 1000, 0)
  else if w = "Hundred" then (acc.1, acc.2 * 100)
  else (acc.1, acc.2 + wordValue w)

/-- The number read from a list of words. -/
def decodeWords (ws : List String) : Nat :=
  (ws.foldl wordStep (0, 0)).1 + (ws.foldl wordStep (0, 0)).2

/-- The number read from a text: its words are the parts between the spaces. -/
def decodeText (s : String) : Nat :=
  decodeWords ((s.data.splitOn ' ').map String.mk)

/-! # Theorems -/

/-! ## Properties of the totals engine -/

/-- The left fold of `reduce` adds up the contributions of the items. -/
theorem foldl_add_eq_sum (f : LineItem → ℚ) (items : List LineItem) (init : ℚ) :
    items.foldl (fun sum item => sum + f item) init = init + (items.map f).sum := by
  induction items generalizing init with
  | nil => simp
  | cons item rest ih => simp [ih, add_assoc]

/-- The subtotal is the sum of the parsed prices, a price that is not numeric counting 0. -/
theorem subtotalOf_eq_sum (lineItems : List LineItem) :
    subtotalOf lineItems = (lineItems.map (fun item => orZero (parseFloat item.price))).sum := by
  simp [subtotalOf, foldl_add_eq_sum]

/-- Rounding zero gives the integer zero. -/
theorem roundHalfUp_zero (f : Nat) : roundHalfUp 0 f = 0 := by
  have h : Int.floor ((1 : ℚ) / 2) = 0 := by
    rw [Int.floor_eq_iff]
    constructor <;> norm_num
  simp only [roundHalfUp, abs_zero, zero_mul, zero_add, h]
  rfl

/-- The number zero is written `0.00` by `toFixed(2)`. -/
theorem toFixed_zero_two : toFixed 0 2 = "0.00" := by
  simp only [toFixed, roundHalfUp_zero]
  decide

/-- C1. For every list of line items and every discount value, `calculateTotals` yields
`total = max(0, subtotal - discount)`, where `subtotal` is the sum of the parsed prices and
`discount` the parsed discount, an input that does not parse counting 0; the stored total is
that number written with two decimals; it is never negative, and it is 0 (stored as `0.00`)
whenever the discount is at least the subtotal. -/
theorem calculateTotals_total_clamped (lineItems : List LineItem) (formData : FormData) :
    totalOf lineItems formData =
        max 0 ((lineItems.map (fun item => orZero (parseFloat item.price))).sum
          - orZero (parseFloat formData.discount)) ∧
      (calculateTotals lineItems formData).total =
        JSVal.str (toFixed (max 0 ((lineItems.map
          (fun item => orZero (parseFloat item.price))).sum
            - orZero (parseFloat formData.discount))) 2) ∧
      0 ≤ totalOf lineItems formData ∧
      ((lineItems.map (fun item => orZero (parseFloat item.price))).sum
          ≤ orZero (parseFloat formData.discount) →
        totalOf lineItems formData = 0 ∧
          (calculateTotals lineItems formData).total = JSVal.str "0.00") := by
  have htotal : totalOf lineItems formData =
      max 0 ((lineItems.map (fun item => orZero (parseFloat item.price))).sum
        - orZero (parseFloat formData.discount)) := by
    simp [totalOf, subtotalOf_eq_sum, discountOf]
  refine ⟨htotal, ?_, ?_, ?_⟩
  · simp only [calculateTotals, htotal]
  · rw [htotal]
    exact le_max_left 0 _
  · intro hle
    have hzero : totalOf lineItems formData = 0 := by
      rw [htotal]
      exact max_eq_left (by linarith)
    refine ⟨hzero, ?_⟩
    simp only [calculateTotals, hzero, toFixed_zero_two]

/-- Reading of the text `100`. -/
theorem parseFloat_100 : parseFloat (JSVal.str "100") = JSNum.fin 100 := by
  have h : scanDecimal "100".data = some ⟨false, 100, 0, 0⟩ := by decide
  simp only [parseFloat, parseFloatChars, h, DecimalLiteral.value, scale10]
  norm_num

/-- Reading of the text `250`. -/
theorem parseFloat_250 : parseFloat (JSVal.str "250") = JSNum.fin 250 := by
  have h : scanDecimal "250".data = some ⟨false, 250, 0, 0⟩ := by decide
  simp only [parseFloat, parseFloatChars, h, DecimalLiteral.value, scale10]
  norm_num

/-- Reading of the text `-5`, a value that a numeric field accepts. -/
theorem parseFloat_neg5 : parseFloat (JSVal.str "-5") = JSNum.fin (-5) := by
  have h : scanDecimal "-5".data = some ⟨true, 5, 0, 0⟩ := by decide
  simp only [parseFloat, parseFloatChars, h, DecimalLiteral.value, scale10]
  norm_num

/-- Reading of a text without digits. -/
theorem parseFloat_abc : parseFloat (JSVal.str "abc") = JSNum.nan := by
  have h : scanDecimal "abc".data = none := by decide
  simp only [parseFloat, parseFloatChars, h]

/-- C1, at one item priced 100 and a discount of 250: the stored total is `0.00`. -/
theorem calculateTotals_total_clamped_witness :
    totalOf [⟨1, "Design", JSVal.str "100"⟩] (sampleForm (JSVal.str "250")) = 0 ∧
      (calculateTotals [⟨1, "Design", JSVal.str "100"⟩] (sampleForm (JSVal.str "250"))).total
        = JSVal.str "0.00" :=
  (calculateTotals_total_clamped [⟨1, "Design", JSVal.str "100"⟩]
    (sampleForm (JSVal.str "250"))).2.2.2
    (by norm_num [sampleForm, parseFloat_100, parseFloat_250, orZero])

/-- C2, as stated, fails: one item with the price `-5` gives the subtotal -5, while the sum
of the prices clamped at zero is 0. -/
theorem subtotal_clamp_counterexample :
    subtotalOf [⟨1, "Refund", JSVal.str "-5"⟩] = -5 ∧
      ([(⟨1, "Refund", JSVal.str "-5"⟩ : LineItem)].map
        (fun item => max 0 (orZero (parseFloat item.price)))).sum = 0 ∧
      subtotalOf [⟨1, "Refund", JSVal.str "-5"⟩] ≠
        ([(⟨1, "Refund", JSVal.str "-5"⟩ : LineItem)].map
          (fun item => max 0 (orZero (parseFloat item.price)))).sum := by
  have h1 : subtotalOf [⟨1, "Refund", JSVal.str "-5"⟩] = -5 := by
    simp [subtotalOf, parseFloat_neg5, orZero]
  have h2 : ([(⟨1, "Refund", JSVal.str "-5"⟩ : LineItem)].map
      (fun item => max 0 (orZero (parseFloat item.price)))).sum = 0 := by
    simp [parseFloat_neg5, orZero]
  refine ⟨h1, h2, ?_⟩
  rw [h1, h2]
  norm_num

/-- C2, amended. For every list of line items the subtotal is the sum over the items of
`p`, the parsed price, or 0 when the price is not numeric, and it is stored with two
decimals; it equals the sum of `max(0, p)` whenever no parsed price is negative; an item
whose price is not numeric contributes 0, wherever it stands in the list. -/
theorem calculateTotals_subtotal_sum (lineItems : List LineItem) :
    subtotalOf lineItems = (lineItems.map (fun item => orZero (parseFloat item.price))).sum ∧
      (∀ formData : FormData, (calculateTotals lineItems formData).subtotal =
        JSVal.str (toFixed
          (lineItems.map (fun item => orZero (parseFloat item.price))).sum 2)) ∧
      ((∀ item ∈ lineItems, 0 ≤ orZero (parseFloat item.price)) →
        subtotalOf lineItems =
          (lineItems.map (fun item => max 0 (orZero (parseFloat item.price)))).sum) ∧
      (∀ (before after : List LineItem) (item : LineItem),
        lineItems = before ++ item :: after → parseFloat item.price = JSNum.nan →
          subtotalOf lineItems = subtotalOf (before ++ after)) := by
  refine ⟨subtotalOf_eq_sum lineItems, ?_, ?_, ?_⟩
  · intro formData
    simp only [calculateTotals, subtotalOf_eq_sum]
  · intro hnonneg
    rw [subtotalOf_eq_sum]
    congr 1
    apply List.map_congr_left
    intro item hitem
    exact (max_eq_right (hnonneg item hitem)).symm
  · intro before after item hsplit hnan
    subst hsplit
    simp [subtotalOf_eq_sum, hnan, orZero]

/-- C2, amended, at a list of two items, one priced 100 and one with the price text
`abc`: the subtotal is 100 and equals the sum of the clamped prices. -/
theorem calculateTotals_subtotal_sum_witness :
    subtotalOf [⟨1, "Design", JSVal.str "100"⟩, ⟨2, "Hosting", JSVal.str "abc"⟩] =
      ([(⟨1, "Design", JSVal.str "100"⟩ : LineItem), ⟨2, "Hosting", JSVal.str "abc"⟩].map
        (fun item => max 0 (orZero (parseFloat item.price)))).sum :=
  (calculateTotals_subtotal_sum
    [⟨1, "Design", JSVal.str "100"⟩, ⟨2, "Hosting", JSVal.str "abc"⟩]).2.2.1
    (by simp [parseFloat_100, parseFloat_abc, orZero])

/-! ## Agreement of the amount in words on integers -/

/-- `Math.floor` of a quotient of two natural numbers is their integer quotient. -/
theorem mathFloor_natCast_div (n m : Nat) :
    mathFloor ((n : ℚ) / (m : ℚ)) = ((n / m : Nat) : ℚ) := by
  have h := Rat.floor_intCast_div_natCast (n : Int) m
  simp only [mathFloor]
  have h2 : ((n : Int) : ℚ) = (n : ℚ) := by norm_cast
  rw [h2] at h
  rw [h]
  norm_cast

/-- The remainder of two natural numbers, the divisor positive, is their integer remainder. -/
theorem jsMod_natCast (n m : Nat) (hm : 0 < m) :
    jsMod (n : ℚ) (m : ℚ) = ((n % m : Nat) : ℚ) := by
  have hq : (0 : ℚ) ≤ (n : ℚ) / (m : ℚ) := by positivity
  have hfl := mathFloor_natCast_div n m
  simp only [mathFloor] at hfl
  simp only [jsMod, hq, if_true, hfl]
  have hdiv : n % m + m * (n / m) = n := Nat.mod_add_div n m
  have hcast : ((n % m : Nat) : ℚ) + (m : ℚ) * ((n / m : Nat) : ℚ) = (n : ℚ) := by
    exact_mod_cast hdiv
  linarith

/-- A natural number denotes itself as an array index. -/
theorem arrayIndex_natCast (k : Nat) : arrayIndex (k : ℚ) = some k := by
  simp [arrayIndex]

/-- On a natural number below one hundred, `convertLessThanThousand` is the integer reading. -/
theorem convertLessThanThousand_natCast_of_lt (n : Nat) (hn : n < 100) :
    convertLessThanThousand (n : ℚ) = lessThanHundredWords n := by
  rw [convertLessThanThousand]
  have h10 : ((n : ℚ) / 10) = (n : ℚ) / ((10 : Nat) : ℚ) := by norm_num
  have hm10 : jsMod (n : ℚ) 10 = ((n % 10 : Nat) : ℚ) := by
    have := jsMod_natCast n 10 (by norm_num)
    simpa using this
  have hlt100 : (n : ℚ) < 100 := by exact_mod_cast hn
  simp only [lessThanHundredWords, Nat.cast_eq_zero, h10, mathFloor_natCast_div, hm10,
    arrayIndex_natCast, elemText, hlt100, dite_eq_ite, if_true, Nat.cast_lt_ofNat, ne_eq]

/-- On every natural number, `convertLessThanThousand` is the integer reading. -/
theorem convertLessThanThousand_natCast (n : Nat) :
    convertLessThanThousand (n : ℚ) = lessThanThousandWords n := by
  by_cases hn : n < 100
  · rw [convertLessThanThousand_natCast_of_lt n hn]
    simp [lessThanThousandWords, hn]
  · rw [convertLessThanThousand]
    have hge : ¬ ((n : ℚ) < 100) := by
      intro h
      exact hn (by exact_mod_cast h)
    have hge20 : ¬ ((n : ℚ) < 20) := by
      intro h
      exact hge (by linarith)
    have hne : ¬ ((n : ℚ) = 0) := by
      intro h
      exact hge (by rw [h]; norm_num)
    have h100 : ((n : ℚ) / 100) = (n : ℚ) / ((100 : Nat) : ℚ) := by norm_num
    have hm100 : jsMod (n : ℚ) 100 = ((n % 100 : Nat) : ℚ) := by
      have := jsMod_natCast n 100 (by norm_num)
      simpa using this
    have hrec : convertLessThanThousand ((n % 100 : Nat) : ℚ) = lessThanHundredWords (n % 100) :=
      convertLessThanThousand_natCast_of_lt (n % 100) (Nat.mod_lt n (by norm_num))
    simp only [hne, hge20, hge, dite_false, h100, mathFloor_natCast_div, hm100, hrec,
      arrayIndex_natCast, elemText, lessThanThousandWords, hn, if_false, Nat.cast_eq_zero,
      ne_eq]

/-- On every natural number, `convert` is the integer reading. -/
theorem convert_natCast (n : Nat) : convert (n : ℚ) = convertNat n := by
  have hc : ((n : ℚ) / 10000000) = (n : ℚ) / ((10000000 : Nat) : ℚ) := by norm_num
  have hmc : jsMod (n : ℚ) 10000000 = ((n % 10000000 : Nat) : ℚ) := by
    have := jsMod_natCast n 10000000 (by norm_num)
    simpa using this
  have hl : ∀ k : Nat, ((k : ℚ) / 100000) = (k : ℚ) / ((100000 : Nat) : ℚ) := by
    intro k; norm_num
  have hml : ∀ k : Nat, jsMod (k : ℚ) 100000 = ((k % 100000 : Nat) : ℚ) := by
    intro k
    have := jsMod_natCast k 100000 (by norm_num)
    simpa using this
  have ht : ∀ k : Nat, ((k : ℚ) / 1000) = (k : ℚ) / ((1000 : Nat) : ℚ) := by
    intro k; norm_num
  have hmt : ∀ k : Nat, jsMod (k : ℚ) 1000 = ((k % 1000 : Nat) : ℚ) := by
    intro k
    have := jsMod_natCast k 1000 (by norm_num)
    simpa using this
  have hmod1 : n % 10000000 % 100000 = n % 100000 :=
    Nat.mod_mod_of_dvd n (by norm_num)
  have hmod2 : n % 100000 % 1000 = n % 1000 :=
    Nat.mod_mod_of_dvd n (by norm_num)
  have hmod3 : n % 10000000 % 1000 = n % 1000 :=
    Nat.mod_mod_of_dvd n (by norm_num)
  unfold convert convertNat
  by_cases h0 : n = 0
  · simp [h0]
  · have h0q : ¬ ((n : ℚ) = 0) := by exact_mod_cast h0
    simp only [h0, h0q, if_false, hc, mathFloor_natCast_div, gt_iff_lt, Nat.cast_pos]
    by_cases hC : 0 < n / 10000000
    · simp only [hC, decide_True, if_true, hmc, hl, mathFloor_natCast_div, Nat.cast_pos]
      by_cases hL : 0 < n % 10000000 / 100000
      · simp only [hL, decide_True, if_true, hml, ht, mathFloor_natCast_div, hmod1,
          Nat.cast_pos]
        by_cases hT : 0 < n % 100000 / 1000
        · simp only [hT, decide_True, if_true, hmt, hmod2, convertLessThanThousand_natCast]
        · have e : n % 100000 = n % 1000 := by omega
          simp only [hT, decide_False, if_false, convertLessThanThousand_natCast,
            Bool.false_eq_true, String.append_empty]
          rw [e]
      · have e : n % 10000000 = n % 100000 := by omega
        simp only [hL, decide_False, if_false, ht, mathFloor_natCast_div, Nat.cast_pos,
          Bool.false_eq_true, String.append_empty]
        rw [e]
        by_cases hT : 0 < n % 100000 / 1000
        · simp only [hT, decide_True, if_true, hmt, hmod2, convertLessThanThousand_natCast]
        · have e2 : n % 100000 = n % 1000 := by omega
          simp only [hT, decide_False, if_false, convertLessThanThousand_natCast,
            Bool.false_eq_true, String.append_empty]
          rw [e2]
    · have e : n % 10000000 = n := by omega
      simp only [hC, decide_False, if_false, hl, mathFloor_natCast_div, Nat.cast_pos,
        Bool.false_eq_true]
      rw [e]
      by_cases hL : 0 < n / 100000
      · simp only [hL, decide_True, if_true, hml, ht, mathFloor_natCast_div, Nat.cast_pos]
        by_cases hT : 0 < n % 100000 / 1000
        · simp only [hT, decide_True, if_true, hmt, hmod2, convertLessThanThousand_natCast]
        · have e2 : n % 100000 = n % 1000 := by omega
          simp only [hT, decide_False, if_false, convertLessThanThousand_natCast,
            Bool.false_eq_true, String.append_empty]
          rw [e2]
      · have e1 : n % 100000 = n := by omega
        simp only [hL, decide_False, if_false, ht, mathFloor_natCast_div, Nat.cast_pos,
          Bool.false_eq_true, String.append_empty]
        rw [e1]
        by_cases hT : 0 < n / 1000
        · simp only [hT, decide_True, if_true, hmt, convertLessThanThousand_natCast]
        · have e2 : n % 1000 = n := by omega
          simp only [hT, decide_False, if_false, convertLessThanThousand_natCast,
            Bool.false_eq_true, String.append_empty]
          rw [e2]

/-- On every non-negative integer, `numberToWords` is the integer reading. -/
theorem numberToWords_natCast (n : Nat) : numberToWords (n : ℚ) = numberToWordsNat n := by
  simp only [numberToWords, numberToWordsNat, Nat.cast_eq_zero, convert_natCast]

/-- C4. `numberToWords(0)` is `Zero`, `numberToWords(100)` is `One Hundred`,
`numberToWords(100000)` is `One Lakh` and `numberToWords(10000000)` is `One Crore`. -/
theorem numberToWords_examples :
    numberToWords 0 = "Zero" ∧ numberToWords 100 = "One Hundred" ∧
      numberToWords 100000 = "One Lakh" ∧ numberToWords 10000000 = "One Crore" := by
  have h0 := numberToWords_natCast 0
  have h1 := numberToWords_natCast 100
  have h2 := numberToWords_natCast 100000
  have h3 := numberToWords_natCast 10000000
  simp only [Nat.cast_zero, Nat.cast_ofNat] at h0 h1 h2 h3
  rw [h0, h1, h2, h3]
  decide

/-! ## Words joined by single spaces -/

/-- Joining one more word in front. -/
theorem spaceJoin_cons (w : String) (ws : List String) (h : ws ≠ []) :
    spaceJoin (w :: ws) = w ++ " " ++ spaceJoin ws := by
  cases ws with
  | nil => exact absurd rfl h
  | cons v rest => rfl

/-- Joining two non-empty lists of words puts one space between their joins. -/
theorem spaceJoin_append (ws vs : List String) (hw : ws ≠ []) (hv : vs ≠ []) :
    spaceJoin (ws ++ vs) = spaceJoin ws ++ " " ++ spaceJoin vs := by
  induction ws with
  | nil => exact absurd rfl hw
  | cons w rest ih =>
    cases rest with
    | nil => simpa using spaceJoin_cons w vs hv
    | cons v rest2 =>
      have h1 : spaceJoin (w :: (v :: rest2 ++ vs)) =
          w ++ " " ++ spaceJoin (v :: rest2 ++ vs) := rfl
      have h2 : spaceJoin (w :: v :: rest2) = w ++ " " ++ spaceJoin (v :: rest2) := rfl
      rw [List.cons_append, h1, ih (by simp), h2]
      simp only [String.append_assoc]

/-- Words followed by a space, then more words. -/
theorem spaceJoinThen_append_spaceJoin (ws vs : List String) (hv : vs ≠ []) :
    spaceJoinThen ws ++ spaceJoin vs = spaceJoin (ws ++ vs) := by
  by_cases hw : ws = []
  · simp [spaceJoinThen, hw]
  · simp [spaceJoinThen, hw, spaceJoin_append ws vs hw hv]

/-- Two runs of words, each followed by a space. -/
theorem spaceJoinThen_append (ws vs : List String) :
    spaceJoinThen ws ++ spaceJoinThen vs = spaceJoinThen (ws ++ vs) := by
  by_cases hv : vs = []
  · simp [spaceJoinThen, hv]
  · have h := spaceJoinThen_append_spaceJoin ws vs hv
    simp only [spaceJoinThen, hv, if_false, List.append_eq_nil, and_false] at h ⊢
    rw [← h, String.append_assoc]

/-! ## Single-spaced texts and `trim` -/

/-- A word is single-spaced. -/
theorem singleSpaced_of_isWord (w : String) (hw : IsWord w) : SingleSpaced w.data := by
  obtain ⟨hne, hall⟩ := hw
  refine ⟨hne, ?_, ?_, ?_⟩
  · intro c hc
    exact hall c (List.mem_of_mem_head? hc)
  · intro c hc
    exact hall c (List.mem_of_mem_getLast? hc)
  · generalize w.data = l at hall
    induction l with
    | nil => exact List.chain'_nil
    | cons a t ih =>
      rw [List.chain'_cons']
      refine ⟨?_, ih (fun c hc => hall c (List.mem_cons_of_mem a hc))⟩
      intro y _ hy
      have := hall a (List.mem_cons_self a t)
      rw [this] at hy
      exact absurd hy.1 (by simp)

/-- Two single-spaced texts with one space between them form a single-spaced text. -/
theorem singleSpaced_append_space (a b : List Char) (ha : SingleSpaced a) (hb : SingleSpaced b) :
    SingleSpaced (a ++ ' ' :: b) := by
  obtain ⟨hane, hah, hal, hac⟩ := ha
  obtain ⟨hbne, hbh, hbl, hbc⟩ := hb
  refine ⟨by simp, ?_, ?_, ?_⟩
  · intro c hc
    rw [List.head?_append_of_ne_nil a hane] at hc
    exact hah c hc
  · intro c hc
    have hsplit : a ++ ' ' :: b = (a ++ [' ']) ++ b := by simp
    rw [hsplit, List.getLast?_append_of_ne_nil _ hbne] at hc
    exact hbl c hc
  · refine List.Chain'.append hac ?_ ?_
    · rw [List.chain'_cons']
      refine ⟨?_, hbc⟩
      intro y hy hboth
      have := hbh y hy
      rw [this] at hboth
      exact absurd hboth.2 (by simp)
    · intro x hx y _ hboth
      have := hal x hx
      rw [this] at hboth
      exact absurd hboth.1 (by simp)

/-- The join of a non-empty list of words is single-spaced. -/
theorem singleSpaced_spaceJoin (ws : List String) (hne : ws ≠ [])
    (hws : ∀ w ∈ ws, IsWord w) : SingleSpaced (spaceJoin ws).data := by
  induction ws with
  | nil => exact absurd rfl hne
  | cons w rest ih =>
    by_cases hrest : rest = []
    · subst hrest
      exact singleSpaced_of_isWord w (hws w (List.mem_cons_self w []))
    · rw [spaceJoin_cons w rest hrest]
      have h1 := singleSpaced_of_isWord w (hws w (List.mem_cons_self w rest))
      have h2 := ih hrest (fun v hv => hws v (List.mem_cons_of_mem w hv))
      have := singleSpaced_append_space w.data (spaceJoin rest).data h1 h2
      simpa [String.data_append] using this

/-- The built-in `trim` leaves a single-spaced text as it is. -/
theorem jsTrim_of_singleSpaced (s : String) (hs : SingleSpaced s.data) : jsTrim s = s := by
  obtain ⟨hne, hh, hl, _⟩ := hs
  have h1 : s.data.dropWhile isJSWhiteSpace = s.data := by
    cases hd : s.data with
    | nil => rfl
    | cons a t =>
      have := hh a (by rw [hd]; rfl)
      simp [List.dropWhile, this]
  have h2 : s.data.reverse.dropWhile isJSWhiteSpace = s.data.reverse := by
    cases hd : s.data.reverse with
    | nil => rfl
    | cons a t =>
      have hlast : s.data.getLast? = some a := by
        rw [← List.head?_reverse, hd]; rfl
      have := hl a hlast
      simp [List.dropWhile, this]
  simp only [jsTrim, h1, h2, List.reverse_reverse]

/-- The built-in `trim` removes one trailing space after a single-spaced text. -/
theorem jsTrim_append_space (s : String) (hs : SingleSpaced s.data) : jsTrim (s ++ " ") = s := by
  obtain ⟨hne, hh, hl, _⟩ := hs
  have hdata : (s ++ " ").data = s.data ++ [' '] := by
    rw [String.data_append]
  have h1 : (s.data ++ [' ']).dropWhile isJSWhiteSpace = s.data ++ [' '] := by
    cases hd : s.data with
    | nil => exact absurd hd hne
    | cons a t =>
      have := hh a (by rw [hd]; rfl)
      simp [List.dropWhile, this]
  have h2 : s.data.reverse.dropWhile isJSWhiteSpace = s.data.reverse := by
    cases hd : s.data.reverse with
    | nil => rfl
    | cons a t =>
      have hlast : s.data.getLast? = some a := by
        rw [← List.head?_reverse, hd]; rfl
      have := hl a hlast
      simp [List.dropWhile, this]
  have hsp : isJSWhiteSpace ' ' = true := by decide
  simp only [jsTrim, hdata, h1, List.reverse_append, List.reverse_cons, List.reverse_nil,
    List.nil_append, List.singleton_append, List.dropWhile_cons_of_pos hsp, h2,
    List.reverse_reverse]

/-! ## The words written by the amount in words -/

/-- Every entry of `ones` read at a positive index is a word, and so is the text of
`undefined` read beyond the table. -/
theorem isWord_ones (k : Nat) (hk : 0 < k) : IsWord (ones.getD k "undefined") := by
  by_cases h : k < 20
  · unfold IsWord
    interval_cases k <;> decide
  · have hlen : ones.length ≤ k := by
      have : ones.length = 20 := rfl
      omega
    rw [List.getD_eq_default _ _ hlen]
    unfold IsWord
    decide

/-- Every entry of `tens` read at an index from 2 on is a word, and so is the text of
`undefined` read beyond the table. -/
theorem isWord_tens (k : Nat) (hk : 2 ≤ k) : IsWord (tens.getD k "undefined") := by
  by_cases h : k < 10
  · unfold IsWord
    interval_cases k <;> decide
  · have hlen : tens.length ≤ k := by
      have : tens.length = 10 := rfl
      omega
    rw [List.getD_eq_default _ _ hlen]
    unfold IsWord
    decide

/-- The words for a number below one hundred are words. -/
theorem isWord_of_mem_hundredWordList (n : Nat) (w : String) (hw : w ∈ hundredWordList n) :
    IsWord w := by
  unfold hundredWordList at hw
  by_cases h0 : n = 0
  · simp [h0] at hw
  · by_cases h20 : n < 20
    · simp only [h0, h20, if_false, if_true, List.mem_singleton] at hw
      rw [hw]
      exact isWord_ones n (Nat.pos_of_ne_zero h0)
    · simp only [h0, h20, if_false, List.mem_cons] at hw
      rcases hw with hw | hw
      · rw [hw]
        exact isWord_tens (n / 10) (by omega)
      · by_cases hm : n % 10 ≠ 0
        · rw [if_pos hm, List.mem_singleton] at hw
          rw [hw]
          exact isWord_ones (n % 10) (Nat.pos_of_ne_zero hm)
        · rw [if_neg hm] at hw
          exact absurd hw (List.not_mem_nil w)

/-- The words for a number are words. -/
theorem isWord_of_mem_thousandWordList (n : Nat) (w : String) (hw : w ∈ thousandWordList n) :
    IsWord w := by
  unfold thousandWordList at hw
  by_cases h : n < 100
  · simp only [h, if_true] at hw
    exact isWord_of_mem_hundredWordList n w hw
  · simp only [h, if_false, List.mem_cons] at hw
    rcases hw with hw | hw | hw
    · rw [hw]
      exact isWord_ones (n / 100) (by omega)
    · rw [hw]
      unfold IsWord
      decide
    · exact isWord_of_mem_hundredWordList (n % 100) w hw

/-- A positive number below one hundred has at least one word. -/
theorem hundredWordList_ne_nil (n : Nat) (hn : 0 < n) : hundredWordList n ≠ [] := by
  unfold hundredWordList
  have h0 : n ≠ 0 := Nat.pos_iff_ne_zero.mp hn
  by_cases h20 : n < 20 <;> simp [h0, h20]

/-- A positive number has at least one word. -/
theorem thousandWordList_ne_nil (n : Nat) (hn : 0 < n) : thousandWordList n ≠ [] := by
  unfold thousandWordList
  by_cases h : n < 100
  · simp only [h, if_true]
    exact hundredWordList_ne_nil n hn
  · simp [h]

/-- Below one hundred, the integer reading is the join of its words. -/
theorem lessThanHundredWords_eq_spaceJoin (n : Nat) :
    lessThanHundredWords n = spaceJoin (hundredWordList n) := by
  unfold lessThanHundredWords hundredWordList
  by_cases h0 : n = 0
  · simp [h0, spaceJoin]
  · by_cases h20 : n < 20
    · simp [h0, h20, spaceJoin]
    · by_cases hm : n % 10 ≠ 0
      · simp only [h0, h20, hm, if_false, if_true, spaceJoin, ne_eq, not_false_eq_true,
          String.append_assoc]
      · simp only [h0, h20, hm, if_false, spaceJoin, String.append_empty]

/-- The integer reading is the join of its words. -/
theorem lessThanThousandWords_eq_spaceJoin (n : Nat) :
    lessThanThousandWords n = spaceJoin (thousandWordList n) := by
  unfold lessThanThousandWords thousandWordList
  by_cases h : n < 100
  · simp only [h, if_true, lessThanHundredWords_eq_spaceJoin]
  · by_cases hm : n % 100 ≠ 0
    · have hne : hundredWordList (n % 100) ≠ [] :=
        hundredWordList_ne_nil (n % 100) (Nat.pos_of_ne_zero hm)
      have hcons : ("Hundred" :: hundredWordList (n % 100)) ≠ [] := by simp
      rw [if_neg h, if_neg h, if_pos hm, spaceJoin_cons _ _ hcons, spaceJoin_cons _ _ hne,
        lessThanHundredWords_eq_spaceJoin]
      simp only [String.append_assoc]
      rfl
    · have hz : n % 100 = 0 := by omega
      have hnil : hundredWordList (n % 100) = [] := by simp [hz, hundredWordList]
      rw [if_neg h, if_neg h, if_neg hm, hnil]
      simp only [spaceJoin, String.append_empty, String.append_assoc]
      rfl

/-- A group of `convert`: the reading of a positive group value, the group word and the
spaces around it are the words of the group followed by one space. -/
theorem group_eq_spaceJoinThen (k : Nat) (hk : 0 < k) (word : String) :
    lessThanThousandWords k ++ (" " ++ word ++ " ") =
      spaceJoinThen (thousandWordList k ++ [word]) := by
  have hne : thousandWordList k ≠ [] := thousandWordList_ne_nil k hk
  have happ : thousandWordList k ++ [word] ≠ [] := by simp
  rw [spaceJoinThen, if_neg happ, spaceJoin_append _ _ hne (by simp),
    lessThanThousandWords_eq_spaceJoin]
  simp only [spaceJoin, String.append_assoc]

/-- Every word written for a number is a word. -/
theorem isWord_of_mem_wordList (n : Nat) (w : String) (hw : w ∈ wordList n) : IsWord w := by
  have hgroup : ∀ (k : Nat) (word : String), IsWord word →
      w ∈ (if k > 0 then thousandWordList k ++ [word] else []) → IsWord w := by
    intro k word hword hmem
    by_cases hk : k > 0
    · rw [if_pos hk, List.mem_append, List.mem_singleton] at hmem
      rcases hmem with hmem | hmem
      · exact isWord_of_mem_thousandWordList k w hmem
      · rw [hmem]; exact hword
    · rw [if_neg hk] at hmem
      exact absurd hmem (List.not_mem_nil w)
  unfold wordList at hw
  simp only [List.mem_append] at hw
  rcases hw with ((hw | hw) | hw) | hw
  · exact hgroup _ "Crore" (by unfold IsWord; decide) hw
  · exact hgroup _ "Lakh" (by unfold IsWord; decide) hw
  · exact hgroup _ "Thousand" (by unfold IsWord; decide) hw
  · exact isWord_of_mem_thousandWordList _ w hw

/-- A positive number is written with at least one word. -/
theorem wordList_ne_nil (n : Nat) (hn : 0 < n) : wordList n ≠ [] := by
  unfold wordList
  by_cases hr : 0 < n % 1000
  · have := thousandWordList_ne_nil (n % 1000) hr
    simp [this]
  · by_cases hT : n % 100000 / 1000 > 0
    · simp [hT]
    · by_cases hL : n % 10000000 / 100000 > 0
      · simp [hL]
      · have hC : n / 10000000 > 0 := by omega
        simp [hC]

/-- On a positive natural number, the reading of `convert` is the single-space join of
the words of its groups. -/
theorem convertNat_eq_spaceJoin (n : Nat) (hn : 0 < n) :
    convertNat n = spaceJoin (wordList n) := by
  have hcrore : (if n / 10000000 > 0 then
        "" ++ (lessThanThousandWords (n / 10000000) ++ " Crore ") else "") =
      spaceJoinThen (if n / 10000000 > 0 then thousandWordList (n / 10000000) ++ ["Crore"]
        else []) := by
    by_cases h : n / 10000000 > 0
    · rw [if_pos h, if_pos h, ← group_eq_spaceJoinThen _ h "Crore", String.empty_append]
      rfl
    · rw [if_neg h, if_neg h]; rfl
  have hlakh : (if n % 10000000 / 100000 > 0 then
        lessThanThousandWords (n % 10000000 / 100000) ++ " Lakh " else "") =
      spaceJoinThen (if n % 10000000 / 100000 > 0 then
        thousandWordList (n % 10000000 / 100000) ++ ["Lakh"] else []) := by
    by_cases h : n % 10000000 / 100000 > 0
    · rw [if_pos h, if_pos h, ← group_eq_spaceJoinThen _ h "Lakh"]
      rfl
    · rw [if_neg h, if_neg h]; rfl
  have hthousand : (if n % 100000 / 1000 > 0 then
        lessThanThousandWords (n % 100000 / 1000) ++ " Thousand " else "") =
      spaceJoinThen (if n % 100000 / 1000 > 0 then
        thousandWordList (n % 100000 / 1000) ++ ["Thousand"] else []) := by
    by_cases h : n % 100000 / 1000 > 0
    · rw [if_pos h, if_pos h, ← group_eq_spaceJoinThen _ h "Thousand"]
      rfl
    · rw [if_neg h, if_neg h]; rfl
  have hwords : ∀ w ∈ wordList n, IsWord w := isWord_of_mem_wordList n
  have hne : wordList n ≠ [] := wordList_ne_nil n hn
  have hss : SingleSpaced (spaceJoin (wordList n)).data :=
    singleSpaced_spaceJoin (wordList n) hne hwords
  unfold convertNat
  rw [if_neg (Nat.pos_iff_ne_zero.mp hn), hcrore, hlakh, hthousand, spaceJoinThen_append,
    spaceJoinThen_append, lessThanThousandWords_eq_spaceJoin]
  by_cases hr : thousandWordList (n % 1000) = []
  · have hw : wordList n = ((if n / 10000000 > 0 then
          thousandWordList (n / 10000000) ++ ["Crore"] else []) ++
        (if n % 10000000 / 100000 > 0 then
          thousandWordList (n % 10000000 / 100000) ++ ["Lakh"] else [])) ++
        (if n % 100000 / 1000 > 0 then
          thousandWordList (n % 100000 / 1000) ++ ["Thousand"] else []) := by
      unfold wordList
      rw [hr, List.append_nil]
    rw [hr, ← hw]
    have hj : spaceJoinThen (wordList n) ++ spaceJoin [] = spaceJoin (wordList n) ++ " " := by
      simp [spaceJoinThen, hne, spaceJoin]
    rw [hj]
    exact jsTrim_append_space _ hss
  · rw [spaceJoinThen_append_spaceJoin _ _ hr]
    exact jsTrim_of_singleSpaced _ hss

/-! ## The amount in words against the specified reading -/

/-- The number zero has no group phrases. -/
theorem specGroupPhrases_zero (scales : List String) : specGroupPhrases scales 0 = [] := by
  induction scales with
  | nil => rfl
  | cons scale higher ih => simp [specGroupPhrases, ih]

set_option maxRecDepth 100000 in
/-- From 1 to 999 the code reads a number as its English cardinal. -/
theorem specCardinalBelowThousand_eq :
    ∀ k, k < 1000 → 0 < k → specCardinalBelowThousand k = lessThanThousandWords k := by
  decide

/-- From 1 to 999 the English cardinal is the reading of `convertLessThanThousand`. -/
theorem specCardinal_of_lt (k : Nat) (hk : k < 1000) (hpos : 0 < k) :
    specCardinal k = lessThanThousandWords k := by
  have hdiv : k / 1000 = 0 := Nat.div_eq_of_lt hk
  have hmod : k % 1000 = k := Nat.mod_eq_of_lt hk
  unfold specCardinal
  rw [specGroupPhrases, hdiv, specGroupPhrases_zero, hmod, if_pos hpos]
  simp only [List.nil_append, if_true, spaceJoin]
  exact specCardinalBelowThousand_eq k hk hpos

/-- Two non-empty word lists that agree when followed by a space have the same join. -/
theorem spaceJoin_eq_of_spaceJoinThen_eq (xs ys : List String) (hx : xs ≠ []) (hy : ys ≠ [])
    (h : spaceJoinThen xs = spaceJoinThen ys) : spaceJoin xs = spaceJoin ys := by
  simp only [spaceJoinThen, hx, hy, if_false] at h
  have hd := congrArg String.data h
  rw [String.data_append, String.data_append] at hd
  exact String.ext (List.append_cancel_right hd)

/-- A group phrase of the specified reading and the words of the same group in the code. -/
theorem specGroup_eq (k : Nat) (hk : k < 1000) (word : String) :
    spaceJoinThen (if k > 0 then [specCardinal k ++ (" " ++ word)] else []) =
      spaceJoinThen (if k > 0 then thousandWordList k ++ [word] else []) := by
  by_cases hpos : k > 0
  · rw [if_pos hpos, if_pos hpos, ← group_eq_spaceJoinThen k hpos word,
      specCardinal_of_lt k hk hpos]
    simp only [spaceJoinThen, spaceJoin, List.cons_ne_nil, if_false, String.append_assoc]
  · rw [if_neg hpos, if_neg hpos]

/-- Below `10^10`, where the crore group is below one thousand, `numberToWords` is the
Indian-numbering reading of the specification. -/
theorem numberToWords_eq_specIndianReading (n : Nat) (hn : n < 10000000000) :
    numberToWords (n : ℚ) = specIndianReading n := by
  rw [numberToWords_natCast]
  unfold numberToWordsNat specIndianReading
  by_cases h0 : n = 0
  · rw [if_pos h0, if_pos h0]
  · have hpos : 0 < n := Nat.pos_of_ne_zero h0
    rw [if_neg h0, if_neg h0, convertNat_eq_spaceJoin n hpos]
    have hc : n / 10000000 < 1000 := by omega
    have hl : n % 10000000 / 100000 < 1000 := by omega
    have ht : n % 100000 / 1000 < 1000 := by omega
    have hr : n % 1000 < 1000 := by omega
    have hrest : spaceJoinThen (if n % 1000 > 0 then [specCardinal (n % 1000)] else []) =
        spaceJoinThen (thousandWordList (n % 1000)) := by
      by_cases hrp : n % 1000 > 0
      · have hne := thousandWordList_ne_nil (n % 1000) hrp
        rw [if_pos hrp, specCardinal_of_lt _ hr hrp, lessThanThousandWords_eq_spaceJoin]
        simp only [spaceJoinThen, spaceJoin, List.cons_ne_nil, hne, if_false]
      · have hz : n % 1000 = 0 := by omega
        rw [if_neg hrp, hz]
        rfl
    have hthen : spaceJoinThen
          ((if n / 10000000 > 0 then [specCardinal (n / 10000000) ++ " Crore"] else []) ++
           (if n % 10000000 / 100000 > 0 then
              [specCardinal (n % 10000000 / 100000) ++ " Lakh"] else []) ++
           (if n % 100000 / 1000 > 0 then
              [specCardinal (n % 100000 / 1000) ++ " Thousand"] else []) ++
           (if n % 1000 > 0 then [specCardinal (n % 1000)] else [])) =
        spaceJoinThen (wordList n) := by
      unfold wordList
      rw [← spaceJoinThen_append, ← spaceJoinThen_append, ← spaceJoinThen_append,
        ← spaceJoinThen_append (_ ++ _), ← spaceJoinThen_append (_ ++ _),
        ← spaceJoinThen_append, hrest]
      have e1 := specGroup_eq (n / 10000000) hc "Crore"
      have e2 := specGroup_eq (n % 10000000 / 100000) hl "Lakh"
      have e3 := specGroup_eq (n % 100000 / 1000) ht "Thousand"
      have s1 : (" " ++ "Crore" : String) = " Crore" := rfl
      have s2 : (" " ++ "Lakh" : String) = " Lakh" := rfl
      have s3 : (" " ++ "Thousand" : String) = " Thousand" := rfl
      rw [s1] at e1
      rw [s2] at e2
      rw [s3] at e3
      rw [e1, e2, e3]
    have hwne : wordList n ≠ [] := wordList_ne_nil n hpos
    refine (spaceJoin_eq_of_spaceJoinThen_eq _ _ hwne ?_ hthen.symm)
    intro hnil
    rw [hnil] at hthen
    have : spaceJoinThen (wordList n) = "" := by rw [← hthen]; rfl
    simp only [spaceJoinThen, hwne, if_false] at this
    have hd := congrArg String.data this
    rw [String.data_append] at hd
    simp at hd

/-- C3, at the total 20000000000 (two thousand crore), a value that a price field can
hold: the crore group 2000 is read through `convertLessThanThousand`, which looks up
`ones[20]`, and the result is `undefined Hundred Crore`, while the Indian-numbering reading
with the English cardinal of 2000 is `Two Thousand Crore`. -/
theorem numberToWords_two_thousand_crore :
    numberToWords 20000000000 = "undefined Hundred Crore" ∧
      specIndianReading 20000000000 = "Two Thousand Crore" ∧
      numberToWords 20000000000 ≠ specIndianReading 20000000000 := by
  have h := numberToWords_natCast 20000000000
  simp only [Nat.cast_ofNat] at h
  rw [h]
  decide

/-- C5. For every non-negative integer `n` the text `numberToWords(n)` is not empty, has no
white space at its start or end and no two adjacent white-space characters: it is a
non-empty list of words, each free of white space, joined by exactly one space each; for
`n = 10000005`, where the lakh and thousand groups are absent, it is `One Crore Five`. -/
theorem numberToWords_single_spaced (n : Nat) :
    SingleSpaced (numberToWords (n : ℚ)).data ∧
      (∃ words : List String, words ≠ [] ∧ (∀ w ∈ words, IsWord w) ∧
        numberToWords (n : ℚ) = spaceJoin words) ∧
      numberToWords 10000005 = "One Crore Five" := by
  have hex : numberToWords 10000005 = "One Crore Five" := by
    have h := numberToWords_natCast 10000005
    simp only [Nat.cast_ofNat] at h
    rw [h]
    decide
  have hwords : ∃ words : List String, words ≠ [] ∧ (∀ w ∈ words, IsWord w) ∧
      numberToWords (n : ℚ) = spaceJoin words := by
    rw [numberToWords_natCast]
    unfold numberToWordsNat
    by_cases h0 : n = 0
    · refine ⟨["Zero"], by simp, ?_, ?_⟩
      · intro w hw
        rw [List.mem_singleton] at hw
        rw [hw]
        unfold IsWord
        decide
      · rw [if_pos h0]
        rfl
    · have hpos : 0 < n := Nat.pos_of_ne_zero h0
      rw [if_neg h0]
      exact ⟨wordList n, wordList_ne_nil n hpos, isWord_of_mem_wordList n,
        convertNat_eq_spaceJoin n hpos⟩
  refine ⟨?_, hwords, hex⟩
  obtain ⟨words, hne, hall, heq⟩ := hwords
  rw [heq]
  exact singleSpaced_spaceJoin words hne hall

/-! ## The amount in words of a total with a fraction -/

/-- `Math.floor` of a number from 0 up to, not including, 1. -/
theorem mathFloor_of_lt_one (x : ℚ) (h0 : 0 ≤ x) (h1 : x < 1) : mathFloor x = 0 := by
  have h : Int.floor x = 0 := by
    rw [Int.floor_eq_iff]
    constructor
    · simpa using h0
    · simpa using h1
  simp [mathFloor, h]

/-- Reading of the text `12.50`. -/
theorem parseFloat_12_50 : parseFloat (JSVal.str "12.50") = JSNum.fin (25 / 2) := by
  have h : scanDecimal "12.50".data = some ⟨false, 1250, 2, 0⟩ := by decide
  simp only [parseFloat, parseFloatChars, h, DecimalLiteral.value, scale10]
  norm_num

/-- The number 12.5 is written `12.50` by `toFixed(2)`. -/
theorem toFixed_12_50 : toFixed (25 / 2) 2 = "12.50" := by
  have hfloor : Int.floor (|(25 / 2 : ℚ)| * (10 : ℚ) ^ 2 + 1 / 2) = 1250 := by
    rw [Int.floor_eq_iff]
    have habs : |(25 / 2 : ℚ)| = 25 / 2 := abs_of_nonneg (by norm_num)
    rw [habs]
    constructor <;> norm_num
  have hlt : ¬ ((25 / 2 : ℚ) < 0) := by norm_num
  simp only [toFixed, roundHalfUp, hfloor, hlt, decide_False]
  decide

/-- The number 12.5 is not an array index. -/
theorem arrayIndex_12_50 : arrayIndex (25 / 2) = none := by
  have hfloor : Int.floor (25 / 2 : ℚ) = 12 := by
    rw [Int.floor_eq_iff]
    constructor <;> norm_num
  have hne : ¬ (((12 : Int) : ℚ) = 25 / 2) := by norm_num
  simp only [arrayIndex, hfloor, hne, and_false, if_false]

/-- The words of 12.5: the read `ones[12.5]` finds no element. -/
theorem numberToWords_12_50 : numberToWords (25 / 2) = "undefined" := by
  have hne : ¬ ((25 / 2 : ℚ) = 0) := by norm_num
  have hc : mathFloor ((25 / 2 : ℚ) / 10000000) = 0 :=
    mathFloor_of_lt_one _ (by norm_num) (by norm_num)
  have hl : mathFloor ((25 / 2 : ℚ) / 100000) = 0 :=
    mathFloor_of_lt_one _ (by norm_num) (by norm_num)
  have ht : mathFloor ((25 / 2 : ℚ) / 1000) = 0 :=
    mathFloor_of_lt_one _ (by norm_num) (by norm_num)
  have hconv : convertLessThanThousand (25 / 2) = "undefined" := by
    rw [convertLessThanThousand]
    have hlt : (25 / 2 : ℚ) < 20 := by norm_num
    simp only [hne, hlt, dite_false, dite_true, arrayIndex_12_50, elemText]
  simp only [numberToWords, convert, hne, if_false, hc, hl, ht, gt_iff_lt, lt_self_iff_false,
    decide_False, Bool.false_eq_true, hconv]
  decide

/-- A number is read back as itself. -/
theorem parseFloat_num (x : JSNum) : parseFloat (JSVal.num x) = x := rfl

/-- C6, at one line item priced `12.50` and no discount: the stored total is `12.50`, and the
amount in words generated for it is `In Words: undefined Only.`, not the text
`In Words: Twelve Only.` that is generated for the total 12: the fraction is not truncated
before the conversion. -/
theorem amountInWords_fraction_not_truncated :
    (calculateTotals [⟨1, "Service", JSVal.str "12.50"⟩]
        (sampleForm (JSVal.num (JSNum.fin 0)))).total = JSVal.str "12.50" ∧
      (refreshAmountInWords
        (calculateTotals [⟨1, "Service", JSVal.str "12.50"⟩]
          (sampleForm (JSVal.num (JSNum.fin 0))))
        (sampleForm (JSVal.num (JSNum.fin 0)))).amountInWords = "In Words: undefined Only." ∧
      "In Words: " ++ numberToWords 12 ++ " Only." = "In Words: Twelve Only." := by
  have htotal : totalOf [⟨1, "Service", JSVal.str "12.50"⟩]
      (sampleForm (JSVal.num (JSNum.fin 0))) = 25 / 2 := by
    simp only [totalOf, subtotalOf, discountOf, sampleForm, List.foldl, parseFloat_12_50,
      parseFloat_num, orZero]
    norm_num
  have hstored : (calculateTotals [⟨1, "Service", JSVal.str "12.50"⟩]
      (sampleForm (JSVal.num (JSNum.fin 0)))).total = JSVal.str "12.50" := by
    simp only [calculateTotals, htotal, toFixed_12_50]
  refine ⟨hstored, ?_, ?_⟩
  · have hpos : (0 : ℚ) < 25 / 2 := by norm_num
    have htruthy : truthy (JSVal.str "12.50") = true := by decide
    simp only [refreshAmountInWords, hstored, parseFloat_12_50, htruthy, hpos, and_self,
      if_true, numberToWords_12_50]
    decide
  · have h := numberToWords_natCast 12
    simp only [Nat.cast_ofNat] at h
    rw [h]
    decide

/-- Reading of the text `5.00`. -/
theorem parseFloat_5_00 : parseFloat (JSVal.str "5.00") = JSNum.fin 5 := by
  have h : scanDecimal "5.00".data = some ⟨false, 500, 2, 0⟩ := by decide
  simp only [parseFloat, parseFloatChars, h, DecimalLiteral.value, scale10]
  norm_num

/-- Reading of the text `0.00`. -/
theorem parseFloat_0_00 : parseFloat (JSVal.str "0.00") = JSNum.fin 0 := by
  have h : scanDecimal "0.00".data = some ⟨false, 0, 2, 0⟩ := by decide
  simp only [parseFloat, parseFloatChars, h, DecimalLiteral.value, scale10]
  norm_num

/-- A text that parses to a number is not empty, hence truthy. -/
theorem truthy_of_parseFloat_pos (v : JSVal) (total : ℚ) (hparse : parseFloat v = JSNum.fin total)
    (hpos : 0 < total) : truthy v = true := by
  cases v with
  | num x =>
    simp only [parseFloat] at hparse
    subst hparse
    simp [truthy, hpos.ne']
  | str s =>
    have hne : s ≠ "" := by
      intro hs
      subst hs
      have h : scanDecimal "".data = none := by decide
      simp [parseFloat, parseFloatChars, h] at hparse
    simp [truthy, hne]

/-! ## Refresh of the amount in words when the total changes -/

/-- Reading of the text `5`. -/
theorem parseFloat_5 : parseFloat (JSVal.str "5") = JSNum.fin 5 := by
  have h : scanDecimal "5".data = some ⟨false, 5, 0, 0⟩ := by decide
  simp only [parseFloat, parseFloatChars, h, DecimalLiteral.value, scale10]
  norm_num

/-- Reading of the empty text. -/
theorem parseFloat_empty : parseFloat (JSVal.str "") = JSNum.nan := by
  have h : scanDecimal "".data = none := by decide
  simp only [parseFloat, parseFloatChars, h]

/-- The number 5 is written `5.00` by `toFixed(2)`. -/
theorem toFixed_5_00 : toFixed 5 2 = "5.00" := by
  have hfloor : Int.floor (|(5 : ℚ)| * (10 : ℚ) ^ 2 + 1 / 2) = 500 := by
    rw [Int.floor_eq_iff]
    have habs : |(5 : ℚ)| = 5 := abs_of_nonneg (by norm_num)
    rw [habs]
    constructor <;> norm_num
  have hlt : ¬ ((5 : ℚ) < 0) := by norm_num
  simp only [toFixed, roundHalfUp, hfloor, hlt, decide_False]
  decide

/-- The totals of the item priced 5: the stored total is `5.00`. -/
theorem calculateTotals_pricedItems (formData : FormData)
    (hd : formData.discount = JSVal.num (JSNum.fin 0)) :
    (calculateTotals pricedItems formData).total = JSVal.str "5.00" := by
  have htotal : totalOf pricedItems formData = 5 := by
    simp only [totalOf, subtotalOf, discountOf, pricedItems, hd, List.foldl, parseFloat_5,
      parseFloat_num, orZero]
    norm_num
  simp only [calculateTotals, htotal, toFixed_5_00]

/-- The totals of the item with the cleared price: the stored total is `0.00`. -/
theorem calculateTotals_clearedItems (formData : FormData)
    (hd : formData.discount = JSVal.num (JSNum.fin 0)) :
    (calculateTotals clearedItems formData).total = JSVal.str "0.00" := by
  have htotal : totalOf clearedItems formData = 0 := by
    simp only [totalOf, subtotalOf, discountOf, clearedItems, hd, List.foldl, parseFloat_empty,
      parseFloat_num, orZero]
    norm_num
  simp only [calculateTotals, htotal, toFixed_zero_two]

/-- After the total went from 0 to `5.00`, the amount in words is `In Words: Five Only.`. -/
theorem onTotalsChange_pricedItems :
    onTotalsChange initialTotals (calculateTotals pricedItems blankForm) blankForm =
      { blankForm with amountInWords := "In Words: Five Only." } := by
  have hstored := calculateTotals_pricedItems blankForm rfl
  have hne : ¬ (JSVal.str "5.00" = initialTotals.total) := by
    simp [initialTotals]
  have hfive : numberToWords 5 = "Five" := by
    have h := numberToWords_natCast 5
    simp only [Nat.cast_ofNat] at h
    rw [h]
    decide
  have htruthy : truthy (JSVal.str "5.00") = true := by decide
  have hpos : (0 : ℚ) < 5 := by norm_num
  have htext : "In Words: " ++ "Five" ++ " Only." = "In Words: Five Only." := by decide
  simp only [onTotalsChange, hstored, hne, if_false, refreshAmountInWords, parseFloat_5_00,
    htruthy, hpos, and_self, if_true, hfive, htext]

/-- C7. The code departs from the claim when the total changes from a positive value to
zero: after the price of the only item, 5, is cleared, the total goes from `5.00` to `0.00`,
and the amount in words stays `In Words: Five Only.` instead of becoming
`In Words: Zero Only.`, the text for the total 0. The guard of the effect skips the total 0,
although the effect is commented as updating the words when the total changes and
`numberToWords` has a case for 0. -/
theorem amountInWords_stale_at_zero :
    (calculateTotals clearedItems { blankForm with amountInWords := "In Words: Five Only." }).total
        ≠ (calculateTotals pricedItems blankForm).total ∧
      (onTotalsChange (calculateTotals pricedItems blankForm)
        (calculateTotals clearedItems { blankForm with amountInWords := "In Words: Five Only." })
        { blankForm with amountInWords := "In Words: Five Only." }).amountInWords
          = "In Words: Five Only." ∧
      "In Words: " ++ numberToWords 0 ++ " Only." = "In Words: Zero Only." ∧
      (onTotalsChange (calculateTotals pricedItems blankForm)
        (calculateTotals clearedItems { blankForm with amountInWords := "In Words: Five Only." })
        { blankForm with amountInWords := "In Words: Five Only." }).amountInWords
          ≠ "In Words: " ++ numberToWords 0 ++ " Only." := by
  have hold := calculateTotals_pricedItems blankForm rfl
  have hnew := calculateTotals_clearedItems
    { blankForm with amountInWords := "In Words: Five Only." } rfl
  have hne : ¬ (JSVal.str "0.00" = JSVal.str "5.00") := by decide
  have hzero : numberToWords 0 = "Zero" := by simp [numberToWords]
  have hnotpos : ¬ ((0 : ℚ) < 0) := lt_irrefl 0
  have hkept : (onTotalsChange (calculateTotals pricedItems blankForm)
      (calculateTotals clearedItems { blankForm with amountInWords := "In Words: Five Only." })
      { blankForm with amountInWords := "In Words: Five Only." }).amountInWords
        = "In Words: Five Only." := by
    simp only [onTotalsChange, hold, hnew, hne, if_false, refreshAmountInWords,
      parseFloat_0_00, hnotpos, and_false]
  refine ⟨?_, hkept, ?_, ?_⟩
  · rw [hold, hnew]
    exact hne
  · rw [hzero]
    decide
  · rw [hkept, hzero]
    decide

/-- The two cases of the effect on a changed total. When the new total parses to a number
above zero, `amountInWords` becomes `In Words: ` + `numberToWords(total)` + ` Only.`,
whatever it held before, and no other field changes. When it does not, the guard skips the
update and the form data stays as it was. -/
theorem onTotalsChange_of_change (old new : Totals) (formData : FormData)
    (hchange : new.total ≠ old.total) :
    (∀ total : ℚ, parseFloat new.total = JSNum.fin total → 0 < total →
      onTotalsChange old new formData =
        { formData with amountInWords := "In Words: " ++ numberToWords total ++ " Only." }) ∧
    ((∀ total : ℚ, parseFloat new.total = JSNum.fin total → total ≤ 0) →
      onTotalsChange old new formData = formData) := by
  constructor
  · intro total hparse hpos
    have htruthy := truthy_of_parseFloat_pos new.total total hparse hpos
    simp only [onTotalsChange, hchange, if_false, refreshAmountInWords, hparse, htruthy, hpos,
      and_self, if_true]
  · intro hle
    simp only [onTotalsChange, hchange, if_false, refreshAmountInWords]
    cases hparse : parseFloat new.total with
    | nan => rfl
    | fin total =>
      have hnot : ¬ (0 < total) := not_lt.mpr (hle total hparse)
      simp only [hnot, and_false, if_false]

/-- At the change of the total from 0 to `5.00` on a form whose amount in words was typed by
hand, the typed text is replaced by `In Words: Five Only.`. -/
theorem onTotalsChange_overwrites_typed_text :
    onTotalsChange initialTotals (calculateTotals pricedItems blankForm)
        { blankForm with amountInWords := "Five Taka Only" } =
      { blankForm with amountInWords := "In Words: " ++ numberToWords 5 ++ " Only." } :=
  (onTotalsChange_of_change initialTotals (calculateTotals pricedItems blankForm)
    { blankForm with amountInWords := "Five Taka Only" }
    (by rw [calculateTotals_pricedItems blankForm rfl]; simp [initialTotals])).1 5
    (by rw [calculateTotals_pricedItems blankForm rfl]; exact parseFloat_5_00)
    (by norm_num)

/-! ## Decimal digits of a natural number -/

/-- The character of a digit below ten has the code of that digit. -/
theorem digitChar_toNat (d : Nat) (hd : d < 10) : (Nat.digitChar d).toNat = 48 + d := by
  interval_cases d <;> rfl

/-- Appending one digit to a run of digits. -/
theorem digitsValue_append_singleton (l : List Char) (c : Char) :
    digitsValue (l ++ [c]) = 10 * digitsValue l + (c.toNat - 48) := by
  simp [digitsValue, List.foldl_append]

/-- The digits that `toDigitsCore` puts in front of its accumulator, given enough fuel: a
non-empty run of decimal digits whose value is the number. -/
theorem toDigitsCore_spec (fuel : Nat) :
    ∀ (n : Nat) (ds : List Char), n < fuel →
      ∃ l : List Char, Nat.toDigitsCore 10 fuel n ds = l ++ ds ∧ l ≠ [] ∧
        (∀ c ∈ l, isDecimalDigit c = true) ∧ digitsValue l = n := by
  induction fuel with
  | zero => intro n ds h; exact absurd h (Nat.not_lt_zero n)
  | succ fuel ih =>
    intro n ds hlt
    have hmod : n % 10 < 10 := Nat.mod_lt n (by norm_num)
    have hcode := digitChar_toNat (n % 10) hmod
    have hdigit : isDecimalDigit (Nat.digitChar (n % 10)) = true := by
      simp only [isDecimalDigit, hcode, Bool.and_eq_true, decide_eq_true_eq]
      omega
    by_cases hq : n / 10 = 0
    · refine ⟨[Nat.digitChar (n % 10)], ?_, by simp, ?_, ?_⟩
      · simp [Nat.toDigitsCore, hq]
      · intro c hc
        rw [List.mem_singleton] at hc
        rw [hc]
        exact hdigit
      · simp only [digitsValue, List.foldl, hcode]
        omega
    · have hlt2 : n / 10 < fuel := by omega
      obtain ⟨l, hl, _, hall, hval⟩ := ih (n / 10) (Nat.digitChar (n % 10) :: ds) hlt2
      refine ⟨l ++ [Nat.digitChar (n % 10)], ?_, by simp, ?_, ?_⟩
      · simp [Nat.toDigitsCore, hq, hl]
      · intro c hc
        rw [List.mem_append, List.mem_singleton] at hc
        rcases hc with hc | hc
        · exact hall c hc
        · rw [hc]; exact hdigit
      · rw [digitsValue_append_singleton, hval, hcode]
        omega

/-- The text `String(n)` of a natural number is a non-empty run of decimal digits whose
value is `n`. -/
theorem natToString_spec (n : Nat) :
    (natToString n).data ≠ [] ∧ (∀ c ∈ (natToString n).data, isDecimalDigit c = true) ∧
      digitsValue (natToString n).data = n := by
  obtain ⟨l, hl, hne, hall, hval⟩ := toDigitsCore_spec (n + 1) n [] (Nat.lt_succ_self n)
  have hdata : (natToString n).data = l := by
    simp [natToString, Nat.repr, Nat.toDigits, hl, List.asString]
  rw [hdata]
  exact ⟨hne, hall, hval⟩

/-- A run of decimal digits has a value below ten to the power of its length. -/
theorem digitsValue_lt_pow (l : List Char) (hall : ∀ c ∈ l, isDecimalDigit c = true) :
    digitsValue l < 10 ^ l.length := by
  induction l using List.reverseRecOn with
  | nil => simp [digitsValue]
  | append_singleton l c ih =>
    have hc : isDecimalDigit c = true := hall c (by simp)
    have hl := ih (fun d hd => hall d (by simp [hd]))
    simp only [isDecimalDigit, Bool.and_eq_true, decide_eq_true_eq] at hc
    rw [digitsValue_append_singleton, List.length_append, List.length_singleton, pow_succ]
    omega

/-- The text of a number from 10000 on has at least four characters. -/
theorem four_le_length_natToString (n : Nat) (hn : 10000 ≤ n) :
    4 ≤ (natToString n).length := by
  obtain ⟨_, hall, hval⟩ := natToString_spec n
  have hlt := digitsValue_lt_pow (natToString n).data hall
  rw [hval] at hlt
  by_contra hlen
  have hlen3 : (natToString n).data.length ≤ 3 := by
    have : (natToString n).length = (natToString n).data.length := rfl
    omega
  have hpow : 10 ^ (natToString n).data.length ≤ 10 ^ 3 :=
    Nat.pow_le_pow_right (by norm_num) hlen3
  omega

/-- The text of a number up to 9999 has at most four characters. -/
theorem length_natToString_le_four (n : Nat) (hn : n ≤ 9999) :
    (natToString n).length ≤ 4 :=
  Nat.repr_length n 4 (by norm_num) (Nat.lt_succ_of_le hn)

/-! ## Integers that binary64 keeps exactly -/

/-- Values of the model at numbers beyond `2 ^ 53`: `parseInt("9007199254740993")` is
9007199254740992, `9007199254740992 + 1` is 9007199254740992, `String(2 ** 64)` is
`18446744073709552000`, `String(1e21)` is `1e+21`, `String(2 ** 70)` is
`1.1805916207174113e+21`, and `parseInt("1e+21")` is 1. -/
theorem binary64_examples :
    parseInt10 "9007199254740993" = JSInt.fin 9007199254740992 ∧
      (JSInt.fin 9007199254740992).addOne = JSInt.fin 9007199254740992 ∧
      intToString (toNumber false 18446744073709551616) = "18446744073709552000" ∧
      intToString (toNumber false 1000000000000000000000) = "1e+21" ∧
      intToString (toNumber false 1180591620717411303424) = "1.1805916207174113e+21" ∧
      parseInt10 "1e+21" = JSInt.fin 1 ∧
      parseInt10 "  -42px" = JSInt.fin (-42) ∧ parseInt10 "abc" = JSInt.nan := by
  decide

/-- A number below `2 ^ 53` needs no shift. -/
theorem shiftBelow_of_lt (n : Nat) (hn : n < 9007199254740992) : shiftBelow n n 0 = 0 := by
  cases n with
  | zero => rfl
  | succ m => simp [shiftBelow, hn]

/-- A natural number below `2 ^ 53` is a binary64 number. -/
theorem roundBinary64_of_lt (n : Nat) (hn : n < 9007199254740992) : roundBinary64 n = n := by
  simp [roundBinary64, shiftBelow_of_lt n hn, Nat.mod_one]

/-- The shift found is the start, or the shift before it did not bring the number below
`2 ^ 53`. -/
theorem shiftBelow_spec (n fuel : Nat) :
    ∀ s, shiftBelow n fuel s = s ∨
      (s < shiftBelow n fuel s ∧ 9007199254740992 ≤ n / 2 ^ (shiftBelow n fuel s - 1)) := by
  induction fuel with
  | zero => intro s; left; rfl
  | succ fuel ih =>
    intro s
    by_cases h : n / 2 ^ s < 9007199254740992
    · left
      simp [shiftBelow, h]
    · right
      have hstep : shiftBelow n (fuel + 1) s = shiftBelow n fuel (s + 1) := by
        simp [shiftBelow, h]
      rw [hstep]
      rcases ih (s + 1) with heq | ⟨hlt, hge⟩
      · rw [heq]
        refine ⟨Nat.lt_succ_self s, ?_⟩
        simp only [Nat.add_sub_cancel]
        omega
      · exact ⟨by omega, hge⟩

/-- Rounding a number from `2 ^ 53` on gives a number from `2 ^ 53` on. -/
theorem le_roundBinary64 (n : Nat) (hn : 9007199254740992 ≤ n) :
    9007199254740992 ≤ roundBinary64 n := by
  have hkeep : n / 2 ^ shiftBelow n n 0 * 2 ^ shiftBelow n n 0 ≤ roundBinary64 n := by
    unfold roundBinary64
    split
    · exact Nat.mul_le_mul_right _ (Nat.le_succ _)
    · exact Nat.le_refl _
  refine Nat.le_trans ?_ hkeep
  rcases shiftBelow_spec n n 0 with h0 | ⟨hpos, hge⟩
  · rw [h0]
    simpa using hn
  · obtain ⟨t, ht⟩ : ∃ t, shiftBelow n n 0 = t + 1 := ⟨shiftBelow n n 0 - 1, by omega⟩
    rw [ht] at hge ⊢
    simp only [Nat.add_sub_cancel] at hge
    have hq : 4503599627370496 ≤ n / 2 ^ (t + 1) := by
      rw [pow_succ, ← Nat.div_div_eq_div_mul]
      omega
    have hpow : 2 ≤ 2 ^ (t + 1) := by
      have := Nat.one_le_two_pow (n := t)
      rw [pow_succ]
      omega
    calc 9007199254740992 = 4503599627370496 * 2 := by norm_num
      _ ≤ n / 2 ^ (t + 1) * 2 ^ (t + 1) := Nat.mul_le_mul hq hpow

/-- For a number below `2 ^ 53` the only number that is read back as it is the number
itself. -/
theorem shortestCandidate_of_lt (x d k v : Nat) (hx : x < 9007199254740992)
    (hv : shortestCandidate x d k = some v) : v = x := by
  unfold shortestCandidate at hv
  generalize 10 ^ (d - k) = p at hv
  have hlo : x / p * p ≤ x := Nat.div_mul_le_self x p
  have hrlo : roundBinary64 (x / p * p) = x / p * p := roundBinary64_of_lt _ (by omega)
  by_cases hp : p = 0
  · subst hp
    simp only [Nat.mul_zero] at hv hrlo
    rw [hrlo] at hv
    by_cases h0 : 0 = x
    · simp only [h0, if_true] at hv
      split at hv <;> simp_all
    · simp only [h0, if_false] at hv
      exact absurd hv (by simp)
  · have hhi : x < (x / p + 1) * p := by
      have h1 := Nat.div_add_mod x p
      have h2 := Nat.mod_lt x (Nat.pos_of_ne_zero hp)
      have h3 : (x / p + 1) * p = p * (x / p) + p := by ring
      rw [h3]
      omega
    have hrhi : roundBinary64 ((x / p + 1) * p) ≠ x := by
      by_cases hsmall : (x / p + 1) * p < 9007199254740992
      · rw [roundBinary64_of_lt _ hsmall]
        omega
      · have := le_roundBinary64 _ (not_lt.mp hsmall)
        omega
    rw [hrlo] at hv
    simp only [hrhi, if_false] at hv
    by_cases heq : x / p * p = x
    · rw [if_pos heq] at hv
      rw [← Option.some.inj hv, heq]
    · rw [if_neg heq] at hv
      exact absurd hv (by simp)

/-- The digits that `String` writes for a number below `2 ^ 53` are those of the number. -/
theorem shortestDecimal_of_lt (x : Nat) (hx : x < 9007199254740992) :
    shortestDecimal x = x := by
  unfold shortestDecimal
  cases hfind : ((List.range (Nat.toDigits 10 x).length).map (fun k => k + 1)).findSome?
      (shortestCandidate x (Nat.toDigits 10 x).length) with
  | none => rfl
  | some v =>
    obtain ⟨k, _, hk⟩ := List.exists_of_findSome?_eq_some hfind
    exact shortestCandidate_of_lt x _ k v hx hk

/-- The text `String(x)` of a natural number below `2 ^ 53` is its decimal text. -/
theorem naturalToString_of_lt (x : Nat) (hx : x < 9007199254740992) :
    naturalToString x = natToString x := by
  have hlen : (Nat.toDigits 10 x).length ≤ 21 := by
    have h := Nat.repr_length x 21 (by norm_num) (by omega)
    simpa [Nat.repr, List.asString] using h
  simp only [naturalToString, shortestDecimal_of_lt x hx, hlen, if_true]
  rfl

/-- The bound `2 ^ 53` is a binary64 number. -/
theorem pow53_le_maxBinary64 : 9007199254740992 ≤ maxBinary64 := by
  decide

/-- The Number value of a natural number below `2 ^ 53` is that number. -/
theorem toNumber_of_lt (n : Nat) (hn : n < 9007199254740992) :
    toNumber false n = JSInt.fin (n : Int) := by
  have hle : n ≤ maxBinary64 := Nat.le_trans (Nat.le_of_lt hn) pow53_le_maxBinary64
  simp [toNumber, roundBinary64_of_lt n hn, hle]

/-- The sum `k + 1` is exact when it stays below `2 ^ 53`. -/
theorem addOne_natCast (k : Nat) (hk : k + 1 < 9007199254740992) :
    (JSInt.fin (k : Int)).addOne = JSInt.fin ((k + 1 : Nat) : Int) := by
  have hnot : ¬ ((k : Int) + 1 < 0) := by omega
  have habs : ((k : Int) + 1).natAbs = k + 1 := by omega
  simp only [JSInt.addOne, hnot, decide_False, habs, toNumber_of_lt (k + 1) hk]

/-- The text `String(x)` of a natural number below `2 ^ 53`. -/
theorem intToString_natCast (m : Nat) (hm : m < 9007199254740992) :
    intToString (JSInt.fin (m : Int)) = natToString m := by
  have h : ¬ ((m : Int) < 0) := by omega
  simp only [intToString, h, if_false, Int.toNat_ofNat, naturalToString_of_lt m hm]

/-- The comparison of two natural numbers. -/
theorem gt_natCast (a b : Nat) :
    (JSInt.fin (a : Int)).gt (JSInt.fin (b : Int)) = decide (b < a) := by
  simp [JSInt.gt]

/-! ## The local sequence counter and the format of invoice numbers -/

/-- A decimal digit is neither white space nor a sign. -/
theorem not_space_of_isDecimalDigit (c : Char) (hc : isDecimalDigit c = true) :
    isJSWhiteSpace c = false ∧ c ≠ '-' ∧ c ≠ '+' := by
  simp only [isDecimalDigit, Bool.and_eq_true, decide_eq_true_eq] at hc
  refine ⟨?_, ?_, ?_⟩
  · simp only [isJSWhiteSpace, Bool.or_eq_false_iff, decide_eq_false_iff_not,
      Bool.and_eq_false_imp, decide_eq_true_eq, not_le]
    omega
  · intro h
    rw [h] at hc
    exact absurd hc.1 (by decide)
  · intro h
    rw [h] at hc
    exact absurd hc.1 (by decide)

/-- A run of decimal digits is taken whole by `takeWhile`. -/
theorem takeWhile_digits (l : List Char) (hall : ∀ c ∈ l, isDecimalDigit c = true) :
    l.takeWhile isDecimalDigit = l := by
  induction l with
  | nil => rfl
  | cons a t ih =>
    have ha := hall a (List.mem_cons_self a t)
    rw [List.takeWhile_cons_of_pos ha, ih (fun c hc => hall c (List.mem_cons_of_mem a hc))]

/-- Reading in base 10 a non-empty run of decimal digits gives the Number value of the
integer that the digits write. -/
theorem parseInt10_digits (s : String) (hne : s.data ≠ [])
    (hall : ∀ c ∈ s.data, isDecimalDigit c = true) :
    parseInt10 s = toNumber false (digitsValue s.data) := by
  cases hd : s.data with
  | nil => exact absurd hd hne
  | cons a t =>
    rw [hd] at hall
    have ha := hall a (List.mem_cons_self a t)
    obtain ⟨hsp, hminus, hplus⟩ := not_space_of_isDecimalDigit a ha
    have hdrop : (a :: t).dropWhile isJSWhiteSpace = a :: t := by
      simp [List.dropWhile, hsp]
    have htake := takeWhile_digits (a :: t) hall
    have hneg : (match a :: t with
        | '-' :: _ => true
        | _ => false) = false := by
      split
      · rename_i heq
        exact absurd (List.cons.inj heq).1 hminus
      · rfl
    have hbody : (match a :: t with
        | '-' :: r => r
        | '+' :: r => r
        | _ => a :: t) = a :: t := by
      split
      · rename_i heq
        exact absurd (List.cons.inj heq).1 hminus
      · rename_i heq
        exact absurd (List.cons.inj heq).1 hplus
      · rfl
    simp only [parseInt10, hd, hdrop, hneg, hbody, htake, List.isEmpty_cons, Bool.false_eq_true,
      if_false]

/-- The text of a natural number below `2 ^ 53` reads back, in base 10, as that number. -/
theorem parseInt10_natToString (k : Nat) (hk : k < 9007199254740992) :
    parseInt10 (natToString k) = JSInt.fin (k : Int) := by
  obtain ⟨hne, hall, hval⟩ := natToString_spec k
  rw [parseInt10_digits (natToString k) hne hall, hval, toNumber_of_lt k hk]

/-- The text of a natural number is not the empty text. -/
theorem natToString_ne_empty (k : Nat) : natToString k ≠ "" := by
  intro h
  have := (natToString_spec k).1
  rw [h] at this
  exact this rfl

/-- The counter stored as the text of `k`, below `2 ^ 53`, is read as `k`. -/
theorem getLastInvoiceNumber_stored (k : Nat) (hk : k < 9007199254740992) :
    storage.getLastInvoiceNumber ⟨some (natToString k), true⟩ = JSInt.fin (k : Int) := by
  simp only [storage.getLastInvoiceNumber, if_true, natToString_ne_empty k, ne_eq,
    not_false_eq_true, parseInt10_natToString k hk]

/-- The format `GP-` + `padStart(4, '0')` written out: zeros in front of the digits up to
four characters. -/
theorem padStart_natToString (m : Nat) :
    "GP-" ++ padStart (natToString m) 4 '0' =
      "GP-" ++ String.mk (List.replicate (4 - (natToString m).length) '0') ++ natToString m := by
  apply String.ext
  simp [padStart, String.data_append]

/-- The number allocated from the local counter `k`: `GP-` and `k + 1` padded, as long as
`k + 1` is below `2 ^ 53`. -/
theorem getCurrentInvoiceNumber_stored (k : Nat) (hk : k + 1 < 9007199254740992) :
    storage.getCurrentInvoiceNumber ⟨some (natToString k), true⟩ =
      "GP-" ++ padStart (natToString (k + 1)) 4 '0' := by
  simp only [storage.getCurrentInvoiceNumber, getLastInvoiceNumber_stored k (by omega),
    addOne_natCast k hk, intToString_natCast (k + 1) hk]

/-- C8, as stated, fails beyond the integers that a binary64 number holds exactly: the
counter stored as `9007199254740993` is read as `9007199254740992`, and the invoice number
produced is `GP-9007199254740992`, not `GP-` and the digits of `k + 1`; on the path of
`initializeInvoice` the same number is offered; from the counter `999999999999999999999`
the number is `GP-1e+21`. -/
theorem getCurrentInvoiceNumber_rounded_counterexample :
    storage.getLastInvoiceNumber ⟨some "9007199254740993", true⟩ =
        JSInt.fin 9007199254740992 ∧
      storage.getCurrentInvoiceNumber ⟨some "9007199254740993", true⟩ =
        "GP-9007199254740992" ∧
      storage.getCurrentInvoiceNumber ⟨some "9007199254740993", true⟩ ≠
        "GP-" ++ natToString (9007199254740993 + 1) ∧
      initializeInvoice (selectInvoiceNumbers ["GP-9007199254740993"]) ⟨none, true⟩ =
        "GP-9007199254740992" ∧
      storage.getCurrentInvoiceNumber ⟨some "999999999999999999999", true⟩ = "GP-1e+21" := by
  decide

/-- C8, amended. For every non-negative counter value `k` with `k + 1` below `2 ^ 53`, stored
as its decimal text, the local counter is read as `k` and the invoice number produced from
it is `GP-` followed by the decimal digits of `k + 1` with zeros in front up to four
characters: the digit part has exactly 4 characters when `k + 1 ≤ 9999` (`k = 0` gives
`GP-0001`), and it is the text of `k + 1`, whole and without zeros in front, when
`k + 1 ≥ 10000`. The number that `initializeInvoice` forms from a last number `k` of the
store is the same text. -/
theorem getCurrentInvoiceNumber_format (k : Nat) (hk : k + 1 < 9007199254740992) :
    storage.getLastInvoiceNumber ⟨some (natToString k), true⟩ = JSInt.fin (k : Int) ∧
      storage.getCurrentInvoiceNumber ⟨some (natToString k), true⟩ =
        "GP-" ++ String.mk (List.replicate (4 - (natToString (k + 1)).length) '0') ++
          natToString (k + 1) ∧
      ((∀ c ∈ (natToString (k + 1)).data, isDecimalDigit c = true) ∧
        digitsValue (natToString (k + 1)).data = k + 1) ∧
      (k + 1 ≤ 9999 →
        (String.mk (List.replicate (4 - (natToString (k + 1)).length) '0') ++
          natToString (k + 1)).length = 4) ∧
      (10000 ≤ k + 1 →
        storage.getCurrentInvoiceNumber ⟨some (natToString k), true⟩ =
          "GP-" ++ natToString (k + 1)) ∧
      storage.getCurrentInvoiceNumber ⟨some (natToString 0), true⟩ = "GP-0001" ∧
      (∀ (response : QueryResponse) (ls : LocalStorage),
        supabaseService.getLastInvoiceNumber response = Except.ok (JSInt.fin (k : Int)) →
          initializeInvoice response ls =
            storage.getCurrentInvoiceNumber ⟨some (natToString k), true⟩) := by
  have hlast := getLastInvoiceNumber_stored k (by omega)
  have hcur := getCurrentInvoiceNumber_stored k hk
  have hspec := natToString_spec (k + 1)
  refine ⟨hlast, ?_, ⟨hspec.2.1, hspec.2.2⟩, ?_, ?_, by decide, ?_⟩
  · rw [hcur, padStart_natToString]
  · intro hle
    have hlen := length_natToString_le_four (k + 1) hle
    rw [String.length_append]
    have hmk : (String.mk (List.replicate (4 - (natToString (k + 1)).length) '0')).length =
        4 - (natToString (k + 1)).length :=
      List.length_replicate _ _
    rw [hmk]
    omega
  · intro hge
    have hlen := four_le_length_natToString (k + 1) hge
    have hz : 4 - (natToString (k + 1)).length = 0 := by omega
    rw [hcur, padStart_natToString, hz]
    apply String.ext
    simp [String.data_append]
  · intro response ls hresp
    simp only [initializeInvoice, hresp, hcur, addOne_natCast k hk,
      intToString_natCast (k + 1) hk]

/-- C8, amended, at the counter value 41 and at a store whose highest number is 41: the
invoice number is `GP-0042` on both paths. -/
theorem getCurrentInvoiceNumber_format_witness :
    storage.getCurrentInvoiceNumber ⟨some (natToString 41), true⟩ =
        "GP-" ++ String.mk (List.replicate (4 - (natToString (41 + 1)).length) '0') ++
          natToString (41 + 1) ∧
      initializeInvoice (selectInvoiceNumbers ["GP-0041"]) ⟨none, true⟩ =
        storage.getCurrentInvoiceNumber ⟨some (natToString 41), true⟩ :=
  ⟨(getCurrentInvoiceNumber_format 41 (by norm_num)).2.1,
    (getCurrentInvoiceNumber_format 41 (by norm_num)).2.2.2.2.2.2
      (selectInvoiceNumbers ["GP-0041"]) ⟨none, true⟩ (by rfl)⟩

/-! ## The number after the highest one of the store -/

/-- The loop of `getLastInvoiceNumber` is the fold of `maxStep`. -/
theorem getLastInvoiceNumber_select (table : List String) :
    supabaseService.getLastInvoiceNumber (selectInvoiceNumbers table) =
      Except.ok ((table.filter ilikeGP).foldl maxStep (JSInt.fin 0)) := by
  simp only [supabaseService.getLastInvoiceNumber, selectInvoiceNumbers]
  by_cases h : (table.filter ilikeGP).length > 0
  · rw [if_pos h]
    rfl
  · rw [if_neg h]
    have hnil : table.filter ilikeGP = [] := List.length_eq_zero.mp (by omega)
    rw [hnil]
    rfl

/-- The pattern `GP-` and digits matches an invoice number of that form and captures all
its digits. -/
theorem matchGP_gpNumber (ds : List Char) (hne : ds ≠ [])
    (hall : ∀ c ∈ ds, isDecimalDigit c = true) : matchGP (gpNumber ds).data = some ds := by
  cases ds with
  | nil => exact absurd rfl hne
  | cons d tail =>
    have hd := hall d (List.mem_cons_self d tail)
    have htake := takeWhile_digits (d :: tail) hall
    simp only [gpNumber, matchGP, hd, if_true, htake]

/-- An invoice number of the form `GP-` and digits passes the filter of the query. -/
theorem ilikeGP_gpNumber (ds : List Char) : ilikeGP (gpNumber ds) = true := by
  simp only [ilikeGP, gpNumber, List.take, List.map]
  decide

/-- One turn of the loop on an invoice number of the form `GP-` and digits, the numbers
being below `2 ^ 53`: the greater of the two numbers is kept. -/
theorem maxStep_gpNumber (init : Nat) (ds : List Char) (hne : ds ≠ [])
    (hall : ∀ c ∈ ds, isDecimalDigit c = true) (hlt : digitsValue ds < 9007199254740992) :
    maxStep (JSInt.fin (init : Int)) (gpNumber ds) =
      JSInt.fin ((max init (digitsValue ds) : Nat) : Int) := by
  have hparse : parseInt10 (String.mk ds) = JSInt.fin (digitsValue ds : Int) := by
    rw [parseInt10_digits (String.mk ds) hne hall, toNumber_of_lt _ hlt]
  simp only [maxStep, matchGP_gpNumber ds hne hall, hparse, gt_natCast, decide_eq_true_eq]
  by_cases hgt : init < digitsValue ds
  · rw [if_pos hgt, Nat.max_eq_right (Nat.le_of_lt hgt)]
  · rw [if_neg hgt, Nat.max_eq_left (not_lt.mp hgt)]

/-- Over invoice numbers of the form `GP-` and digits, with numbers below `2 ^ 53`, the loop
ends with a natural number that is at least its start and at least every number, and that is
its start or one of the numbers. -/
theorem foldl_maxStep_gpNumber_spec (suffixes : List (List Char)) :
    ∀ init : Nat,
      (∀ ds ∈ suffixes, ds ≠ [] ∧ (∀ c ∈ ds, isDecimalDigit c = true) ∧
        digitsValue ds < 9007199254740992) →
      ∃ r : Nat, (suffixes.map gpNumber).foldl maxStep (JSInt.fin (init : Int)) =
          JSInt.fin (r : Int) ∧ init ≤ r ∧ (∀ v ∈ suffixes.map digitsValue, v ≤ r) ∧
        (r = init ∨ r ∈ suffixes.map digitsValue) := by
  induction suffixes with
  | nil =>
    intro init _
    exact ⟨init, rfl, Nat.le_refl init, by simp, Or.inl rfl⟩
  | cons ds rest ih =>
    intro init hdigits
    obtain ⟨hne, hall, hlt⟩ := hdigits ds (List.mem_cons_self ds rest)
    obtain ⟨r, hr, hle, hge, hmem⟩ := ih (max init (digitsValue ds))
      (fun d hd => hdigits d (List.mem_cons_of_mem ds hd))
    refine ⟨r, ?_, ?_, ?_, ?_⟩
    · rw [List.map_cons, List.foldl_cons, maxStep_gpNumber init ds hne hall hlt, hr]
    · exact Nat.le_trans (Nat.le_max_left _ _) hle
    · intro v hv
      rw [List.map_cons, List.mem_cons] at hv
      rcases hv with hv | hv
      · rw [hv]
        exact Nat.le_trans (Nat.le_max_right _ _) hle
      · exact hge v hv
    · rcases hmem with hmem | hmem
      · rcases Nat.le_total init (digitsValue ds) with h | h
        · right
          rw [hmem, Nat.max_eq_right h, List.map_cons]
          exact List.mem_cons_self _ _
        · left
          rw [hmem, Nat.max_eq_left h]
      · right
        rw [List.map_cons]
        exact List.mem_cons_of_mem _ hmem

/-- Over invoice numbers of the form `GP-` and digits, the loop returns the maximum of the
numeric suffixes when that maximum is below `2 ^ 53`. -/
theorem foldl_maxStep_gpNumber (suffixes : List (List Char)) (m : Nat)
    (hdigits : ∀ ds ∈ suffixes, ds ≠ [] ∧ ∀ c ∈ ds, isDecimalDigit c = true)
    (hmem : m ∈ suffixes.map digitsValue)
    (hmax : ∀ v ∈ suffixes.map digitsValue, v ≤ m) (hm : m < 9007199254740992) :
    (suffixes.map gpNumber).foldl maxStep (JSInt.fin 0) = JSInt.fin (m : Int) := by
  obtain ⟨r, hr, _, hge, hin⟩ := foldl_maxStep_gpNumber_spec suffixes 0 (by
    intro ds hds
    have hle := hmax (digitsValue ds) (List.mem_map.mpr ⟨ds, hds, rfl⟩)
    exact ⟨(hdigits ds hds).1, (hdigits ds hds).2, by omega⟩)
  have hrm : r = m := by
    have h1 := hge m hmem
    rcases hin with h0 | hin
    · omega
    · have h2 := hmax r hin
      omega
  rw [← hrm]
  exact hr

/-- C9, as stated, fails beyond the integers that a binary64 number holds exactly: with the
one existing number `GP-9007199254740993` the number offered is `GP-9007199254740992`, which
is not `m + 1` for the maximum `m` of the suffixes, and is below the existing number. -/
theorem initializeInvoice_rounded_counterexample :
    digitsValue "9007199254740993".data = 9007199254740993 ∧
      initializeInvoice (selectInvoiceNumbers ["GP-9007199254740993"]) ⟨none, true⟩ =
        "GP-9007199254740992" ∧
      initializeInvoice (selectInvoiceNumbers ["GP-9007199254740993"]) ⟨none, true⟩ ≠
        "GP-" ++ padStart (natToString (9007199254740993 + 1)) 4 '0' := by
  decide

/-- C9, amended. For every non-empty collection of existing invoice numbers of the form
`GP-` and decimal digits, in any order, whose maximum numeric suffix `m` has `m + 1` below
`2 ^ 53`, the number that `initializeInvoice` gives to a new invoice is `GP-` followed by
`m + 1` padded with zeros to four digits; the result is the same for every reordering of the
collection. -/
theorem initializeInvoice_next_after_max (suffixes : List (List Char)) (ls : LocalStorage)
    (m : Nat)
    (hdigits : ∀ ds ∈ suffixes, ds ≠ [] ∧ ∀ c ∈ ds, isDecimalDigit c = true)
    (hmem : m ∈ suffixes.map digitsValue)
    (hmax : ∀ v ∈ suffixes.map digitsValue, v ≤ m)
    (hm : m + 1 < 9007199254740992) :
    initializeInvoice (selectInvoiceNumbers (suffixes.map gpNumber)) ls =
        "GP-" ++ padStart (natToString (m + 1)) 4 '0' ∧
      ∀ reordered : List (List Char), reordered.Perm suffixes →
        initializeInvoice (selectInvoiceNumbers (reordered.map gpNumber)) ls =
          "GP-" ++ padStart (natToString (m + 1)) 4 '0' := by
  have hmain : ∀ sfx : List (List Char),
      (∀ ds ∈ sfx, ds ≠ [] ∧ ∀ c ∈ ds, isDecimalDigit c = true) →
      m ∈ sfx.map digitsValue → (∀ v ∈ sfx.map digitsValue, v ≤ m) →
      initializeInvoice (selectInvoiceNumbers (sfx.map gpNumber)) ls =
        "GP-" ++ padStart (natToString (m + 1)) 4 '0' := by
    intro sfx hd hmm hx
    have hfilter : (sfx.map gpNumber).filter ilikeGP = sfx.map gpNumber := by
      rw [List.filter_eq_self]
      intro row hrow
      obtain ⟨ds, _, hds⟩ := List.mem_map.mp hrow
      rw [← hds]
      exact ilikeGP_gpNumber ds
    simp only [initializeInvoice, getLastInvoiceNumber_select, hfilter,
      foldl_maxStep_gpNumber sfx m hd hmm hx (by omega), addOne_natCast m hm,
      intToString_natCast (m + 1) hm]
  refine ⟨hmain suffixes hdigits hmem hmax, ?_⟩
  intro reordered hperm
  refine hmain reordered ?_ ?_ ?_
  · intro ds hds
    exact hdigits ds (hperm.mem_iff.mp hds)
  · exact (hperm.map digitsValue).mem_iff.mpr hmem
  · intro v hv
    exact hmax v ((hperm.map digitsValue).mem_iff.mp hv)

/-- C9, amended, at the existing numbers `GP-0001`, `GP-0007`, `GP-0003`: the next number is
`GP-0008`. -/
theorem initializeInvoice_next_after_max_witness :
    initializeInvoice (selectInvoiceNumbers ["GP-0001", "GP-0007", "GP-0003"]) ⟨none, true⟩
      = "GP-0008" :=
  (initializeInvoice_next_after_max ["0001".data, "0007".data, "0003".data] ⟨none, true⟩ 7
    (by decide) (by decide) (by decide) (by norm_num)).1

/-- C10, at the existing numbers `gp-0009` and `GP-0002`: the query, which compares without
regard to case, returns both rows, the pattern of the loop matches only `GP-0002`, and the
next number is `GP-0003`, not `GP-0010`. -/
theorem initializeInvoice_lower_case_prefix :
    (selectInvoiceNumbers ["gp-0009", "GP-0002"]).data = some ["gp-0009", "GP-0002"] ∧
      matchGP "gp-0009".data = none ∧
      initializeInvoice (selectInvoiceNumbers ["gp-0009", "GP-0002"]) ⟨none, true⟩ = "GP-0003" ∧
      initializeInvoice (selectInvoiceNumbers ["GP-0009", "GP-0002"]) ⟨none, true⟩ = "GP-0010" := by
  decide

/-! ## The number offered when the store has no matching invoice number -/

/-- Over rows without a match of `GP-` and digits the loop keeps its start value. -/
theorem foldl_maxStep_of_no_match (rows : List String) (init : JSInt)
    (hnone : ∀ row ∈ rows, matchGP row.data = none) : rows.foldl maxStep init = init := by
  induction rows generalizing init with
  | nil => rfl
  | cons row rest ih =>
    have hrow : maxStep init row = init := by
      simp only [maxStep, hnone row (List.mem_cons_self row rest)]
    rw [List.foldl_cons, hrow]
    exact ih init (fun r hr => hnone r (List.mem_cons_of_mem row hr))

/-- C11, as stated, fails: with the local counter at 41, a query that succeeds with no row
and a query that fails both lead to the number `GP-0001`, not to `GP-0042`, the number after
the local counter. -/
theorem initializeInvoice_local_counter_counterexample :
    initializeInvoice (selectInvoiceNumbers []) ⟨some "41", true⟩ = "GP-0001" ∧
      initializeInvoice ⟨none, some "network error"⟩ ⟨some "41", true⟩ = "GP-0001" ∧
      storage.getCurrentInvoiceNumber ⟨some "41", true⟩ = "GP-0042" ∧
      initializeInvoice (selectInvoiceNumbers []) ⟨some "41", true⟩ ≠
        storage.getCurrentInvoiceNumber ⟨some "41", true⟩ := by
  decide

/-- C11, amended. Whenever the query for the last invoice number succeeds and none of the
rows it returns contains `GP-` and digits (there is no row, or no row matches), the last
number is taken as 0 and the number offered for a new invoice is `GP-0001`, for every value
of the local counter: the local counter is not consulted. -/
theorem initializeInvoice_without_match (table : List String) (ls : LocalStorage)
    (hnone : ∀ row ∈ table, ilikeGP row = true → matchGP row.data = none) :
    supabaseService.getLastInvoiceNumber (selectInvoiceNumbers table) =
        Except.ok (JSInt.fin 0) ∧
      initializeInvoice (selectInvoiceNumbers table) ls = "GP-0001" := by
  have hfold : (table.filter ilikeGP).foldl maxStep (JSInt.fin 0) = JSInt.fin 0 := by
    apply foldl_maxStep_of_no_match
    intro row hrow
    rw [List.mem_filter] at hrow
    exact hnone row hrow.1 hrow.2
  have hlast : supabaseService.getLastInvoiceNumber (selectInvoiceNumbers table) =
      Except.ok (JSInt.fin 0) := by
    rw [getLastInvoiceNumber_select, hfold]
  refine ⟨hlast, ?_⟩
  simp only [initializeInvoice, hlast]
  decide

/-- C11, amended, at a store holding the invoice numbers `INV-7` and `GP-A12`, neither with
digits after `GP-`, and the local counter at 41: the number offered is `GP-0001`. -/
theorem initializeInvoice_without_match_witness :
    initializeInvoice (selectInvoiceNumbers ["INV-7", "GP-A12"]) ⟨some "41", true⟩ = "GP-0001" :=
  (initializeInvoice_without_match ["INV-7", "GP-A12"] ⟨some "41", true⟩ (by decide)).2

/-! ## The local counter at submission -/

/-- What the pattern `GP-` and digits captures is a non-empty run of decimal digits. -/
theorem matchGP_digits (cs ds : List Char) (hmatch : matchGP cs = some ds) :
    ds ≠ [] ∧ ∀ c ∈ ds, isDecimalDigit c = true := by
  induction cs with
  | nil => simp [matchGP] at hmatch
  | cons c rest ih =>
    unfold matchGP at hmatch
    split at hmatch
    · rename_i d tail heq
      by_cases hd : isDecimalDigit d = true
      · rw [if_pos hd] at hmatch
        have hds : ds = (d :: tail).takeWhile isDecimalDigit := (Option.some.inj hmatch).symm
        rw [hds, List.takeWhile_cons_of_pos hd]
        refine ⟨by simp, ?_⟩
        intro x hx
        rw [List.mem_cons] at hx
        rcases hx with hx | hx
        · rw [hx]; exact hd
        · exact (List.mem_takeWhile_imp hx)
      · rw [if_neg hd] at hmatch
        exact ih hmatch
    · exact ih hmatch

/-- The number that `handleSelectTemplate` reads from the captured digits. -/
theorem parseInt10_of_matchGP (cs ds : List Char) (hmatch : matchGP cs = some ds) :
    parseInt10 (String.mk ds) = toNumber false (digitsValue ds) :=
  parseInt10_digits (String.mk ds) (matchGP_digits cs ds hmatch).1
    (matchGP_digits cs ds hmatch).2

/-- A natural number below `2 ^ 53` saved to an available storage is read back. -/
theorem getLastInvoiceNumber_saveInvoiceNumber (ls : LocalStorage) (k : Nat)
    (hk : k < 9007199254740992) (havail : ls.available = true) :
    storage.getLastInvoiceNumber (storage.saveInvoiceNumber ls (JSInt.fin (k : Int))) =
      JSInt.fin (k : Int) := by
  simp only [storage.saveInvoiceNumber, havail, if_true, storage.getLastInvoiceNumber,
    intToString_natCast k hk, natToString_ne_empty k, ne_eq, not_false_eq_true,
    parseInt10_natToString k hk]

/-- Saving the used number does not change whether the storage is available. -/
theorem saveUsedNumber_available (ls : LocalStorage) (invoiceNumber : String) :
    (saveUsedNumber ls invoiceNumber).available = ls.available := by
  unfold saveUsedNumber
  cases matchGP invoiceNumber.data with
  | none => rfl
  | some digits =>
    simp only [storage.saveInvoiceNumber]
    by_cases h : ls.available = true
    · rw [if_pos h]
    · rw [if_neg h]

/-- After the used number, below `2 ^ 53`, was saved, the counter is that number. -/
theorem getLastInvoiceNumber_saveUsedNumber (ls : LocalStorage) (invoiceNumber : String)
    (digits : List Char) (hmatch : matchGP invoiceNumber.data = some digits)
    (havail : ls.available = true) (hlt : digitsValue digits < 9007199254740992) :
    storage.getLastInvoiceNumber (saveUsedNumber ls invoiceNumber) =
      JSInt.fin (digitsValue digits : Int) := by
  simp only [saveUsedNumber, hmatch, parseInt10_of_matchGP _ _ hmatch, toNumber_of_lt _ hlt]
  exact getLastInvoiceNumber_saveInvoiceNumber ls (digitsValue digits) hlt havail

/-- The local storage that a submission leaves is the one with the used number saved,
whatever the store answers. -/
theorem handleSelectTemplate_localStorage (templateId : Nat) (editId : Option String)
    (formData : FormData) (lineItems : List LineItem) (totals : Totals) (ls : LocalStorage)
    (invoiceGenerated : Bool) (insert : InvoiceRow → StoreAnswer)
    (update : String → InvoiceRow → StoreAnswer) (isoNow : String) :
    (handleSelectTemplate templateId editId formData lineItems totals ls invoiceGenerated
      insert update isoNow).localStorage = saveUsedNumber ls formData.invoiceNumber := by
  unfold handleSelectTemplate
  cases editId with
  | none =>
    simp only
    cases supabaseService.saveInvoice insert
      { getInvoiceData formData lineItems totals with templateId := some templateId } <;> rfl
  | some id =>
    simp only
    cases supabaseService.updateInvoice update id
      { getInvoiceData formData lineItems totals with templateId := some templateId }
      isoNow <;> rfl

/-- The calls of the synchronous part of a submission and the calls of the callback given to
`import(...).then` do not depend on what the store answers: the storage module is asked for
when the invoice number matches, then the request goes to the store; the callback writes the
counter. -/
theorem handleSelectTemplate_calls (templateId : Nat) (editId : Option String)
    (formData : FormData) (lineItems : List LineItem) (totals : Totals) (ls : LocalStorage)
    (invoiceGenerated : Bool) (insert : InvoiceRow → StoreAnswer)
    (update : String → InvoiceRow → StoreAnswer) (isoNow : String) :
    (handleSelectTemplate templateId editId formData lineItems totals ls invoiceGenerated
        insert update isoNow).started =
      importCalls formData.invoiceNumber ++
        [match editId with
          | some id => SubmitCall.updateInvoice id (supabaseService.updateInvoiceRow
              { getInvoiceData formData lineItems totals with templateId := some templateId }
              isoNow)
          | none => SubmitCall.saveInvoice (supabaseService.saveInvoiceRow
              { getInvoiceData formData lineItems totals with
                templateId := some templateId })] ∧
    (handleSelectTemplate templateId editId formData lineItems totals ls invoiceGenerated
        insert update isoNow).onStorageLoaded = storageCalls formData.invoiceNumber := by
  unfold handleSelectTemplate
  cases editId with
  | none =>
    simp only
    cases supabaseService.saveInvoice insert
      { getInvoiceData formData lineItems totals with templateId := some templateId } <;>
      exact ⟨rfl, rfl⟩
  | some id =>
    simp only
    cases supabaseService.updateInvoice update id
      { getInvoiceData formData lineItems totals with templateId := some templateId }
      isoNow <;> exact ⟨rfl, rfl⟩

/-- C12, as stated, fails: a new invoice numbered `GP-0042` is submitted with the local
counter at 41 and the insert of the store fails; the failure is reported, and the local
counter is 42 after the submission. -/
theorem handleSelectTemplate_failed_store_counterexample :
    (handleSelectTemplate 1 none (draftForm "GP-0042") pricedItems
        (calculateTotals pricedItems (draftForm "GP-0042"))
        ⟨some "41", true⟩ false failingInsert failingUpdate "2024-01-15T10:30:00.000Z").message
        = "Failed to save invoice. Please try again." ∧
      storage.getLastInvoiceNumber ⟨some "41", true⟩ = JSInt.fin 41 ∧
      storage.getLastInvoiceNumber
        (handleSelectTemplate 1 none (draftForm "GP-0042") pricedItems
        (calculateTotals pricedItems (draftForm "GP-0042"))
          ⟨some "41", true⟩ false failingInsert failingUpdate
          "2024-01-15T10:30:00.000Z").localStorage = JSInt.fin 42 ∧
      (handleSelectTemplate 1 none (draftForm "GP-0042") pricedItems
        (calculateTotals pricedItems (draftForm "GP-0042"))
          ⟨some "41", true⟩ false failingInsert failingUpdate
          "2024-01-15T10:30:00.000Z").localStorage ≠ ⟨some "41", true⟩ := by
  decide

/-- C12, amended. On a submission the used number is saved to the local counter whatever the
store answers. When the invoice number contains `GP-` and digits, the storage module is
asked for first, the request to the store is made next, and the callback that runs once the
module is loaded writes the number that `parseInt` reads from the digits: the calls and the
local storage after the submission are the same for every behaviour of the store. On an
available storage the counter after the submission is the number written by the digits when
that number is below `2 ^ 53`, also when the store call fails. When the invoice number has
no such part, nothing is written and the local storage is as before. -/
theorem handleSelectTemplate_saves_used_number (templateId : Nat) (editId : Option String)
    (formData : FormData) (lineItems : List LineItem) (totals : Totals) (ls : LocalStorage)
    (invoiceGenerated : Bool) (insert : InvoiceRow → StoreAnswer)
    (update : String → InvoiceRow → StoreAnswer) (isoNow : String) :
    (∀ (otherInsert : InvoiceRow → StoreAnswer)
        (otherUpdate : String → InvoiceRow → StoreAnswer),
      (handleSelectTemplate templateId editId formData lineItems totals ls invoiceGenerated
        otherInsert otherUpdate isoNow).localStorage =
      (handleSelectTemplate templateId editId formData lineItems totals ls invoiceGenerated
        insert update isoNow).localStorage ∧
      (handleSelectTemplate templateId editId formData lineItems totals ls invoiceGenerated
        otherInsert otherUpdate isoNow).started =
      (handleSelectTemplate templateId editId formData lineItems totals ls invoiceGenerated
        insert update isoNow).started ∧
      (handleSelectTemplate templateId editId formData lineItems totals ls invoiceGenerated
        otherInsert otherUpdate isoNow).onStorageLoaded =
      (handleSelectTemplate templateId editId formData lineItems totals ls invoiceGenerated
        insert update isoNow).onStorageLoaded) ∧
    (∀ digits : List Char, matchGP formData.invoiceNumber.data = some digits →
      (∃ request : SubmitCall,
        (handleSelectTemplate templateId editId formData lineItems totals ls invoiceGenerated
          insert update isoNow).started = [SubmitCall.importStorage, request] ∧
        request ≠ SubmitCall.importStorage ∧
        ∀ number, request ≠ SubmitCall.saveInvoiceNumber number) ∧
      (handleSelectTemplate templateId editId formData lineItems totals ls invoiceGenerated
        insert update isoNow).onStorageLoaded =
          [SubmitCall.saveInvoiceNumber (toNumber false (digitsValue digits))] ∧
      (handleSelectTemplate templateId editId formData lineItems totals ls invoiceGenerated
        insert update isoNow).localStorage =
          storage.saveInvoiceNumber ls (toNumber false (digitsValue digits)) ∧
      (ls.available = true → digitsValue digits < 9007199254740992 →
        storage.getLastInvoiceNumber
          (handleSelectTemplate templateId editId formData lineItems totals ls
            invoiceGenerated insert update isoNow).localStorage =
          JSInt.fin (digitsValue digits : Int))) ∧
    (matchGP formData.invoiceNumber.data = none →
      (handleSelectTemplate templateId editId formData lineItems totals ls invoiceGenerated
        insert update isoNow).localStorage = ls ∧
      (handleSelectTemplate templateId editId formData lineItems totals ls invoiceGenerated
        insert update isoNow).onStorageLoaded = []) := by
  refine ⟨?_, ?_, ?_⟩
  · intro otherInsert otherUpdate
    refine ⟨?_, ?_, ?_⟩
    · rw [handleSelectTemplate_localStorage, handleSelectTemplate_localStorage]
    · rw [(handleSelectTemplate_calls templateId editId formData lineItems totals ls
        invoiceGenerated otherInsert otherUpdate isoNow).1,
        (handleSelectTemplate_calls templateId editId formData lineItems totals ls
        invoiceGenerated insert update isoNow).1]
    · rw [(handleSelectTemplate_calls templateId editId formData lineItems totals ls
        invoiceGenerated otherInsert otherUpdate isoNow).2,
        (handleSelectTemplate_calls templateId editId formData lineItems totals ls
        invoiceGenerated insert update isoNow).2]
  · intro digits hmatch
    have hparse := parseInt10_of_matchGP _ _ hmatch
    refine ⟨?_, ?_, ?_, ?_⟩
    · rw [(handleSelectTemplate_calls templateId editId formData lineItems totals ls
        invoiceGenerated insert update isoNow).1]
      simp only [importCalls, hmatch, List.singleton_append]
      cases editId with
      | none => exact ⟨_, rfl, by simp, by simp⟩
      | some id => exact ⟨_, rfl, by simp, by simp⟩
    · rw [(handleSelectTemplate_calls templateId editId formData lineItems totals ls
        invoiceGenerated insert update isoNow).2]
      simp only [storageCalls, hmatch, hparse]
    · rw [handleSelectTemplate_localStorage]
      simp only [saveUsedNumber, hmatch, hparse]
    · intro havail hlt
      rw [handleSelectTemplate_localStorage]
      exact getLastInvoiceNumber_saveUsedNumber ls _ digits hmatch havail hlt
  · intro hnone
    constructor
    · rw [handleSelectTemplate_localStorage]
      simp only [saveUsedNumber, hnone]
    · rw [(handleSelectTemplate_calls templateId editId formData lineItems totals ls
        invoiceGenerated insert update isoNow).2]
      simp only [storageCalls, hnone]

/-- C12, amended, at the submission of `GP-0042` with the local counter at 41 and a failing
store: the counter is 42 afterwards. -/
theorem handleSelectTemplate_saves_used_number_witness :
    storage.getLastInvoiceNumber
      (handleSelectTemplate 1 none (draftForm "GP-0042") pricedItems
        (calculateTotals pricedItems (draftForm "GP-0042"))
        ⟨some "41", true⟩ false failingInsert failingUpdate
        "2024-01-15T10:30:00.000Z").localStorage =
          JSInt.fin (digitsValue "0042".data : Int) :=
  (handleSelectTemplate_saves_used_number 1 none (draftForm "GP-0042") pricedItems
    (calculateTotals pricedItems (draftForm "GP-0042")) ⟨some "41", true⟩ false failingInsert
    failingUpdate "2024-01-15T10:30:00.000Z").2.1 "0042".data (by decide) |>.2.2.2 rfl
      (by decide)

/-! ## The local counter over a run of submissions -/

/-- C13, as stated, fails: after the submissions of `GP-0007` and then `GP-0003` (a lower
number typed into the form, or an older invoice edited) the counter goes from 7 down to 3,
which is not the maximum of the numbers submitted. -/
theorem submitAll_decreases_counterexample :
    storage.getLastInvoiceNumber (submitAll ⟨none, true⟩ ["GP-0007"]) = JSInt.fin 7 ∧
      storage.getLastInvoiceNumber (submitAll ⟨none, true⟩ ["GP-0007", "GP-0003"]) =
        JSInt.fin 3 ∧
      storage.getLastInvoiceNumber (submitAll ⟨none, true⟩ ["GP-0007", "GP-0003"]) ≠
        JSInt.fin 7 := by
  decide

/-- Saving the used numbers of a run of submissions does not change whether the storage is
available. -/
theorem submitAll_available (ls : LocalStorage) (invoiceNumbers : List String) :
    (submitAll ls invoiceNumbers).available = ls.available := by
  induction invoiceNumbers generalizing ls with
  | nil => rfl
  | cons n rest ih =>
    have h := ih (saveUsedNumber ls n)
    rw [saveUsedNumber_available] at h
    exact h

/-- C13, amended. The local counter holds the number of the last submission whose invoice
number contains `GP-` and digits: after such a submission, on an available storage, the
counter is the number that `parseInt` reads from the digits, which is the number written by
the digits when that is below `2 ^ 53`, whether it is higher or lower than the numbers
submitted before; a submission whose number has no such part leaves the local storage as it
was. -/
theorem submitAll_last_number (ls : LocalStorage) (earlier : List String)
    (invoiceNumber : String) :
    (∀ digits : List Char, matchGP invoiceNumber.data = some digits → ls.available = true →
      (submitAll ls (earlier ++ [invoiceNumber])).sequence =
          some (intToString (toNumber false (digitsValue digits))) ∧
        (digitsValue digits < 9007199254740992 →
          storage.getLastInvoiceNumber (submitAll ls (earlier ++ [invoiceNumber])) =
            JSInt.fin (digitsValue digits : Int))) ∧
    (matchGP invoiceNumber.data = none →
      submitAll ls (earlier ++ [invoiceNumber]) = submitAll ls earlier) := by
  have hsplit : submitAll ls (earlier ++ [invoiceNumber]) =
      saveUsedNumber (submitAll ls earlier) invoiceNumber := by
    simp [submitAll, List.foldl_append]
  constructor
  · intro digits hmatch havail
    have havail2 : (submitAll ls earlier).available = true :=
      (submitAll_available ls earlier).trans havail
    rw [hsplit]
    constructor
    · simp only [saveUsedNumber, hmatch, parseInt10_of_matchGP _ _ hmatch,
        storage.saveInvoiceNumber, havail2, if_true]
    · intro hlt
      exact getLastInvoiceNumber_saveUsedNumber _ _ digits hmatch havail2 hlt
  · intro hnone
    rw [hsplit]
    simp only [saveUsedNumber, hnone]

/-- C13, amended, at the submissions `GP-0007`, `GP-0003`: the counter is 3. -/
theorem submitAll_last_number_witness :
    storage.getLastInvoiceNumber (submitAll ⟨none, true⟩ (["GP-0007"] ++ ["GP-0003"])) =
      JSInt.fin (digitsValue "0003".data : Int) :=
  ((submitAll_last_number ⟨none, true⟩ ["GP-0007"] "GP-0003").1 "0003".data (by decide)
    rfl).2 (by decide)

/-! ## Reading the current number does not reserve it -/

/-- C14. `storage.getCurrentInvoiceNumber` leaves the local storage, hence the local
counter, as it was, and two calls one after the other, with no submission in between,
return the same invoice number; `storage.generateNextInvoiceNumber`, in contrast, saves the
number it returns. -/
theorem getCurrentInvoiceNumber_does_not_reserve (ls : LocalStorage) :
    (getCurrentInvoiceNumberCall ls).2 = ls ∧
      storage.getLastInvoiceNumber (getCurrentInvoiceNumberCall ls).2 =
        storage.getLastInvoiceNumber ls ∧
      (getCurrentInvoiceNumberCall (getCurrentInvoiceNumberCall ls).2).1 =
        (getCurrentInvoiceNumberCall ls).1 ∧
      (getCurrentInvoiceNumberCall ⟨some "41", true⟩).1 = "GP-0042" ∧
      (getCurrentInvoiceNumberCall (getCurrentInvoiceNumberCall ⟨some "41", true⟩).2).1
        = "GP-0042" ∧
      (generateNextInvoiceNumberCall ⟨some "41", true⟩).1 = "GP-0042" ∧
      (generateNextInvoiceNumberCall (generateNextInvoiceNumberCall ⟨some "41", true⟩).2).1
        = "GP-0043" := by
  refine ⟨rfl, rfl, rfl, ?_, ?_, ?_, ?_⟩ <;> decide

/-! ## The file name of an export -/

/-- C15, as stated, fails: the file name for `GP-0001` and `Acme Co.` on 2024-01-15 is not
`GP_0001_Acme_Co_2024-01-15.pdf`. -/
theorem generateFilename_example_counterexample :
    exporter.generateFilename acmeInvoiceData "pdf" "2024-01-15T10:30:00.000Z" ≠
      "GP_0001_Acme_Co_2024-01-15.pdf" := by
  decide

/-- C15, amended. The file name for `GP-0001` and `Acme Co.` on 2024-01-15 is
`GP_0001_Acme_Co__2024-01-15.pdf`: the full stop that ends the client name becomes an
underscore, which is followed by the underscore that separates the name from the date. -/
theorem generateFilename_example :
    exporter.generateFilename acmeInvoiceData "pdf" "2024-01-15T10:30:00.000Z" =
        "GP_0001_Acme_Co__2024-01-15.pdf" ∧
      replaceNonAlnum "GP-0001" = "GP_0001" ∧ replaceNonAlnum "Acme Co." = "Acme_Co_" ∧
      isoDatePart "2024-01-15T10:30:00.000Z" = "2024-01-15" := by
  decide

/-- The character of an ASCII digit or letter has the code of that unit. -/
theorem toNat_ofNat_of_isAlnumUnit (u : Nat) (hu : isAlnumUnit u = true) :
    (Char.ofNat u).toNat = u := by
  have hlt : u < 128 := by
    simp only [isAlnumUnit, Bool.or_eq_true, Bool.and_eq_true, decide_eq_true_eq] at hu
    omega
  interval_cases u <;> rfl

/-- The code units of a text within the basic plane are the codes of its characters. -/
theorem utf16Units_of_basic (x : String) (hx : ∀ c ∈ x.data, c.toNat < 65536) :
    utf16Units x = x.data.map Char.toNat := by
  unfold utf16Units
  generalize x.data = l at hx
  induction l with
  | nil => rfl
  | cons a t ih =>
    have ha := hx a (List.mem_cons_self a t)
    simp only [List.flatMap_cons, ha, if_true, List.map_cons, List.singleton_append]
    rw [ih (fun c hc => hx c (List.mem_cons_of_mem a hc))]

/-- The replacement keeps the number of code units, keeps the ASCII digits and letters where
they are and puts an underscore everywhere else. -/
theorem replaceNonAlnum_spec (x : String) :
    (replaceNonAlnum x).length = (utf16Units x).length ∧
      (replaceNonAlnum x).data.map Char.toNat =
        (utf16Units x).map (fun u => if isAlnumUnit u then u else 95) ∧
      (∀ ch ∈ (replaceNonAlnum x).data, isAlnumUnit ch.toNat = true ∨ ch = '_') := by
  refine ⟨?_, ?_, ?_⟩
  · simp [replaceNonAlnum, String.length]
  · simp only [replaceNonAlnum, List.map_map]
    apply List.map_congr_left
    intro u _
    by_cases hu : isAlnumUnit u = true
    · simp [hu, toNat_ofNat_of_isAlnumUnit u hu]
    · simp only [Function.comp, hu, if_false]
      rfl
  · intro ch hch
    simp only [replaceNonAlnum, List.mem_map] at hch
    obtain ⟨u, _, hu⟩ := hch
    by_cases halnum : isAlnumUnit u = true
    · left
      rw [if_pos halnum] at hu
      rw [← hu, toNat_ofNat_of_isAlnumUnit u halnum]
      exact halnum
    · right
      rw [if_neg halnum] at hu
      exact hu.symm

/-- The date part of a clock reading `date` + `T` + `time` is `date`, the text before the
first `T`. -/
theorem isoDatePart_append (date time : String) (hdate : ∀ ch ∈ date.data, ch ≠ 'T') :
    isoDatePart (date ++ "T" ++ time) = date := by
  have htake : ∀ l : List Char, (∀ ch ∈ l, ch ≠ 'T') →
      (l ++ 'T' :: time.data).takeWhile (fun c => decide (c ≠ 'T')) = l := by
    intro l hl
    induction l with
    | nil => simp
    | cons a t ih =>
      have ha : a ≠ 'T' := hl a (List.mem_cons_self a t)
      rw [List.cons_append, List.takeWhile_cons_of_pos (by simpa using ha),
        ih (fun ch hch => hl ch (List.mem_cons_of_mem a hch))]
  apply String.ext
  simp only [isoDatePart, String.data_append]
  rw [List.append_assoc, List.singleton_append]
  exact htake date.data hdate

/-- C16. For every non-empty invoice number `s`, non-empty client name `c`, date `d` (the
part of the clock reading `d` + `T` + time of day before the `T`) and extension `e`,
`generateFilename` returns `clean(s) + "_" + clean(c) + "_" + d + "." + e`, where `clean`
replaces every code unit outside `[a-zA-Z0-9]` by one underscore and keeps the others:
`clean(x)` has the length of `x`, agrees with `x` at every ASCII digit or letter, has an
underscore everywhere else and so consists of characters of `[a-zA-Z0-9_]` only; for a text
within the basic plane the code units are its characters. The result depends only on `s`,
`c`, `d` and `e`: not on the time of day nor on any other field of the invoice. -/
theorem generateFilename_pattern (invoiceData : InvoiceData) (extension date time : String)
    (hs : invoiceData.invoiceNumber ≠ "") (hc : invoiceData.invoiceForName ≠ "")
    (hdate : ∀ ch ∈ date.data, ch ≠ 'T') :
    exporter.generateFilename invoiceData extension (date ++ "T" ++ time) =
        replaceNonAlnum invoiceData.invoiceNumber ++ "_" ++
          replaceNonAlnum invoiceData.invoiceForName ++ "_" ++ date ++ "." ++ extension ∧
      (∀ x : String,
        (replaceNonAlnum x).length = (utf16Units x).length ∧
        (replaceNonAlnum x).data.map Char.toNat =
          (utf16Units x).map (fun u => if isAlnumUnit u then u else 95) ∧
        (∀ ch ∈ (replaceNonAlnum x).data, isAlnumUnit ch.toNat = true ∨ ch = '_') ∧
        ((∀ ch ∈ x.data, ch.toNat < 65536) →
          (replaceNonAlnum x).data =
            x.data.map (fun ch => if isAlnumUnit ch.toNat then ch else '_'))) ∧
      (∀ (other : InvoiceData) (otherTime : String),
        other.invoiceNumber = invoiceData.invoiceNumber →
        other.invoiceForName = invoiceData.invoiceForName →
        exporter.generateFilename other extension (date ++ "T" ++ otherTime) =
          exporter.generateFilename invoiceData extension (date ++ "T" ++ time)) := by
  refine ⟨?_, ?_, ?_⟩
  · simp only [exporter.generateFilename, hs, hc, ne_eq, not_false_eq_true, if_true,
      isoDatePart_append date time hdate]
  · intro x
    obtain ⟨h1, h2, h3⟩ := replaceNonAlnum_spec x
    refine ⟨h1, h2, h3, ?_⟩
    intro hbasic
    simp only [replaceNonAlnum, utf16Units_of_basic x hbasic, List.map_map]
    apply List.map_congr_left
    intro ch _
    simp only [Function.comp, Char.ofNat_toNat]
  · intro other otherTime h1 h2
    simp only [exporter.generateFilename, h1, h2, isoDatePart_append date time hdate,
      isoDatePart_append date otherTime hdate]

/-- C16, at the invoice number `GP-0001`, the client `Acme Co.`, the extension `png` and a
clock reading on 2024-01-15: the third part of the name is `2024-01-15`. -/
theorem generateFilename_pattern_witness :
    exporter.generateFilename acmeInvoiceData "png" ("2024-01-15" ++ "T" ++ "23:59:59.999Z") =
      replaceNonAlnum "GP-0001" ++ "_" ++ replaceNonAlnum "Acme Co." ++ "_" ++
        "2024-01-15" ++ "." ++ "png" :=
  (generateFilename_pattern acmeInvoiceData "png" "2024-01-15" "23:59:59.999Z"
    (by decide) (by decide) (by decide)).1

/-! ## The line items of a form session -/

/-- The running maximum is at least its start and at least every number met. -/
theorem le_foldl_max (ids : List Nat) (init : Nat) :
    init ≤ ids.foldl max init ∧ ∀ i ∈ ids, i ≤ ids.foldl max init := by
  induction ids generalizing init with
  | nil => simp
  | cons a t ih =>
    obtain ⟨h1, h2⟩ := ih (max init a)
    refine ⟨Nat.le_trans (Nat.le_max_left init a) h1, ?_⟩
    intro i hi
    rw [List.mem_cons] at hi
    rcases hi with hi | hi
    · rw [hi]
      exact Nat.le_trans (Nat.le_max_right init a) h1
    · exact h2 i hi

/-- The running maximum is its start or one of the numbers met. -/
theorem foldl_max_mem (ids : List Nat) (init : Nat) :
    ids.foldl max init = init ∨ ids.foldl max init ∈ ids := by
  induction ids generalizing init with
  | nil => left; rfl
  | cons a t ih =>
    rcases ih (max init a) with h | h
    · rcases Nat.le_total init a with hle | hle
      · right
        rw [List.foldl_cons, h, Nat.max_eq_right hle]
        exact List.mem_cons_self a t
      · left
        rw [List.foldl_cons, h, Nat.max_eq_left hle]
    · right
      exact List.mem_cons_of_mem a h

/-- The id of a new line item is above every id in the list. -/
theorem lt_newLineItemId (lineItems : List LineItem) (item : LineItem)
    (hitem : item ∈ lineItems) : item.id < newLineItemId lineItems := by
  have h := (le_foldl_max (lineItems.map (fun it => it.id)) 0).2 item.id
    (List.mem_map.mpr ⟨item, hitem, rfl⟩)
  unfold newLineItemId
  omega

/-- `updateLineItem` keeps the ids, in their order. -/
theorem updateLineItem_ids (lineItems : List LineItem) (id : Nat) (edit : LineItemEdit) :
    (updateLineItem lineItems id edit).map (fun item => item.id) =
      lineItems.map (fun item => item.id) := by
  simp only [updateLineItem, List.map_map]
  apply List.map_congr_left
  intro item _
  by_cases h : item.id = id
  · cases edit <;> simp [Function.comp, h, LineItemEdit.applyTo]
  · simp [Function.comp, h]

/-- The ids given by `loadInvoiceForEdit` count up from the clock reading. -/
theorem loadedLineItems_ids (now : Nat) (items : List StoredLineItem) (index : Nat) :
    (loadedLineItems now index items).map (fun item => item.id) =
      List.range' (now + index) items.length := by
  induction items generalizing index with
  | nil => rfl
  | cons item rest ih =>
    simp only [loadedLineItems, List.map_cons, List.length_cons, List.range'_succ]
    rw [ih (index + 1)]
    rfl

/-- Adding a line item keeps the ids distinct. -/
theorem addLineItem_nodup (lineItems : List LineItem)
    (hnodup : (lineItems.map (fun item => item.id)).Nodup) :
    ((addLineItem lineItems).map (fun item => item.id)).Nodup := by
  simp only [addLineItem, List.map_append, List.map_cons, List.map_nil]
  rw [List.nodup_append]
  refine ⟨hnodup, List.nodup_singleton _, ?_⟩
  intro a ha hb
  rw [List.mem_singleton] at hb
  obtain ⟨item, hitem, hid⟩ := List.mem_map.mp ha
  have := lt_newLineItemId lineItems item hitem
  omega

/-- Removing a line item keeps the ids distinct. -/
theorem removeLineItem_nodup (lineItems : List LineItem) (id : Nat)
    (hnodup : (lineItems.map (fun item => item.id)).Nodup) :
    ((removeLineItem lineItems id).map (fun item => item.id)).Nodup := by
  unfold removeLineItem
  by_cases hlen : lineItems.length > 1
  · rw [if_pos hlen]
    exact hnodup.sublist ((List.filter_sublist lineItems).map _)
  · rw [if_neg hlen]
    have hids : (lineItems.map (fun item =>
        if item.id = id then
          { item with description := "", price := JSVal.num (JSNum.fin 0) }
        else item)).map (fun item => item.id) = lineItems.map (fun item => item.id) := by
      simp only [List.map_map]
      apply List.map_congr_left
      intro item _
      by_cases h : item.id = id <;> simp [Function.comp, h]
    rw [hids]
    exact hnodup

/-- Removing a line item from a list with distinct ids leaves at least one item. -/
theorem removeLineItem_ne_nil (lineItems : List LineItem) (id : Nat) (hne : lineItems ≠ [])
    (hnodup : (lineItems.map (fun item => item.id)).Nodup) :
    removeLineItem lineItems id ≠ [] := by
  unfold removeLineItem
  by_cases hlen : lineItems.length > 1
  · rw [if_pos hlen]
    match lineItems, hlen, hnodup with
    | a :: b :: rest, _, hnd =>
      simp only [List.map_cons, List.nodup_cons, List.mem_cons, not_or] at hnd
      have hab : a.id ≠ b.id := hnd.1.1
      by_cases ha : a.id = id
      · have hb : b.id ≠ id := fun h => hab (ha.trans h.symm)
        intro hnil
        have hmem : b ∈ (a :: b :: rest).filter (fun item => decide (item.id ≠ id)) := by
          rw [List.mem_filter]
          exact ⟨by simp, by simpa using hb⟩
        rw [hnil] at hmem
        exact List.not_mem_nil b hmem
      · intro hnil
        have hmem : a ∈ (a :: b :: rest).filter (fun item => decide (item.id ≠ id)) := by
          rw [List.mem_filter]
          exact ⟨by simp, by simpa using ha⟩
        rw [hnil] at hmem
        exact List.not_mem_nil a hmem
  · rw [if_neg hlen]
    intro hnil
    exact hne (List.map_eq_nil_iff.mp hnil)

/-- Every step of a form session keeps the list of line items non-empty and its ids
distinct. -/
theorem run_preserves_invariant (lineItems : List LineItem) (action : LineItemAction)
    (hne : lineItems ≠ []) (hnodup : (lineItems.map (fun item => item.id)).Nodup) :
    LineItemAction.run lineItems action ≠ [] ∧
      ((LineItemAction.run lineItems action).map (fun item => item.id)).Nodup := by
  cases action with
  | add =>
    refine ⟨?_, addLineItem_nodup lineItems hnodup⟩
    simp [LineItemAction.run, addLineItem]
  | remove id =>
    exact ⟨removeLineItem_ne_nil lineItems id hne hnodup,
      removeLineItem_nodup lineItems id hnodup⟩
  | update id edit =>
    constructor
    · intro hnil
      simp only [LineItemAction.run, updateLineItem, List.map_eq_nil_iff] at hnil
      exact hne hnil
    · simp only [LineItemAction.run]
      rw [updateLineItem_ids]
      exact hnodup
  | reset ls isoNow =>
    simp [LineItemAction.run, resetForm]
  | load stored now =>
    cases stored with
    | none => exact ⟨hne, hnodup⟩
    | some items =>
      simp only [LineItemAction.run, loadInvoiceLineItems]
      by_cases hlen : (loadedLineItems now 0 items).length > 0
      · rw [if_pos hlen]
        refine ⟨List.ne_nil_of_length_pos hlen, ?_⟩
        rw [loadedLineItems_ids]
        exact List.nodup_range' _ _
      · rw [if_neg hlen]
        simp

/-- After every run of steps from the line items of a fresh form the list is non-empty and
its ids are distinct. -/
theorem foldl_run_invariant (actions : List LineItemAction) (lineItems : List LineItem)
    (hne : lineItems ≠ []) (hnodup : (lineItems.map (fun item => item.id)).Nodup) :
    actions.foldl LineItemAction.run lineItems ≠ [] ∧
      ((actions.foldl LineItemAction.run lineItems).map (fun item => item.id)).Nodup := by
  induction actions generalizing lineItems with
  | nil => exact ⟨hne, hnodup⟩
  | cons action rest ih =>
    obtain ⟨h1, h2⟩ := run_preserves_invariant lineItems action hne hnodup
    exact ih (LineItemAction.run lineItems action) h1 h2

/-- C17. The list of line items always contains at least one entry: starting from the
single item of a fresh form, after every sequence of `addLineItem`, `removeLineItem` with
any id, `updateLineItem`, `resetForm` and the loading of a stored invoice for editing, the
list has length at least 1. -/
theorem lineItems_length_pos (actions : List LineItemAction) :
    1 ≤ (actions.foldl LineItemAction.run initialLineItems).length := by
  have h := (foldl_run_invariant actions initialLineItems (by simp [initialLineItems])
    (by simp [initialLineItems])).1
  exact List.length_pos.mpr h

/-- C18. When the list holds exactly one line item, with id `i`, `removeLineItem(i)` yields
a list of length 1 whose only item keeps the id `i` and has the description `''` and the
price 0; the list does not shrink to length 0. -/
theorem removeLineItem_sole_item (i : Nat) (description : String) (price : JSVal) :
    removeLineItem [⟨i, description, price⟩] i = [⟨i, "", JSVal.num (JSNum.fin 0)⟩] ∧
      (removeLineItem [⟨i, description, price⟩] i).length = 1 := by
  simp [removeLineItem]

/-- C19, as stated, fails: after a second item is added (id 2) and removed, the next item
added gets the id 2 again, which is not above every id issued earlier. -/
theorem addLineItem_reuses_id_counterexample :
    (addLineItem initialLineItems).map (fun item => item.id) = [1, 2] ∧
      (removeLineItem (addLineItem initialLineItems) 2).map (fun item => item.id) = [1] ∧
      (addLineItem (removeLineItem (addLineItem initialLineItems) 2)).map
        (fun item => item.id) = [1, 2] ∧
      newLineItemId (removeLineItem (addLineItem initialLineItems) 2) =
        newLineItemId initialLineItems := by
  decide

/-- C19, amended. The id given to a newly added item is one more than the highest id in the
list at that moment (1 for an empty list): it is strictly greater than every id in the list,
and the item is appended with an empty description and the price 0. Ids of removed items do
not count, so the highest id is given again once its item was removed. -/
theorem addLineItem_newId (lineItems : List LineItem) :
    addLineItem lineItems =
        lineItems ++ [⟨newLineItemId lineItems, "", JSVal.num (JSNum.fin 0)⟩] ∧
      (∀ item ∈ lineItems, item.id < newLineItemId lineItems) ∧
      (newLineItemId lineItems = 1 ∨
        ∃ item ∈ lineItems, newLineItemId lineItems = item.id + 1) := by
  refine ⟨rfl, lt_newLineItemId lineItems, ?_⟩
  rcases foldl_max_mem (lineItems.map (fun item => item.id)) 0 with h | h
  · left
    simp only [newLineItemId, h]
  · right
    obtain ⟨item, hitem, hid⟩ := List.mem_map.mp h
    exact ⟨item, hitem, by simp only [newLineItemId, hid]⟩

/-! ## The line items sent to the store -/

/-- C20, as stated, fails: for a draft with the single line item `Design`, the one object of
the `line_items` sent by `saveInvoice` has the fields `id`, `description` and `price`, not
the two fields `description` and `price` only. -/
theorem saveInvoiceRow_line_item_fields_counterexample :
    (supabaseService.saveInvoiceRow
        { getInvoiceData blankForm [⟨1, "Design", JSVal.str "100"⟩]
            (calculateTotals [⟨1, "Design", JSVal.str "100"⟩] blankForm) with
          templateId := some 1 }).line_items.map (fun object => object.map Prod.fst)
        = [["id", "description", "price"]] ∧
      (supabaseService.saveInvoiceRow
        { getInvoiceData blankForm [⟨1, "Design", JSVal.str "100"⟩]
            (calculateTotals [⟨1, "Design", JSVal.str "100"⟩] blankForm) with
          templateId := some 1 }).line_items.map (fun object => object.map Prod.fst)
        ≠ [["description", "price"]] := by
  decide

/-- C20, amended. For every draft, the `line_items` array sent to the store by `saveInvoice`
and by `updateInvoice` holds the line items that `getInvoiceData` keeps, in their order, each
as the object of the form with its three fields `id`, `description` and `price`. -/
theorem saveInvoiceRow_line_items (formData : FormData) (lineItems : List LineItem)
    (totals : Totals) (templateId : Nat) (isoNow : String) :
    (supabaseService.saveInvoiceRow
        { getInvoiceData formData lineItems totals with
          templateId := some templateId }).line_items =
        (lineItems.filter isValidLineItem).map LineItem.toObject ∧
      (supabaseService.updateInvoiceRow
        { getInvoiceData formData lineItems totals with
          templateId := some templateId } isoNow).line_items =
        (lineItems.filter isValidLineItem).map LineItem.toObject ∧
      (∀ object ∈ (lineItems.filter isValidLineItem).map LineItem.toObject,
        object.map Prod.fst = ["id", "description", "price"]) ∧
      (∀ (insert : InvoiceRow → StoreAnswer) (answer : StoreAnswer),
        insert (supabaseService.saveInvoiceRow
          { getInvoiceData formData lineItems totals with
            templateId := some templateId }) = answer →
        answer.error = none →
        supabaseService.saveInvoice insert
          { getInvoiceData formData lineItems totals with templateId := some templateId } =
          Except.ok answer.data) := by
  refine ⟨rfl, rfl, ?_, ?_⟩
  · intro object hobject
    obtain ⟨item, _, hitem⟩ := List.mem_map.mp hobject
    rw [← hitem]
    rfl
  · intro insert answer hanswer herror
    simp only [supabaseService.saveInvoice, hanswer, herror]

/-- C20, amended, at a draft with one line item and a store that accepts the record. -/
theorem saveInvoiceRow_line_items_witness :
    supabaseService.saveInvoice acceptingInsert
        { getInvoiceData blankForm [⟨1, "Design", JSVal.str "100"⟩]
            (calculateTotals [⟨1, "Design", JSVal.str "100"⟩] blankForm) with
          templateId := some 1 } =
      Except.ok (acceptingInsert (supabaseService.saveInvoiceRow
        { getInvoiceData blankForm [⟨1, "Design", JSVal.str "100"⟩]
            (calculateTotals [⟨1, "Design", JSVal.str "100"⟩] blankForm) with
          templateId := some 1 })).data :=
  (saveInvoiceRow_line_items blankForm [⟨1, "Design", JSVal.str "100"⟩]
    (calculateTotals [⟨1, "Design", JSVal.str "100"⟩] blankForm) 1
    "2024-01-15T10:30:00.000Z").2.2.2 acceptingInsert _ rfl rfl

/-! ## Share: menu or native -/

/-- C21. With the PDF file generated (the view rasterized to `canvas` and the document
built): when the platform has no native share (`navigator.share` absent) or cannot share the
file (`canShare` is false), `sharePDF` resolves with `success = true`, `method = 'menu'` and
an options object with exactly the four channels `email`, `whatsapp`, `telegram` and
`download`, and the calls made are the rasterization, the building of the document and the
making of a URL for the file: no action of a channel is run; when native share is supported
and completes, it resolves with `success = true`, `method = 'native'`, after the call of
`navigator.share`. When the file is not generated, because the rasterization or the building
of the document fails, `sharePDF` throws that error, without a menu and without a further
call. -/
theorem sharePDF_menu_or_native (raster : Except String Canvas)
    (encoded : Except String Unit) (invoiceData : InvoiceData) (isoNow : String)
    (platform : SharePlatform) :
    (∀ canvas : Canvas, raster = Except.ok canvas → encoded = Except.ok () →
      (platform.hasShare = false ∨ platform.canShare = some false) →
      ∃ options : List (String × ShareOption),
        (exporter.sharePDF raster encoded invoiceData isoNow platform).1 =
          Except.ok ⟨true, "menu", some options⟩ ∧
        options.map Prod.fst = ["email", "whatsapp", "telegram", "download"] ∧
        options.map (fun entry => entry.2.channel) =
          [ShareChannel.email, ShareChannel.whatsapp, ShareChannel.telegram,
            ShareChannel.download] ∧
        (exporter.sharePDF raster encoded invoiceData isoNow platform).2 =
          [Effect.rasterize, Effect.addImage canvas,
            Effect.createObjectURL (exporter.generateFilename invoiceData "pdf" isoNow)] ∧
        ∀ effect ∈ (exporter.sharePDF raster encoded invoiceData isoNow platform).2,
          effect.isChannelCall = false) ∧
    (∀ canvas : Canvas, raster = Except.ok canvas → encoded = Except.ok () →
      platform.hasShare = true → platform.canShare = some true →
      platform.shared = Except.ok () →
      (exporter.sharePDF raster encoded invoiceData isoNow platform).1 =
          Except.ok ⟨true, "native", none⟩ ∧
        (exporter.sharePDF raster encoded invoiceData isoNow platform).2 =
          [Effect.rasterize, Effect.addImage canvas,
            Effect.nativeShare (exporter.generateFilename invoiceData "pdf" isoNow)]) ∧
    (∀ error : String, raster = Except.error error →
      exporter.sharePDF raster encoded invoiceData isoNow platform =
        (Except.error error, [Effect.rasterize])) ∧
    (∀ (canvas : Canvas) (error : String), raster = Except.ok canvas →
      encoded = Except.error error →
      exporter.sharePDF raster encoded invoiceData isoNow platform =
        (Except.error error, [Effect.rasterize, Effect.addImage canvas])) := by
  refine ⟨?_, ?_, ?_, ?_⟩
  · intro canvas hraster hencoded hplatform
    have hshare : exporter.sharePDF raster encoded invoiceData isoNow platform =
        (Except.ok (exporter.openShareMenu
            (exporter.generateFilename invoiceData "pdf" isoNow)).1,
          [Effect.rasterize, Effect.addImage canvas] ++
            (exporter.openShareMenu (exporter.generateFilename invoiceData "pdf" isoNow)).2) := by
      rcases hplatform with h | h
      · simp only [exporter.sharePDF, exporter.generatePDFBlob, hraster, hencoded, h,
          Bool.false_eq_true, if_false]
      · by_cases hs : platform.hasShare = true
        · simp only [exporter.sharePDF, exporter.generatePDFBlob, hraster, hencoded, h, hs,
            if_true]
        · have hf : platform.hasShare = false := by simpa using hs
          simp only [exporter.sharePDF, exporter.generatePDFBlob, hraster, hencoded, hf,
            Bool.false_eq_true, if_false]
    refine ⟨[("email", ⟨"Email", ShareChannel.email⟩),
        ("whatsapp", ⟨"WhatsApp", ShareChannel.whatsapp⟩),
        ("telegram", ⟨"Telegram", ShareChannel.telegram⟩),
        ("download", ⟨"Download PDF", ShareChannel.download⟩)], ?_, ?_, ?_, ?_, ?_⟩
    · rw [hshare]
      rfl
    · rfl
    · rfl
    · rw [hshare]
      rfl
    · intro effect heffect
      rw [hshare] at heffect
      simp only [exporter.openShareMenu, List.cons_append, List.nil_append, List.mem_cons,
        List.mem_singleton, List.not_mem_nil, or_false] at heffect
      rcases heffect with h | h | h <;> rw [h] <;> rfl
  · intro canvas hraster hencoded hs hc hd
    have hnative : exporter.sharePDF raster encoded invoiceData isoNow platform =
        (Except.ok ⟨true, "native", none⟩,
          [Effect.rasterize, Effect.addImage canvas] ++
            [Effect.nativeShare (exporter.generateFilename invoiceData "pdf" isoNow)]) := by
      simp only [exporter.sharePDF, exporter.generatePDFBlob, hraster, hencoded, hs, hc, hd,
        if_true]
    rw [hnative]
    exact ⟨rfl, rfl⟩
  · intro error hraster
    simp only [exporter.sharePDF, exporter.generatePDFBlob, hraster]
  · intro canvas error hraster hencoded
    simp only [exporter.sharePDF, exporter.generatePDFBlob, hraster, hencoded]

/-- C21, on a platform without `navigator.share`: the menu with its four entries. -/
theorem sharePDF_menu_or_native_witness :
    ∃ options : List (String × ShareOption),
      (exporter.sharePDF (Except.ok ⟨1588, 2246⟩) (Except.ok ()) acmeInvoiceData
          "2024-01-15T10:30:00.000Z" ⟨false, none, Except.ok ()⟩).1 =
        Except.ok ⟨true, "menu", some options⟩ ∧
      options.map Prod.fst = ["email", "whatsapp", "telegram", "download"] :=
  match (sharePDF_menu_or_native (Except.ok ⟨1588, 2246⟩) (Except.ok ()) acmeInvoiceData
    "2024-01-15T10:30:00.000Z" ⟨false, none, Except.ok ()⟩).1 ⟨1588, 2246⟩ rfl rfl
      (Or.inl rfl) with
  | ⟨options, h1, h2, _⟩ => ⟨options, h1, h2⟩

/-! ## Export when the rasterization fails -/

/-- C22. If the rasterization of the view fails, `exportPDF` ends by throwing the error of
the rasterization (it does not return `true`), `pdf.save` is not called, so no file is
produced, and the `onDone` callback, when one is given, is called exactly once. -/
theorem exportPDF_raster_failure (error : String) (encoded saved : Except String Unit)
    (invoiceData : InvoiceData) (isoNow : String) (onLoading onDone : Bool) :
    (exporter.exportPDF (Except.error error) encoded saved invoiceData isoNow onLoading
        onDone).1 = Except.error error ∧
      (∀ effect ∈ (exporter.exportPDF (Except.error error) encoded saved invoiceData isoNow
        onLoading onDone).2, effect.isSave = false) ∧
      (exporter.exportPDF (Except.error error) encoded saved invoiceData isoNow onLoading
        onDone).2.count Effect.done = (if onDone = true then 1 else 0) ∧
      (exporter.exportPDF (Except.error error) encoded saved invoiceData isoNow true
        true).2 = [Effect.loading "Generating PDF...", Effect.rasterize, Effect.done] := by
  refine ⟨rfl, ?_, ?_, rfl⟩
  · cases onLoading <;> cases onDone <;> simp [exporter.exportPDF, Effect.isSave]
  · cases onLoading <;> cases onDone <;> simp [exporter.exportPDF]

/-! ## What a failed creation reports -/

/-- A submission of a new invoice whose insert the store rejects: the page afterwards. -/
theorem submitPage_of_insert_error (templateId : Nat) (page : PageState)
    (insert : InvoiceRow → StoreAnswer) (update : String → InvoiceRow → StoreAnswer)
    (isoNow : String) (error : String)
    (herror : (insert (supabaseService.saveInvoiceRow
      { getInvoiceData page.formData page.lineItems page.totals with
        templateId := some templateId })).error = some error) :
    submitPage templateId none page insert update isoNow =
      { page with
        localStorage := saveUsedNumber page.localStorage page.formData.invoiceNumber
        message := some "Failed to save invoice. Please try again." } := by
  simp only [submitPage, handleSelectTemplate, supabaseService.saveInvoice, herror]
  rfl

/-- C23, as stated, fails: a creation rejected by the uniqueness constraint and a creation
that fails for the network leave the same page, with the same message; nothing tells the
duplicate apart. -/
theorem submitPage_duplicate_counterexample :
    supabaseService.saveInvoice duplicateInsert
        { getInvoiceData samplePage.formData samplePage.lineItems samplePage.totals with
          templateId := some 1 } =
      Except.error "duplicate key value violates unique constraint" ∧
    supabaseService.saveInvoice failingInsert
        { getInvoiceData samplePage.formData samplePage.lineItems samplePage.totals with
          templateId := some 1 } = Except.error "network error" ∧
    (submitPage 1 none samplePage duplicateInsert failingUpdate
        "2024-01-15T10:30:00.000Z").message =
      some "Failed to save invoice. Please try again." ∧
    submitPage 1 none samplePage duplicateInsert failingUpdate "2024-01-15T10:30:00.000Z" =
      submitPage 1 none samplePage failingInsert failingUpdate "2024-01-15T10:30:00.000Z" := by
  refine ⟨rfl, rfl, ?_, ?_⟩
  · rw [submitPage_of_insert_error 1 samplePage duplicateInsert failingUpdate _ _ rfl]
  · rw [submitPage_of_insert_error 1 samplePage duplicateInsert failingUpdate _ _ rfl,
      submitPage_of_insert_error 1 samplePage failingInsert failingUpdate _ _ rfl]

/-- C23, amended. A rejection of invoice creation by the store, whether caused by the
uniqueness constraint on the invoice number or by any other storage failure, is thrown by
`saveInvoice` as the error of the store and reported by `handleSelectTemplate` with the one
message `Failed to save invoice. Please try again.`: the page afterwards is the same for
every error. In every case the form fields, the line items and the totals in memory are
left unchanged. -/
theorem submitPage_failure_report (templateId : Nat) (page : PageState)
    (insert : InvoiceRow → StoreAnswer) (update : String → InvoiceRow → StoreAnswer)
    (isoNow : String) (error : String)
    (herror : (insert (supabaseService.saveInvoiceRow
      { getInvoiceData page.formData page.lineItems page.totals with
        templateId := some templateId })).error = some error) :
    supabaseService.saveInvoice insert
        { getInvoiceData page.formData page.lineItems page.totals with
          templateId := some templateId } = Except.error error ∧
      (submitPage templateId none page insert update isoNow).message =
        some "Failed to save invoice. Please try again." ∧
      (∀ (otherInsert : InvoiceRow → StoreAnswer) (otherError : String),
        (otherInsert (supabaseService.saveInvoiceRow
          { getInvoiceData page.formData page.lineItems page.totals with
            templateId := some templateId })).error = some otherError →
        submitPage templateId none page otherInsert update isoNow =
          submitPage templateId none page insert update isoNow) ∧
      (submitPage templateId none page insert update isoNow).formData = page.formData ∧
      (submitPage templateId none page insert update isoNow).lineItems = page.lineItems ∧
      (submitPage templateId none page insert update isoNow).totals = page.totals := by
  refine ⟨?_, ?_, ?_, rfl, rfl, rfl⟩
  · simp only [supabaseService.saveInvoice, herror]
  · rw [submitPage_of_insert_error templateId page insert update isoNow error herror]
  · intro otherInsert otherError hother
    rw [submitPage_of_insert_error templateId page insert update isoNow error herror,
      submitPage_of_insert_error templateId page otherInsert update isoNow otherError hother]

/-- C23, amended, at the draft `GP-0042` rejected as a duplicate. -/
theorem submitPage_failure_report_witness :
    (submitPage 1 none samplePage duplicateInsert failingUpdate
        "2024-01-15T10:30:00.000Z").message =
      some "Failed to save invoice. Please try again." :=
  (submitPage_failure_report 1 samplePage duplicateInsert failingUpdate
    "2024-01-15T10:30:00.000Z" "duplicate key value violates unique constraint" rfl).2.1

/-! ## Store failures reach the caller -/

/-- C24. `saveInvoice`, `updateInvoice`, `deleteInvoice` and `getAllInvoices` pass every
failure of the store on to the caller. On a store with a state, each fails with an error
exactly when the store reported that error to its request, and returns a value exactly when
the store reported no error, the value being the data of the store (`true` for a delete, the
empty list for a list without data): no other value stands in for an error. The store after
the call is the store after that one request: the request is not made a second time. The
operations on a store without state are these calls. On a store that fails at the first
request and would succeed at the second, each operation fails, after one request. -/
theorem store_operations_propagate {σ : Type} (insert : InvoiceRow → σ → StoreAnswer × σ)
    (update : String → InvoiceRow → σ → StoreAnswer × σ)
    (delete : String → σ → StoreAnswer × σ) (select : σ → supabaseService.ListAnswer × σ)
    (store : σ) (id : String) (invoiceData : InvoiceData) (isoNow : String) :
    ((∀ error, (supabaseService.saveInvoiceCall insert invoiceData store).1 =
          Except.error error ↔
        (insert (supabaseService.saveInvoiceRow invoiceData) store).1.error = some error) ∧
      (∀ value, (supabaseService.saveInvoiceCall insert invoiceData store).1 =
          Except.ok value ↔
        (insert (supabaseService.saveInvoiceRow invoiceData) store).1.error = none ∧
          value = (insert (supabaseService.saveInvoiceRow invoiceData) store).1.data) ∧
      (supabaseService.saveInvoiceCall insert invoiceData store).2 =
        (insert (supabaseService.saveInvoiceRow invoiceData) store).2) ∧
    ((∀ error, (supabaseService.updateInvoiceCall update id invoiceData isoNow store).1 =
          Except.error error ↔
        (update id (supabaseService.updateInvoiceRow invoiceData isoNow) store).1.error =
          some error) ∧
      (∀ value, (supabaseService.updateInvoiceCall update id invoiceData isoNow store).1 =
          Except.ok value ↔
        (update id (supabaseService.updateInvoiceRow invoiceData isoNow) store).1.error =
            none ∧
          value =
            (update id (supabaseService.updateInvoiceRow invoiceData isoNow) store).1.data) ∧
      (supabaseService.updateInvoiceCall update id invoiceData isoNow store).2 =
        (update id (supabaseService.updateInvoiceRow invoiceData isoNow) store).2) ∧
    ((∀ error, (supabaseService.deleteInvoiceCall delete id store).1 = Except.error error ↔
        (delete id store).1.error = some error) ∧
      (∀ value, (supabaseService.deleteInvoiceCall delete id store).1 = Except.ok value ↔
        (delete id store).1.error = none ∧ value = true) ∧
      (supabaseService.deleteInvoiceCall delete id store).2 = (delete id store).2) ∧
    ((∀ error, (supabaseService.getAllInvoicesCall select store).1 = Except.error error ↔
        (select store).1.error = some error) ∧
      (∀ value, (supabaseService.getAllInvoicesCall select store).1 = Except.ok value ↔
        (select store).1.error = none ∧ value = (select store).1.data.getD []) ∧
      (supabaseService.getAllInvoicesCall select store).2 = (select store).2) ∧
    ((∀ answer : InvoiceRow → StoreAnswer,
        supabaseService.saveInvoice answer invoiceData =
          (supabaseService.saveInvoiceCall (fun row (u : Unit) => (answer row, u))
            invoiceData ()).1) ∧
      (∀ answer : String → InvoiceRow → StoreAnswer,
        supabaseService.updateInvoice answer id invoiceData isoNow =
          (supabaseService.updateInvoiceCall (fun i row (u : Unit) => (answer i row, u)) id
            invoiceData isoNow ()).1) ∧
      (∀ answer : String → StoreAnswer,
        supabaseService.deleteInvoice answer id =
          (supabaseService.deleteInvoiceCall (fun i (u : Unit) => (answer i, u)) id ()).1) ∧
      (∀ answer : supabaseService.ListAnswer,
        supabaseService.getAllInvoices answer =
          (supabaseService.getAllInvoicesCall (fun (u : Unit) => (answer, u)) ()).1)) ∧
    (supabaseService.saveInvoiceCall flakyInsert invoiceData 0 =
        (Except.error "network error", 1) ∧
      supabaseService.updateInvoiceCall (fun _ => flakyInsert) id invoiceData isoNow 0 =
        (Except.error "network error", 1) ∧
      supabaseService.deleteInvoiceCall flakyDelete id 0 =
        (Except.error "network error", 1) ∧
      supabaseService.getAllInvoicesCall flakySelect 0 =
        (Except.error "network error", 1)) := by
  refine ⟨⟨?_, ?_, ?_⟩, ⟨?_, ?_, ?_⟩, ⟨?_, ?_, ?_⟩, ⟨?_, ?_, ?_⟩, ⟨?_, ?_, ?_, ?_⟩,
    ⟨rfl, rfl, rfl, rfl⟩⟩
  · intro error
    unfold supabaseService.saveInvoiceCall
    cases h : (insert (supabaseService.saveInvoiceRow invoiceData) store).1.error <;> simp
  · intro value
    unfold supabaseService.saveInvoiceCall
    cases h : (insert (supabaseService.saveInvoiceRow invoiceData) store).1.error <;>
      simp [eq_comm]
  · unfold supabaseService.saveInvoiceCall
    cases h : (insert (supabaseService.saveInvoiceRow invoiceData) store).1.error <;> rfl
  · intro error
    unfold supabaseService.updateInvoiceCall
    cases h : (update id (supabaseService.updateInvoiceRow invoiceData isoNow)
      store).1.error <;> simp
  · intro value
    unfold supabaseService.updateInvoiceCall
    cases h : (update id (supabaseService.updateInvoiceRow invoiceData isoNow)
      store).1.error <;> simp [eq_comm]
  · unfold supabaseService.updateInvoiceCall
    cases h : (update id (supabaseService.updateInvoiceRow invoiceData isoNow)
      store).1.error <;> rfl
  · intro error
    unfold supabaseService.deleteInvoiceCall
    cases h : (delete id store).1.error <;> simp
  · intro value
    unfold supabaseService.deleteInvoiceCall
    cases h : (delete id store).1.error <;> simp [eq_comm]
  · unfold supabaseService.deleteInvoiceCall
    cases h : (delete id store).1.error <;> rfl
  · intro error
    unfold supabaseService.getAllInvoicesCall
    cases h : (select store).1.error <;> cases hd : (select store).1.data <;> simp
  · intro value
    unfold supabaseService.getAllInvoicesCall
    cases h : (select store).1.error <;> cases hd : (select store).1.data <;>
      simp [eq_comm]
  · unfold supabaseService.getAllInvoicesCall
    cases h : (select store).1.error <;> cases hd : (select store).1.data <;> rfl
  · intro answer
    unfold supabaseService.saveInvoice supabaseService.saveInvoiceCall
    cases h : (answer (supabaseService.saveInvoiceRow invoiceData)).error <;> simp [h]
  · intro answer
    unfold supabaseService.updateInvoice supabaseService.updateInvoiceCall
    cases h : (answer id (supabaseService.updateInvoiceRow invoiceData isoNow)).error <;>
      simp [h]
  · intro answer
    unfold supabaseService.deleteInvoice supabaseService.deleteInvoiceCall
    cases h : (answer id).error <;> simp [h]
  · intro answer
    unfold supabaseService.getAllInvoices supabaseService.getAllInvoicesCall
    cases h : answer.error <;> cases hd : answer.data <;> simp [h, hd]

/-! ## Formatting and reading back an invoice number -/

/-- Zeros in front do not change the value of a run of digits. -/
theorem digitsValue_replicate_zero_append (zeros : Nat) (ds : List Char) :
    digitsValue (List.replicate zeros '0' ++ ds) = digitsValue ds := by
  induction zeros with
  | zero => rfl
  | succ k ih =>
    have hstep : digitsValue ('0' :: (List.replicate k '0' ++ ds)) =
        digitsValue (List.replicate k '0' ++ ds) := by
      simp only [digitsValue, List.foldl_cons]
      rfl
    rw [List.replicate_succ, List.cons_append, hstep, ih]

/-- The number part of a formatted invoice number: a non-empty run of decimal digits whose
value is the number. -/
theorem padStart_natToString_spec (n : Nat) :
    (padStart (natToString n) 4 '0').data ≠ [] ∧
      (∀ c ∈ (padStart (natToString n) 4 '0').data, isDecimalDigit c = true) ∧
      digitsValue (padStart (natToString n) 4 '0').data = n := by
  obtain ⟨hne, hall, hval⟩ := natToString_spec n
  refine ⟨?_, ?_, ?_⟩
  · simp only [padStart, ne_eq, List.append_eq_nil, not_and]
    intro _
    exact hne
  · intro c hc
    simp only [padStart, List.mem_append, List.mem_replicate] at hc
    rcases hc with ⟨_, hc⟩ | hc
    · rw [hc]
      decide
    · exact hall c hc
  · simp only [padStart]
    rw [digitsValue_replicate_zero_append, hval]

/-- The pattern `GP-` and digits matches a formatted invoice number and captures the padded
number. -/
theorem matchGP_padStart (n : Nat) :
    matchGP ("GP-" ++ padStart (natToString n) 4 '0').data =
      some (padStart (natToString n) 4 '0').data := by
  obtain ⟨hne, hall, _⟩ := padStart_natToString_spec n
  have hdata : ("GP-" ++ padStart (natToString n) 4 '0').data =
      (gpNumber (padStart (natToString n) 4 '0').data).data := by
    rw [String.data_append]
    rfl
  rw [hdata]
  exact matchGP_gpNumber _ hne hall

/-- C25, as stated, fails beyond the integers that a binary64 number holds exactly. The
number `1000000000000000000000` is formatted as `GP-1e+21`, whose capture `1` reads back
as 1, and that is the counter saved at its submission. The number allocated from the counter
`9007199254740992` is `GP-9007199254740992`, and its submission leaves the counter where it
was. -/
theorem format_parse_rounded_counterexample :
    "GP-" ++ padStart (intToString (JSInt.fin 1000000000000000000000)) 4 '0' = "GP-1e+21" ∧
      matchGP "GP-1e+21".data = some "1".data ∧
      storage.getLastInvoiceNumber (saveUsedNumber ⟨none, true⟩
        ("GP-" ++ padStart (intToString (JSInt.fin 1000000000000000000000)) 4 '0')) =
          JSInt.fin 1 ∧
      storage.getCurrentInvoiceNumber ⟨some "9007199254740992", true⟩ =
        "GP-9007199254740992" ∧
      storage.getLastInvoiceNumber (saveUsedNumber ⟨some "9007199254740992", true⟩
        (storage.getCurrentInvoiceNumber ⟨some "9007199254740992", true⟩)) =
          JSInt.fin 9007199254740992 := by
  decide

/-- C25, amended. Formatting and reading back round-trip on the integers below `2 ^ 53`: for
every such non-negative integer `n`, its text is its decimal digits, the pattern `GP-` and
digits matches `GP-` + the number padded to four digits, its capture is the padded number,
and read in base 10 it gives back `n`; so the counter saved at the submission of that
invoice number is `n`, and the submission of the number allocated from the local counter
`n`, unedited, leaves the counter at `n + 1` when `n + 1` is below `2 ^ 53`. -/
theorem format_parse_roundtrip (n : Nat) (hn : n < 9007199254740992) :
    intToString (JSInt.fin (n : Int)) = natToString n ∧
      matchGP ("GP-" ++ padStart (intToString (JSInt.fin (n : Int))) 4 '0').data =
        some (padStart (natToString n) 4 '0').data ∧
      digitsValue (padStart (natToString n) 4 '0').data = n ∧
      parseInt10 (padStart (natToString n) 4 '0') = JSInt.fin (n : Int) ∧
      (∀ ls : LocalStorage, ls.available = true →
        storage.getLastInvoiceNumber
          (saveUsedNumber ls ("GP-" ++ padStart (intToString (JSInt.fin (n : Int))) 4 '0')) =
            JSInt.fin (n : Int)) ∧
      (n + 1 < 9007199254740992 → ∀ ls : LocalStorage, ls.available = true →
        storage.getLastInvoiceNumber
          (saveUsedNumber ls (storage.getCurrentInvoiceNumber ⟨some (natToString n), true⟩)) =
            JSInt.fin ((n + 1 : Nat) : Int)) := by
  obtain ⟨hne, hall, hval⟩ := padStart_natToString_spec n
  have htext := intToString_natCast n hn
  have hsave : ∀ (m : Nat) (ls : LocalStorage), m < 9007199254740992 →
      ls.available = true →
      storage.getLastInvoiceNumber
        (saveUsedNumber ls ("GP-" ++ padStart (natToString m) 4 '0')) =
          JSInt.fin (m : Int) := by
    intro m ls hm havail
    have h := getLastInvoiceNumber_saveUsedNumber ls
      ("GP-" ++ padStart (natToString m) 4 '0') _ (matchGP_padStart m) havail
      (by rw [(padStart_natToString_spec m).2.2]; exact hm)
    rw [(padStart_natToString_spec m).2.2] at h
    exact h
  refine ⟨htext, ?_, hval, ?_, ?_, ?_⟩
  · rw [htext]
    exact matchGP_padStart n
  · rw [parseInt10_digits _ hne hall, hval, toNumber_of_lt n hn]
  · intro ls havail
    rw [htext]
    exact hsave n ls hn havail
  · intro hn1 ls havail
    rw [getCurrentInvoiceNumber_stored n hn1]
    exact hsave (n + 1) ls hn1 havail

/-- C25, amended, at the number 42: `GP-0042` is read back as 42. -/
theorem format_parse_roundtrip_witness :
    (42 : Nat) < 9007199254740992 ∧
      parseInt10 (padStart (natToString 42) 4 '0') = JSInt.fin ((42 : Nat) : Int) ∧
      storage.getLastInvoiceNumber
        (saveUsedNumber ⟨some "41", true⟩
          ("GP-" ++ padStart (intToString (JSInt.fin ((42 : Nat) : Int))) 4 '0')) =
            JSInt.fin ((42 : Nat) : Int) :=
  ⟨by norm_num, (format_parse_roundtrip 42 (by norm_num)).2.2.2.1,
    (format_parse_roundtrip 42 (by norm_num)).2.2.2.2.1 ⟨some "41", true⟩ rfl⟩

/-! ## The subtotal against the line items kept -/

/-- An item that the filter of `getInvoiceData` drops has no price above zero. -/
theorem orZero_le_zero_of_not_valid (item : LineItem) (h : isValidLineItem item = false) :
    orZero (parseFloat item.price) ≤ 0 := by
  simp only [isValidLineItem, Bool.or_eq_false_iff, decide_eq_false_iff_not, not_lt] at h
  exact h.2

/-- When no parsed price is negative, the prices of the items kept add up to the prices of
all items. -/
theorem sum_filter_isValidLineItem (lineItems : List LineItem)
    (hnonneg : ∀ item ∈ lineItems, 0 ≤ orZero (parseFloat item.price)) :
    ((lineItems.filter isValidLineItem).map (fun item => orZero (parseFloat item.price))).sum =
      (lineItems.map (fun item => orZero (parseFloat item.price))).sum := by
  induction lineItems with
  | nil => rfl
  | cons item rest ih =>
    have hrest := ih (fun it hit => hnonneg it (List.mem_cons_of_mem item hit))
    by_cases hvalid : isValidLineItem item = true
    · rw [List.filter_cons_of_pos hvalid, List.map_cons, List.sum_cons, List.map_cons,
        List.sum_cons, hrest]
    · have hfalse : isValidLineItem item = false := by simpa using hvalid
      have hzero : orZero (parseFloat item.price) = 0 :=
        le_antisymm (orZero_le_zero_of_not_valid item hfalse)
          (hnonneg item (List.mem_cons_self item rest))
      rw [List.filter_cons_of_neg hvalid, List.map_cons, List.sum_cons, hrest, hzero, zero_add]

/-- C26. For every list of line items in which each price parses to a non-negative number or
is not numeric, and the totals computed from it, the subtotal that `getInvoiceData` returns
is the sum of the parsed prices of the line items that `getInvoiceData` keeps, written with
two decimals: the items kept are those with a non-blank description or a price above zero,
in their original order, and every item dropped contributes 0. -/
theorem getInvoiceData_subtotal_consistent (formData : FormData) (lineItems : List LineItem)
    (hnonneg : ∀ item ∈ lineItems, 0 ≤ orZero (parseFloat item.price)) :
    (getInvoiceData formData lineItems (calculateTotals lineItems formData)).lineItems =
        lineItems.filter isValidLineItem ∧
      ((getInvoiceData formData lineItems (calculateTotals lineItems formData)).lineItems.map
        (fun item => orZero (parseFloat item.price))).sum = subtotalOf lineItems ∧
      (getInvoiceData formData lineItems (calculateTotals lineItems formData)).subtotal =
        JSVal.str (toFixed
          (((getInvoiceData formData lineItems
            (calculateTotals lineItems formData)).lineItems.map
              (fun item => orZero (parseFloat item.price))).sum) 2) ∧
      (getInvoiceData formData lineItems (calculateTotals lineItems formData)).lineItems.Sublist
        lineItems ∧
      (∀ item ∈ lineItems,
        item ∈ (getInvoiceData formData lineItems
            (calculateTotals lineItems formData)).lineItems ↔
          (jsTrim item.description ≠ "" ∨ 0 < orZero (parseFloat item.price))) ∧
      (∀ item ∈ lineItems,
        item ∉ (getInvoiceData formData lineItems
            (calculateTotals lineItems formData)).lineItems →
          orZero (parseFloat item.price) = 0) := by
  have hsum := sum_filter_isValidLineItem lineItems hnonneg
  have hkept : (getInvoiceData formData lineItems
      (calculateTotals lineItems formData)).lineItems = lineItems.filter isValidLineItem := rfl
  refine ⟨hkept, ?_, ?_, ?_, ?_, ?_⟩
  · rw [hkept, hsum, subtotalOf_eq_sum]
  · rw [hkept, hsum, ← subtotalOf_eq_sum]
    rfl
  · rw [hkept]
    exact List.filter_sublist lineItems
  · intro item hitem
    rw [hkept, List.mem_filter]
    simp only [isValidLineItem, Bool.or_eq_true, decide_eq_true_eq, hitem, true_and]
  · intro item hitem hnot
    rw [hkept, List.mem_filter] at hnot
    have hfalse : isValidLineItem item = false := by
      by_contra h
      exact hnot ⟨hitem, by simpa using h⟩
    exact le_antisymm (orZero_le_zero_of_not_valid item hfalse) (hnonneg item hitem)

/-- C26, at one item priced 100 and one blank item: the blank item is dropped and the sum of
the prices kept is the subtotal. -/
theorem getInvoiceData_subtotal_consistent_witness :
    ((getInvoiceData blankForm [⟨1, "Design", JSVal.str "100"⟩, ⟨2, "", JSVal.str ""⟩]
        (calculateTotals [⟨1, "Design", JSVal.str "100"⟩, ⟨2, "", JSVal.str ""⟩]
          blankForm)).lineItems.map (fun item => orZero (parseFloat item.price))).sum =
      subtotalOf [⟨1, "Design", JSVal.str "100"⟩, ⟨2, "", JSVal.str ""⟩] :=
  (getInvoiceData_subtotal_consistent blankForm
    [⟨1, "Design", JSVal.str "100"⟩, ⟨2, "", JSVal.str ""⟩]
    (by
      intro item hitem
      simp only [List.mem_cons, List.mem_singleton, List.not_mem_nil, or_false] at hitem
      rcases hitem with h | h <;> rw [h] <;>
        norm_num [parseFloat_100, parseFloat_empty, orZero])).2.1

/-! ## The table reads of the amount in words -/

/-- Below one hundred the words written are the texts of the reads. -/
theorem hundredWordList_eq_reads (n : Nat) :
    hundredWordList n = (hundredLookups n).map WordTable.read := by
  unfold hundredWordList hundredLookups
  by_cases h0 : n = 0
  · simp [h0]
  · by_cases h20 : n < 20
    · simp [h0, h20, WordTable.read, WordTable.entries]
    · by_cases hm : n % 10 ≠ 0
      · simp only [h0, h20, if_false, if_pos hm, List.map_cons, List.map_nil, WordTable.read,
          WordTable.entries]
      · simp only [h0, h20, if_false, if_neg hm, List.map_cons, List.map_nil, WordTable.read,
          WordTable.entries]

/-- The words written for a number are the texts of the reads, with the word `Hundred` after
the first one from 100 on. -/
theorem thousandWordList_eq_reads (n : Nat) :
    thousandWordList n =
      if n < 100 then (thousandLookups n).map WordTable.read
      else ((thousandLookups n).map WordTable.read).take 1 ++ "Hundred" ::
        ((thousandLookups n).map WordTable.read).drop 1 := by
  unfold thousandWordList thousandLookups
  by_cases h : n < 100
  · simp only [h, if_true, hundredWordList_eq_reads]
  · simp only [h, if_false, hundredWordList_eq_reads, List.map_cons, List.take_succ_cons,
      List.take_zero, List.drop_succ_cons, List.drop_zero, List.singleton_append,
      WordTable.read, WordTable.entries]

set_option maxRecDepth 100000 in
/-- For a group value below one thousand every read is within the table and gives a
non-empty word, and every word written is in the vocabulary. -/
theorem thousand_reads_in_bounds :
    ∀ k, k < 1000 →
      (∀ entry ∈ thousandLookups k,
        entry.2 < entry.1.entries.length ∧ WordTable.read entry ≠ "") ∧
      (∀ w ∈ thousandWordList k, w ∈ vocabulary) := by
  decide

/-- Claim C27: for every integer `n` with `0 ≤ n < 10^10`, every read that `numberToWords`
makes of the `ones` and `tens` tables is at an index inside the table and gives a non-empty
word, every word of the result is a non-empty table word or one of `Hundred`, `Thousand`,
`Lakh`, `Crore` (so never `undefined`), and the result is `Zero` for `0` and otherwise these
words joined by single spaces. -/
theorem numberToWords_reads_in_bounds (n : Nat) (hn : n < 10 ^ 10) :
    (∀ entry ∈ numberLookups n,
      entry.2 < entry.1.entries.length ∧ WordTable.read entry ≠ "") ∧
    (∀ w ∈ wordList n, w ∈ vocabulary ∧ w ≠ "undefined" ∧ w ≠ "") ∧
    numberToWords (n : ℚ) = (if n = 0 then "Zero" else spaceJoin (wordList n)) := by
  have hC : n / 10000000 < 1000 := by omega
  have hL : n % 10000000 / 100000 < 1000 := by omega
  have hT : n % 100000 / 1000 < 1000 := by omega
  have hR : n % 1000 < 1000 := by omega
  have hvoc : ∀ w ∈ vocabulary, w ≠ "undefined" ∧ w ≠ "" := by decide
  refine ⟨?_, ?_, ?_⟩
  · intro entry hmem
    have hgroup : ∀ k, k < 1000 →
        entry ∈ (if k > 0 then thousandLookups k else []) →
        entry.2 < entry.1.entries.length ∧ WordTable.read entry ≠ "" := by
      intro k hk hin
      by_cases hpos : k > 0
      · rw [if_pos hpos] at hin
        exact (thousand_reads_in_bounds k hk).1 entry hin
      · rw [if_neg hpos] at hin
        exact absurd hin (List.not_mem_nil entry)
    unfold numberLookups at hmem
    simp only [List.mem_append] at hmem
    rcases hmem with ((hmem | hmem) | hmem) | hmem
    · exact hgroup _ hC hmem
    · exact hgroup _ hL hmem
    · exact hgroup _ hT hmem
    · exact (thousand_reads_in_bounds _ hR).1 entry hmem
  · intro w hmem
    have hgroup : ∀ (k : Nat) (word : String), k < 1000 → word ∈ vocabulary →
        w ∈ (if k > 0 then thousandWordList k ++ [word] else []) → w ∈ vocabulary := by
      intro k word hk hword hin
      by_cases hpos : k > 0
      · rw [if_pos hpos, List.mem_append, List.mem_singleton] at hin
        rcases hin with hin | hin
        · exact (thousand_reads_in_bounds k hk).2 w hin
        · rw [hin]; exact hword
      · rw [if_neg hpos] at hin
        exact absurd hin (List.not_mem_nil w)
    have hin : w ∈ vocabulary := by
      unfold wordList at hmem
      simp only [List.mem_append] at hmem
      rcases hmem with ((hmem | hmem) | hmem) | hmem
      · exact hgroup _ "Crore" hC (by decide) hmem
      · exact hgroup _ "Lakh" hL (by decide) hmem
      · exact hgroup _ "Thousand" hT (by decide) hmem
      · exact (thousand_reads_in_bounds _ hR).2 w hmem
    exact ⟨hin, hvoc w hin⟩
  · rw [numberToWords_natCast, numberToWordsNat]
    by_cases h0 : n = 0
    · simp [h0]
    · rw [if_neg h0, if_neg h0]
      exact convertNat_eq_spaceJoin n (Nat.pos_of_ne_zero h0)

/-- Witness for C27 at `n = 1234567`. -/
theorem numberToWords_reads_in_bounds_witness :
    (1234567 : Nat) < 10 ^ 10 ∧
    (∀ entry ∈ numberLookups 1234567,
      entry.2 < entry.1.entries.length ∧ WordTable.read entry ≠ "") ∧
    (∀ w ∈ wordList 1234567, w ∈ vocabulary ∧ w ≠ "undefined" ∧ w ≠ "") ∧
    numberToWords ((1234567 : Nat) : ℚ) =
      (if (1234567 : Nat) = 0 then "Zero" else spaceJoin (wordList 1234567)) :=
  ⟨by norm_num, numberToWords_reads_in_bounds 1234567 (by norm_num)⟩

/-! ## The words of an amount determine the amount -/

set_option maxRecDepth 100000 in
/-- The reader gives back every group value below one thousand from its words. -/
theorem foldl_wordStep_thousandWordList :
    ∀ k, k < 1000 → (thousandWordList k).foldl wordStep (0, 0) = (0, k) := by
  decide

/-- The value of the closed groups is carried through the reader unchanged. -/
theorem foldl_wordStep_shift (ws : List String) (t c : Nat) :
    ws.foldl wordStep (t, c) =
      (t + (ws.foldl wordStep (0, c)).1, (ws.foldl wordStep (0, c)).2) := by
  induction ws generalizing t c with
  | nil => simp
  | cons w rest ih =>
    have hstep : wordStep (t, c) w = (t + (wordStep (0, c) w).1, (wordStep (0, c) w).2) := by
      unfold wordStep
      by_cases h1 : w = "Crore"
      · simp [h1]
      · by_cases h2 : w = "Lakh"
        · simp [h2]
        · by_cases h3 : w = "Thousand"
          · simp [h1, h2, h3]
          · by_cases h4 : w = "Hundred"
            · simp [h1, h2, h3, h4]
            · simp [h1, h2, h3, h4]
    have hpair : wordStep (0, c) w = ((wordStep (0, c) w).1, (wordStep (0, c) w).2) := rfl
    rw [List.foldl_cons, List.foldl_cons, hstep, ih, hpair, ih (wordStep (0, c) w).1]
    simp only [Nat.add_assoc]

/-- A group of the reading, read after the closed groups, adds its value times its weight. -/
theorem foldl_wordStep_group (k t weight : Nat) (word : String) (hk : k < 1000)
    (hword : ∀ c, wordStep (t, c) word = (t + c * weight, 0)) :
    (if k > 0 then thousandWordList k ++ [word] else []).foldl wordStep (t, 0) =
      (t + k * weight, 0) := by
  by_cases hpos : k > 0
  · rw [if_pos hpos, List.foldl_append, foldl_wordStep_shift (thousandWordList k) t 0,
      foldl_wordStep_thousandWordList k hk]
    simp only [Nat.add_zero, List.foldl_cons, List.foldl_nil]
    exact hword k
  · have hz : k = 0 := by omega
    rw [if_neg hpos, hz]
    simp

/-- The reader gives back every number below `10^10` from its words. -/
theorem decodeWords_wordList (n : Nat) (hn : n < 10 ^ 10) : decodeWords (wordList n) = n := by
  have hC : n / 10000000 < 1000 := by omega
  have hL : n % 10000000 / 100000 < 1000 := by omega
  have hT : n % 100000 / 1000 < 1000 := by omega
  have hR : n % 1000 < 1000 := by omega
  have hfold : (wordList n).foldl wordStep (0, 0) =
      (0 + n / 10000000 * 10000000 + n % 10000000 / 100000 * 100000 +
        n % 100000 / 1000 * 1000, n % 1000) := by
    unfold wordList
    rw [List.foldl_append, List.foldl_append, List.foldl_append,
      foldl_wordStep_group _ 0 10000000 "Crore" hC (fun c => by simp [wordStep]),
      foldl_wordStep_group _ _ 100000 "Lakh" hL (fun c => by simp [wordStep]),
      foldl_wordStep_group _ _ 1000 "Thousand" hT (fun c => by simp [wordStep]),
      foldl_wordStep_shift, foldl_wordStep_thousandWordList _ hR]
    simp only [Nat.add_zero]
  unfold decodeWords
  rw [hfold]
  simp only
  omega

/-- The characters of a join of words are the characters of the words with one space
between two of them. -/
theorem spaceJoin_data (ws : List String) :
    (spaceJoin ws).data = [' '].intercalate (ws.map String.data) := by
  induction ws with
  | nil => rfl
  | cons w rest ih =>
    cases rest with
    | nil => simp [spaceJoin, List.intercalate]
    | cons v rest =>
      rw [spaceJoin, String.data_append, String.data_append, ih]
      simp [List.intercalate, List.intersperse]

/-- The words of a join are found again between its spaces. -/
theorem splitOn_spaceJoin (ws : List String) (hne : ws ≠ [])
    (hwords : ∀ w ∈ ws, IsWord w) :
    ((spaceJoin ws).data.splitOn ' ').map String.mk = ws := by
  rw [spaceJoin_data, List.splitOn_intercalate]
  · rw [List.map_map]
    have hid : (String.mk ∘ String.data) = id := by
      funext w
      rfl
    rw [hid, List.map_id]
  · intro l hl hmem
    rw [List.mem_map] at hl
    obtain ⟨w, hw, rfl⟩ := hl
    have := (hwords w hw).2 ' ' hmem
    revert this
    decide
  · simpa using hne

/-- The reader gives back every number below `10^10` from the text of `numberToWords`. -/
theorem decodeText_numberToWords (n : Nat) (hn : n < 10 ^ 10) :
    decodeText (numberToWords (n : ℚ)) = n := by
  rw [numberToWords_natCast, numberToWordsNat]
  by_cases h0 : n = 0
  · rw [if_pos h0, h0]
    decide
  · rw [if_neg h0, convertNat_eq_spaceJoin n (Nat.pos_of_ne_zero h0), decodeText,
      splitOn_spaceJoin _ (wordList_ne_nil n (Nat.pos_of_ne_zero h0))
        (fun w hw => isWord_of_mem_wordList n w hw)]
    exact decodeWords_wordList n hn

/-- Claim C28: `numberToWords` is injective on the integers `0 ≤ n < 10^10`: two different
amounts of that range are never written with the same words. -/
theorem numberToWords_injective (m n : Nat) (hm : m < 10 ^ 10) (hn : n < 10 ^ 10)
    (hne : m ≠ n) : numberToWords (m : ℚ) ≠ numberToWords (n : ℚ) := by
  intro hwords
  have h := congrArg decodeText hwords
  rw [decodeText_numberToWords m hm, decodeText_numberToWords n hn] at h
  exact hne h

/-- Witness for C28 at the amounts `5` and `50`. -/
theorem numberToWords_injective_witness :
    (5 : Nat) < 10 ^ 10 ∧ (50 : Nat) < 10 ^ 10 ∧ (5 : Nat) ≠ 50 ∧
    numberToWords ((5 : Nat) : ℚ) ≠ numberToWords ((50 : Nat) : ℚ) :=
  ⟨by norm_num, by norm_num, by decide,
    numberToWords_injective 5 50 (by norm_num) (by norm_num) (by decide)⟩

/-! ## Distinct ids and the frame of `updateLineItem` -/

/-- Claim C29: the ids of the line items are pairwise distinct at all times. The ids of the
initial list are distinct, and when the ids of a list are distinct they stay distinct after
`addLineItem` (whose new id is the maximum of the existing ids and 0, plus 1, so above every
existing id), after `removeLineItem` with any id and after `updateLineItem` of the
description or the price; hence they are distinct after every session of such steps. -/
theorem lineItem_ids_pairwise_distinct (lineItems : List LineItem) (id : Nat)
    (edit : LineItemEdit) (hnodup : (lineItems.map (fun item => item.id)).Nodup) :
    (initialLineItems.map (fun item => item.id)).Nodup ∧
    ((addLineItem lineItems).map (fun item => item.id)).Nodup ∧
    (addLineItem lineItems).map (fun item => item.id) =
      lineItems.map (fun item => item.id) ++
        [(lineItems.map (fun item => item.id)).foldl max 0 + 1] ∧
    (∀ item ∈ lineItems, item.id ≤ (lineItems.map (fun item => item.id)).foldl max 0) ∧
    ((lineItems.map (fun item => item.id)).foldl max 0 = 0 ∨
      (lineItems.map (fun item => item.id)).foldl max 0 ∈
        lineItems.map (fun item => item.id)) ∧
    ((removeLineItem lineItems id).map (fun item => item.id)).Nodup ∧
    ((updateLineItem lineItems id edit).map (fun item => item.id)).Nodup ∧
    (∀ actions : List LineItemAction,
      ((actions.foldl LineItemAction.run initialLineItems).map
        (fun item => item.id)).Nodup) := by
  have hinitial : (initialLineItems.map (fun item => item.id)).Nodup := by
    simp [initialLineItems]
  refine ⟨hinitial, addLineItem_nodup lineItems hnodup, ?_, ?_,
    foldl_max_mem _ 0, removeLineItem_nodup lineItems id hnodup, ?_, ?_⟩
  · simp [addLineItem, newLineItemId]
  · intro item hitem
    exact (le_foldl_max (lineItems.map (fun it => it.id)) 0).2 item.id
      (List.mem_map.mpr ⟨item, hitem, rfl⟩)
  · rw [updateLineItem_ids]
    exact hnodup
  · intro actions
    exact (foldl_run_invariant actions initialLineItems (by simp [initialLineItems])
      hinitial).2

/-- Witness for C29 on a list with the ids 1 and 3. -/
theorem lineItem_ids_pairwise_distinct_witness :
    (([⟨1, "Design", JSVal.str "100"⟩, ⟨3, "Hosting", JSVal.str "250"⟩] :
        List LineItem).map (fun item => item.id)).Nodup ∧
    ((addLineItem [⟨1, "Design", JSVal.str "100"⟩, ⟨3, "Hosting", JSVal.str "250"⟩]).map
      (fun item => item.id)).Nodup ∧
    ((removeLineItem [⟨1, "Design", JSVal.str "100"⟩, ⟨3, "Hosting", JSVal.str "250"⟩] 3).map
      (fun item => item.id)).Nodup ∧
    ((updateLineItem [⟨1, "Design", JSVal.str "100"⟩, ⟨3, "Hosting", JSVal.str "250"⟩] 3
      (LineItemEdit.price (JSVal.str "300"))).map (fun item => item.id)).Nodup :=
  have h := lineItem_ids_pairwise_distinct
    [⟨1, "Design", JSVal.str "100"⟩, ⟨3, "Hosting", JSVal.str "250"⟩] 3
    (LineItemEdit.price (JSVal.str "300")) (by decide)
  ⟨by decide, h.2.1, h.2.2.2.2.2.1, h.2.2.2.2.2.2.1⟩

/-- Claim C30: `updateLineItem(id, field, value)` with the field `description` or `price`
changes only the named field of the items whose id is `id`. The list keeps its length and
its order: the item at every position is the former item of that position, edited when its
id is `id` and unchanged otherwise. An edited item keeps its id and the field that was not
named, and has the new value in the named field. The list is returned unchanged when no
item has that id. -/
theorem updateLineItem_frame (lineItems : List LineItem) (id : Nat) (edit : LineItemEdit) :
    (updateLineItem lineItems id edit).length = lineItems.length ∧
    (∀ i : Nat, (updateLineItem lineItems id edit)[i]? =
      (lineItems[i]?).map (fun item => if item.id = id then edit.applyTo item else item)) ∧
    (∀ (i : Nat) (item : LineItem), lineItems[i]? = some item → item.id ≠ id →
      (updateLineItem lineItems id edit)[i]? = some item) ∧
    (∀ item : LineItem, (edit.applyTo item).id = item.id) ∧
    (∀ (item : LineItem) (value : String),
      edit = LineItemEdit.description value →
        edit.applyTo item = ⟨item.id, value, item.price⟩) ∧
    (∀ (item : LineItem) (value : JSVal),
      edit = LineItemEdit.price value →
        edit.applyTo item = ⟨item.id, item.description, value⟩) ∧
    ((∀ item ∈ lineItems, item.id ≠ id) → updateLineItem lineItems id edit = lineItems) := by
  refine ⟨?_, ?_, ?_, ?_, ?_, ?_, ?_⟩
  · simp [updateLineItem]
  · intro i
    simp [updateLineItem]
  · intro i item hi hne
    simp [updateLineItem, hi, hne]
  · intro item
    cases edit <;> rfl
  · intro item value hedit
    rw [hedit]
    rfl
  · intro item value hedit
    rw [hedit]
    rfl
  · intro hnone
    unfold updateLineItem
    conv_rhs => rw [← List.map_id lineItems]
    apply List.map_congr_left
    intro item hitem
    simp [hnone item hitem]

end InvoiceGenerator
